import Mathlib

/-!
# Verification of the rift window-manager reconciliation core

Shallow embedding of the transaction store (`src/model/tx_store.rs`), the
animation engine and layout-commit orchestrator (`src/actor/reactor/animation.rs`)
and the space activation policy (`src/actor/reactor/managers/space_activation.rs`),
together with proofs settling the specification claims about them.

Machine floating-point (`f64`) values are idealised as real numbers; the
concurrent `HashMap`/`HashSet`/`DashMap` containers are modelled as association
lists and duplicate-free lists, with mutation made explicit by state passing.
-/

namespace Rift

/-! ## Association-list helpers (model of `HashMap` used throughout the code) -/

/-- Lookup in an association list (model of `HashMap::get`). -/
def lookupA {α β : Type} [DecidableEq α] : List (α × β) → α → Option β
  | [], _ => none
  | (k, v) :: rest, a => if k = a then some v else lookupA rest a

/-- In-place update of the first entry with the given key; appends the entry if
the key is absent (model of `HashMap::insert` / occupied-entry mutation). -/
def updateA {α β : Type} [DecidableEq α] : List (α × β) → α → β → List (α × β)
  | [], a, b => [(a, b)]
  | (k, v) :: rest, a, b => if k = a then (a, b) :: rest else (k, v) :: updateA rest a b

end Rift

namespace Rift.SpaceActivation

/-! ## Space activation policy — `src/actor/reactor/managers/space_activation.rs`

`SpaceId` and `ScreenId` are newtypes over machine integers in the source; here
both are `Nat`.  The `HashSet`s are modelled as `List`s with `List.insert`
(no-op when the element is present, like `HashSet::insert`) and guarded
`List.erase`; the per-screen `HashMap`s are association lists. -/

/-- Policy state (`SpaceActivationPolicy`). -/
structure SpaceActivationPolicy where
  disabled_spaces : List Nat
  enabled_spaces : List Nat
  disabled_displays : List String
  enabled_displays : List String
  known_user_spaces : List Nat
  starting_space : Option Nat
  last_known_space_by_screen : List (Nat × Nat)
  last_known_display_by_screen : List (Nat × String)
  login_window_active : Bool
deriving DecidableEq

/-- `SpaceActivationConfig`. -/
structure SpaceActivationConfig where
  default_disable : Bool
  one_space : Bool
deriving DecidableEq

/-- `ScreenActivationInput`. -/
structure ScreenActivationInput where
  screen_id : Nat
  space : Option Nat
  display_uuid : Option String
deriving DecidableEq

/-- `SpaceActivationPolicy::new`. -/
def SpaceActivationPolicy.new : SpaceActivationPolicy :=
  { disabled_spaces := [], enabled_spaces := [], disabled_displays := [],
    enabled_displays := [], known_user_spaces := [], starting_space := none,
    last_known_space_by_screen := [], last_known_display_by_screen := [],
    login_window_active := false }

/-- `SpaceActivationPolicy::transfer_space_activation`. -/
def SpaceActivationPolicy.transfer_space_activation (p : SpaceActivationPolicy)
    (cfg : SpaceActivationConfig) (old_space new_space : Nat) : SpaceActivationPolicy :=
  let p :=
    if cfg.default_disable then
      if old_space ∈ p.enabled_spaces then
        { p with enabled_spaces := (p.enabled_spaces.erase old_space).insert new_space }
      else p
    else
      if old_space ∈ p.disabled_spaces then
        { p with disabled_spaces := (p.disabled_spaces.erase old_space).insert new_space }
      else p
  if p.starting_space = some old_space then { p with starting_space := some new_space } else p

/-- `SpaceActivationPolicy::transfer_display_activation`. -/
def SpaceActivationPolicy.transfer_display_activation (p : SpaceActivationPolicy)
    (cfg : SpaceActivationConfig) (old_display new_display : String) : SpaceActivationPolicy :=
  if cfg.default_disable then
    if old_display ∈ p.enabled_displays then
      { p with enabled_displays := (p.enabled_displays.erase old_display).insert new_display }
    else p
  else
    if old_display ∈ p.disabled_displays then
      { p with disabled_displays := (p.disabled_displays.erase old_display).insert new_display }
    else p

/-- First loop of `on_spaces_updated`: transfer space activation across space-id
churn, record known user spaces and last-known-space snapshots. -/
def spacesChurnLoop (cfg : SpaceActivationConfig) :
    SpaceActivationPolicy → List ScreenActivationInput → SpaceActivationPolicy
  | p, [] => p
  | p, screen :: rest =>
    match screen.space with
    | none => spacesChurnLoop cfg p rest
    | some new_space =>
      let previous_space := lookupA p.last_known_space_by_screen screen.screen_id
      let p :=
        match previous_space with
        | some prev =>
          if prev ≠ new_space ∧ prev ∉ p.known_user_spaces then
            p.transfer_space_activation cfg prev new_space
          else p
        | none => p
      let p := { p with known_user_spaces := p.known_user_spaces.insert new_space,
                        last_known_space_by_screen :=
                          updateA p.last_known_space_by_screen screen.screen_id new_space }
      spacesChurnLoop cfg p rest

/-- Second loop of `on_spaces_updated`: transfer display activation across
display-UUID churn and record last-known-display snapshots. -/
def displaysChurnLoop (cfg : SpaceActivationConfig) :
    SpaceActivationPolicy → List ScreenActivationInput → SpaceActivationPolicy
  | p, [] => p
  | p, screen :: rest =>
    match screen.display_uuid with
    | none => displaysChurnLoop cfg p rest
    | some new_display =>
      let p :=
        match lookupA p.last_known_display_by_screen screen.screen_id with
        | some previous_display =>
          if previous_display ≠ new_display then
            p.transfer_display_activation cfg previous_display new_display
          else p
        | none => p
      let p := { p with last_known_display_by_screen :=
                   updateA p.last_known_display_by_screen screen.screen_id new_display }
      displaysChurnLoop cfg p rest

/-- The recomputation of currently-active display UUIDs in `on_spaces_updated`. -/
def activeDisplaysOf (p : SpaceActivationPolicy) :
    List ScreenActivationInput → List String
  | [] => []
  | screen :: rest =>
    let acc := activeDisplaysOf p rest
    match screen.display_uuid with
    | some display_uuid =>
      let acc := acc.insert display_uuid
      match lookupA p.last_known_display_by_screen screen.screen_id with
      | some prev => acc.insert prev
      | none => acc
    | none =>
      match lookupA p.last_known_display_by_screen screen.screen_id with
      | some prev => acc.insert prev
      | none => acc

/-- Third loop of `on_spaces_updated`: apply display-level activation status to
the space-level override sets. -/
def applyDisplayActivationLoop (cfg : SpaceActivationConfig) :
    SpaceActivationPolicy → List ScreenActivationInput → SpaceActivationPolicy
  | p, [] => p
  | p, screen :: rest =>
    match screen.space with
    | none => applyDisplayActivationLoop cfg p rest
    | some space =>
      let display_uuid :=
        screen.display_uuid.orElse fun _ =>
          lookupA p.last_known_display_by_screen screen.screen_id
      match display_uuid with
      | none => applyDisplayActivationLoop cfg p rest
      | some display_uuid =>
        let p :=
          if cfg.default_disable then
            if display_uuid ∈ p.enabled_displays then
              { p with enabled_spaces := p.enabled_spaces.insert space }
            else p
          else
            if display_uuid ∈ p.disabled_displays then
              { p with disabled_spaces := p.disabled_spaces.insert space }
            else p
        applyDisplayActivationLoop cfg p rest

/-- The prune step at the top of `on_spaces_updated`: drop per-screen
bookkeeping for screens no longer present. -/
def pruneScreens (p : SpaceActivationPolicy) (active_screen_ids : List Nat) :
    SpaceActivationPolicy :=
  { p with
    last_known_space_by_screen :=
      p.last_known_space_by_screen.filter fun e => e.1 ∈ active_screen_ids,
    last_known_display_by_screen :=
      p.last_known_display_by_screen.filter fun e => e.1 ∈ active_screen_ids }

/-- The retain step of `on_spaces_updated`: forget overrides of displays that
are no longer active. -/
def retainDisplays (p : SpaceActivationPolicy) (active_displays : List String) :
    SpaceActivationPolicy :=
  { p with
    disabled_displays := p.disabled_displays.filter (· ∈ active_displays),
    enabled_displays := p.enabled_displays.filter (· ∈ active_displays) }

/-- The two final `starting_space` adjustments of `on_spaces_updated`: clear it
when it is no longer among the active spaces, then default it to the first
screen's space when empty. -/
def fixupStartingSpace (p : SpaceActivationPolicy) (active_spaces : List Nat)
    (screens : List ScreenActivationInput) : SpaceActivationPolicy :=
  let p :=
    match p.starting_space with
    | some starting =>
      if starting ∉ active_spaces then { p with starting_space := none } else p
    | none => p
  match p.starting_space with
  | none => { p with starting_space := screens.head?.bind (·.space) }
  | some _ => p

/-- `SpaceActivationPolicy::on_spaces_updated`. -/
def SpaceActivationPolicy.on_spaces_updated (p : SpaceActivationPolicy)
    (cfg : SpaceActivationConfig) (screens : List ScreenActivationInput) :
    SpaceActivationPolicy :=
  let active_spaces : List Nat := screens.filterMap (·.space)
  let active_screen_ids : List Nat := screens.map (·.screen_id)
  let p := pruneScreens p active_screen_ids
  let p := spacesChurnLoop cfg p screens
  let p := displaysChurnLoop cfg p screens
  let active_displays := activeDisplaysOf p screens
  let p := retainDisplays p active_displays
  let p := applyDisplayActivationLoop cfg p screens
  fixupStartingSpace p active_spaces screens

/-- The per-screen decision of `compute_active_spaces` (the `match` at the heart
of the function), linearised over the two shapes of `space_opt`; the
`display_disabled`/`display_enabled` flags are the ones the function computed. -/
def activationDecision (p : SpaceActivationPolicy) (cfg : SpaceActivationConfig)
    (space_opt : Option Nat) (display_disabled display_enabled : Bool) : Bool :=
  match space_opt with
  | some space =>
    if p.login_window_active then false
    else if cfg.one_space ∧ some space ≠ p.starting_space then false
    else if space ∈ p.disabled_spaces then false
    else if display_disabled then false
    else if space ∈ p.enabled_spaces then true
    else if display_enabled then true
    else if cfg.default_disable then false
    else true
  | none =>
    if p.login_window_active then false
    else if display_disabled then false
    else if display_enabled then true
    else if cfg.default_disable then false
    else true

/-- `SpaceActivationPolicy::compute_active_spaces`. -/
def SpaceActivationPolicy.compute_active_spaces (p : SpaceActivationPolicy)
    (cfg : SpaceActivationConfig) (cur_spaces : List (Option Nat))
    (cur_display_uuids : List (Option String)) : List (Option Nat) :=
  cur_spaces.enum.map fun (idx, space_opt) =>
    let display_uuid := (cur_display_uuids.get? idx).join
    let flags :=
      if cfg.default_disable then
        ((display_uuid.map fun u => decide (u ∈ p.enabled_displays)).getD false,
         (display_uuid.map fun u => decide (u ∈ p.disabled_displays)).getD false)
      else (false, false)
    if activationDecision p cfg space_opt flags.2 flags.1 then space_opt else none

end Rift.SpaceActivation

namespace Rift

/-! ## Geometry — `CGRect` and friends

The source stores `f64` coordinates; they are idealised as real numbers. -/

/-- `CGPoint`. -/
structure CGPoint where
  x : ℝ
  y : ℝ

/-- `CGSize`. -/
structure CGSize where
  width : ℝ
  height : ℝ

/-- `CGRect`. -/
structure CGRect where
  origin : CGPoint
  size : CGSize

noncomputable instance : DecidableEq CGPoint := Classical.decEq _
noncomputable instance : DecidableEq CGSize := Classical.decEq _
noncomputable instance : DecidableEq CGRect := Classical.decEq _

/-- Rounding of one coordinate to the nearest integer. -/
noncomputable def roundCoord (x : ℝ) : ℝ := ((round x : ℤ) : ℝ)

/-- Modelled from the spec: the `Round` trait of `sys::geometry` (its source is
not under `src/`); the spec says the target rectangle is "rounded to the
rendering grid", i.e. component-wise rounding. -/
noncomputable def CGRect.round (r : CGRect) : CGRect :=
  ⟨⟨roundCoord r.origin.x, roundCoord r.origin.y⟩,
   ⟨roundCoord r.size.width, roundCoord r.size.height⟩⟩

/-- Modelled from the spec: the `SameAs` comparison of `sys::geometry` (its
source is not under `src/`); the spec phrases it as the rectangles being
equal ("already equals the rounded target"). -/
def CGRect.same_as (a b : CGRect) : Prop := a = b

noncomputable instance (a b : CGRect) : Decidable (a.same_as b) :=
  inferInstanceAs (Decidable (a = b))

/-! ## Identifiers and messages -/

/-- `WindowId` — owning process id (`pid`) plus per-process index (`idx`). -/
structure WindowId where
  pid : Nat
  idx : Nat
deriving DecidableEq

/-- `WindowServerId` — the OS-level numeric window identity. -/
abbrev WindowServerId := Nat

/-- Modelled from the spec: `TransactionId` lives in
`actor::reactor::transaction_manager`, which is not under `src/`.  The spec:
"TransactionToken: monotonically increasing counter"; `next` is the successor
and `Default` is zero. -/
abbrev TransactionId := Nat

/-- `TransactionId::next` (modelled from the spec as the successor). -/
def TransactionId.next (t : TransactionId) : TransactionId := t + 1

/-- Modelled from the spec: the request messages of the per-process channel
(`actor::app::Request` is not under `src/`); §6 of the spec lists exactly the
five messages produced by this core. -/
inductive Request where
  | BeginWindowAnimation (wid : WindowId)
  | EndWindowAnimation (wid : WindowId)
  | SetWindowFrame (wid : WindowId) (frame : CGRect) (txid : TransactionId) (flag : Bool)
  | SetBatchWindowFrame (frames : List (WindowId × CGRect)) (txid : TransactionId)
  | SetBatchWindowPos (positions : List (WindowId × CGPoint)) (txid : TransactionId) (flag : Bool)

/-! ## Transaction store — `src/model/tx_store.rs` -/

/-- `TxRecord`. -/
structure TxRecord where
  txid : TransactionId
  target : Option CGRect

/-- `TxRecord::default()`: zero token, no target. -/
def TxRecord.default : TxRecord := ⟨0, none⟩

/-- `WindowTxStore`: the `DashMap` is modelled as an association list, threaded
through state explicitly (its internal lock serialises access, matching the
sequential model). -/
abbrev WindowTxStore := List (WindowServerId × TxRecord)

/-- `WindowTxStore::get`. -/
def WindowTxStore.get (s : WindowTxStore) (id : WindowServerId) : Option TxRecord :=
  lookupA s id

/-- `WindowTxStore::insert` — both the occupied arm (overwrite `txid` and
`target`) and the vacant arm store the record `{txid, target: Some target}`. -/
def WindowTxStore.insert (s : WindowTxStore) (id : WindowServerId)
    (txid : TransactionId) (target : CGRect) : WindowTxStore :=
  updateA s id ⟨txid, some target⟩

/-- `WindowTxStore::next_txid`. -/
def WindowTxStore.next_txid (s : WindowTxStore) (id : WindowServerId) :
    TransactionId × WindowTxStore :=
  match lookupA s id with
  | some record =>
    let txid := record.txid.next
    (txid, updateA s id ⟨txid, none⟩)
  | none =>
    let txid := TransactionId.next 0
    (txid, updateA s id ⟨txid, none⟩)

/-- `WindowTxStore::set_last_txid` — occupied: only `txid` is overwritten;
vacant: a record with no target is inserted. -/
def WindowTxStore.set_last_txid (s : WindowTxStore) (id : WindowServerId)
    (txid : TransactionId) : WindowTxStore :=
  match lookupA s id with
  | some record => updateA s id ⟨txid, record.target⟩
  | none => updateA s id ⟨txid, none⟩

/-- `WindowTxStore::last_txid`. -/
def WindowTxStore.last_txid (s : WindowTxStore) (id : WindowServerId) : TransactionId :=
  ((s.get id).map (·.txid)).getD 0

/-- Modelled from the spec: `TransactionManager::generate_next_txid` (the
transaction-manager wrapper is not under `src/`); per the spec's
`next_token(window_server_handle)` contract it delegates to
`WindowTxStore::next_txid`. -/
def generate_next_txid (s : WindowTxStore) (wsid : WindowServerId) :
    TransactionId × WindowTxStore :=
  s.next_txid wsid

/-- Modelled from the spec: `TransactionManager::update_txid_entries` (not under
`src/`); the spec's `stamp(handle, token, target_rect)` applied to a batch,
delegating to `WindowTxStore::insert`. -/
def update_txid_entries (s : WindowTxStore) :
    List (WindowServerId × TransactionId × CGRect) → WindowTxStore
  | [] => s
  | (wsid, txid, target) :: rest => update_txid_entries (s.insert wsid txid target) rest

/-- Modelled from the spec: `TransactionManager::set_last_sent_txid` (not under
`src/`), delegating to `WindowTxStore::set_last_txid`. -/
def set_last_sent_txid (s : WindowTxStore) (wsid : WindowServerId)
    (txid : TransactionId) : WindowTxStore :=
  s.set_last_txid wsid txid

/-! ## Animation engine — `src/actor/reactor/animation.rs` -/

/-- `blend` (line 325). -/
noncomputable def blend (a b s : ℝ) : ℝ := (1 - s) * a + s * b

/-- `ease` (lines 317–323): the symmetric circular ease-in-ease-out curve. -/
noncomputable def ease (t : ℝ) : ℝ :=
  if t < 1 / 2 then (1 - Real.sqrt (1 - (2 * t) ^ 2)) / 2
  else (Real.sqrt (1 - (-2 * t + 2) ^ 2) + 1) / 2

/-- `get_frame` (lines 302–314). -/
noncomputable def get_frame (a b : CGRect) (t : ℝ) : CGRect :=
  let s := ease t
  ⟨⟨blend a.origin.x b.origin.x s, blend a.origin.y b.origin.y s⟩,
   ⟨blend a.size.width b.size.width s, blend a.size.height b.size.height s⟩⟩

/-- `AnimationState`: per-window record of an in-flight animation.  `Instant`
and `Duration` are wall-clock values, idealised as reals (`from` is a Lean
keyword, hence `from_`). -/
structure AnimationState where
  start : ℝ
  from_ : CGRect
  to_ : CGRect
  duration : ℝ

/-- `AnimationState::new`. -/
def AnimationState.new (start : ℝ) (from_ to_ : CGRect) (duration : ℝ) : AnimationState :=
  ⟨start, from_, to_, duration⟩

/-- `AnimationState::current_frame`; `saturating_duration_since` is `max _ 0`. -/
noncomputable def AnimationState.current_frame (s : AnimationState) (now : ℝ) :
    Option CGRect :=
  if s.duration = 0 then none
  else
    let elapsed := max (now - s.start) 0
    if s.duration ≤ elapsed then none
    else some (get_frame s.from_ s.to_ (elapsed / s.duration))

/-- `AnimationCancel`: the shared `Arc<AtomicU64>` is process-global state, so
the model keeps only the captured generation; `is_cancelled` takes the counter
value an atomic load would observe at the moment of the check. -/
structure AnimationCancel where
  generation : Nat

/-- `AnimationCancel::is_cancelled`. -/
def AnimationCancel.is_cancelled (c : AnimationCancel) (token_value : Nat) : Bool :=
  decide (token_value ≠ c.generation)

/-- `AnimationWindow`. -/
structure AnimationWindow where
  wid : WindowId
  from_ : CGRect
  to_ : CGRect
  is_focus : Bool

/-- `AnimationGroup`: one process's batch under one shared token.  The
`AppThreadHandle` is the per-process channel, modelled by its numeric id. -/
structure AnimationGroup where
  handle : Nat
  pid : Nat
  txid : TransactionId
  windows : List AnimationWindow

/-- `Animation`. -/
structure Animation where
  start : ℝ
  interval : ℝ
  frames : Nat
  windows : List AnimationGroup

/-- `Animation::new` (lines 84–103): fps `≤ 0` falls back to the display link's
refresh rate (filtered positive) or 60; the easing selector is accepted but
unused in the source (`_: AnimationEasing`), so it is omitted here. -/
noncomputable def Animation.new (fps duration : ℝ) (refresh_rate : Option ℝ)
    (now : ℝ) : Animation :=
  let resolved_fps :=
    if 0 < fps then fps
    else
      match refresh_rate with
      | some rate => if 0 < rate then rate else 60
      | none => 60
  { start := now, interval := 1 / resolved_fps,
    frames := (round (duration * resolved_fps)).toNat, windows := [] }

/-- The group-insertion recursion of `Animation::add_window`: join the first
group with the same `pid` and `txid`, else append a fresh group. -/
def Animation.addToGroups (handle : Nat) (wid : WindowId) (start finish : CGRect)
    (is_focus : Bool) (txid : TransactionId) :
    List AnimationGroup → List AnimationGroup
  | [] => [⟨handle, wid.pid, txid, [⟨wid, start, finish, is_focus⟩]⟩]
  | g :: gs =>
    if g.pid = wid.pid ∧ g.txid = txid then
      { g with windows := g.windows ++ [⟨wid, start, finish, is_focus⟩] } :: gs
    else g :: Animation.addToGroups handle wid start finish is_focus txid gs

/-- `Animation::add_window` (lines 105–137). -/
def Animation.add_window (a : Animation) (handle : Nat) (wid : WindowId)
    (start finish : CGRect) (is_focus : Bool) (txid : TransactionId) : Animation :=
  { a with windows := Animation.addToGroups handle wid start finish is_focus txid a.windows }

/-- `Animation::skip_to_end` (lines 291–299): the messages it sends. -/
def Animation.skip_to_end (a : Animation) : List (Nat × Request) :=
  a.windows.flatMap fun group =>
    group.windows.map fun window =>
      (group.handle, Request.SetWindowFrame window.wid window.to_ group.txid true)

/-- The mutable state captured by the display-link closure in `Animation::run`. -/
structure TickState where
  last_frame_sent : Nat
  mid_resize_sent : Bool
  completed : Bool

/-- One invocation of the display-link callback built in `Animation::run`
(lines 182–266).  `now` is the wall-clock instant of the tick and `token_value`
the current value of the shared cancellation counter.  Result: (keep ticking?,
updated captured state, messages passed to `send` in order, done-signal sent?). -/
noncomputable def Animation.tick (windows_for_link : List AnimationGroup)
    (cancel_for_link : Option AnimationCancel) (frames : Nat)
    (total_duration start now : ℝ) (token_value : Nat) (st : TickState) :
    Bool × TickState × List (Nat × Request) × Bool :=
  if st.completed then (false, st, [], false)
  else if (cancel_for_link.map fun c => c.is_cancelled token_value).getD false then
    let ends := windows_for_link.flatMap fun group =>
      group.windows.map fun window => (group.handle, Request.EndWindowAnimation window.wid)
    (false, { st with completed := true }, ends, true)
  else
    let elapsed := max (now - start) 0
    let t := if total_duration = 0 then 1 else min (elapsed / total_duration) 1
    let frame_index := if frames = 0 then 0 else (⌊t * (frames : ℝ)⌋).toNat
    if frame_index = st.last_frame_sent ∧ st.last_frame_sent < frames then
      (true, st, [], false)
    else
      let resize : Bool × TickState :=
        if 1 ≤ t then (true, st)
        else if ¬ st.mid_resize_sent ∧ 1 / 2 ≤ t then (true, { st with mid_resize_sent := true })
        else (false, st)
      let should_resize := resize.1
      let st := resize.2
      let msgs := windows_for_link.flatMap fun group =>
        if should_resize then
          let frame_updates := group.windows.map fun window =>
            (window.wid, { get_frame window.from_ window.to_ t with size := window.to_.size })
          if frame_updates.isEmpty then []
          else [(group.handle, Request.SetBatchWindowFrame frame_updates group.txid)]
        else
          let pos_updates := group.windows.map fun window =>
            (window.wid, (get_frame window.from_ window.to_ t).origin)
          if pos_updates.isEmpty then []
          else [(group.handle, Request.SetBatchWindowPos pos_updates group.txid true)]
      let st := { st with last_frame_sent := frame_index }
      if frames ≤ st.last_frame_sent then
        let ends := windows_for_link.flatMap fun group =>
          group.windows.map fun window => (group.handle, Request.EndWindowAnimation window.wid)
        (false, { st with completed := true }, msgs ++ ends, true)
      else (true, st, msgs, false)

end Rift

namespace Rift

/-! ## Layout commit orchestrator — `AnimationManager` (animation.rs 327–604)

The `Reactor` itself lives outside `src/`; its slice used here is modelled from
the spec (window registry, app registry, transaction store, global animation
generation counter, configuration, power / clock environment).  Channel sends
are recorded in an emitted-message trace; a send to a handle listed in
`dead_handles` returns `Err` (the receiving process has exited). -/

/-- Modelled from the spec: the per-window record of the external window
registry read and written by the orchestrator (cached static frame, in-flight
animation state, optional window-server handle — "a window may lack one
transiently"). -/
structure Window where
  frame_monotonic : CGRect
  anim_state : Option AnimationState
  window_server_id : Option WindowServerId

/-- Modelled from the spec: the per-process entry of the app registry; only the
message channel (`handle`) is consumed here. -/
structure AppState where
  handle : Nat

/-- Modelled from the spec: the configuration values consumed (`animation_fps`,
`animation_duration`, the boolean "animations enabled"). -/
structure Settings where
  animation_fps : ℝ
  animation_duration : ℝ
  animate : Bool

/-- Modelled from the spec: the slice of the `Reactor` (not under `src/`) the
orchestrator touches, plus the consumed environment (refresh clock rate,
reduced-power query, process liveness, workspace queries). -/
structure Reactor where
  windows : List (WindowId × Window)
  apps : List (Nat × AppState)
  txStore : WindowTxStore
  animation_generation : Nat
  settings : Settings
  refresh_rate : Option ℝ
  low_power : Bool
  dead_handles : List Nat
  active_workspace : Nat → Option Nat
  workspace_for_window : Nat → WindowId → Option Nat

/-- Accumulator of the main loop of `animate_layout` (the local mutable state
of lines 345–351 plus the mutated reactor and the emitted messages).  `mints`
is a pure event trace recording each `generate_next_txid` call as
(pid, window-server id); it changes no behaviour. -/
structure AnimAcc where
  reactor : Reactor
  anim : Animation
  animated_count : Nat
  animated_states : List (WindowId × AnimationState)
  carry_over : List (WindowId × CGRect × CGRect × Nat × WindowServerId)
  per_app_txid : List (Nat × TransactionId)
  animated_wids_wsids : List Nat
  any_frame_changed : Bool
  msgs : List (Nat × Request)
  mints : List (Nat × WindowServerId)

/-- The `per_app_txid.entry(wid.pid).or_insert_with(|| generate_next_txid(wsid))`
pattern shared by the main loop (line 385) and the carry-over loop (line 479). -/
def txidAlloc (acc : AnimAcc) (pid : Nat) (wsid : WindowServerId) :
    TransactionId × AnimAcc :=
  match lookupA acc.per_app_txid pid with
  | some t => (t, acc)
  | none =>
    let r := generate_next_txid acc.reactor.txStore wsid
    (r.1, { acc with
      reactor := { acc.reactor with txStore := r.2 },
      per_app_txid := acc.per_app_txid ++ [(pid, r.1)],
      mints := acc.mints ++ [(pid, wsid)] })

/-- The dispatch part of one `animate_layout` iteration (lines 401–474): the
active/hidden branching, the carry-over deferral, the batch insertion with its
token stamping, the hidden-window direct positioning, and the frame-cache
write-back.  `txid` is the per-process token and `acc` already holds any token
allocation. -/
noncomputable def animate_step_commit (space active_ws : Nat) (now animation_duration : ℝ)
    (acc : AnimAcc) (wid : WindowId) (target_frame current_frame : CGRect)
    (carry_same_target : Bool) (wsid : WindowServerId) (txid : TransactionId)
    (app_state : AppState) : Option AnimAcc :=
  let is_active : Bool :=
    match acc.reactor.workspace_for_window space wid with
    | some ws => decide (ws = active_ws)
    | none => false
  let stamped := update_txid_entries acc.reactor.txStore [(wsid, txid, target_frame)]
  let acc :=
    if is_active then
      if carry_same_target then
        { acc with carry_over := acc.carry_over ++
            [(wid, current_frame, target_frame, app_state.handle, wsid)] }
      else
        { acc with
          animated_wids_wsids := acc.animated_wids_wsids ++ [wid.idx],
          anim := acc.anim.add_window app_state.handle wid current_frame
            target_frame false txid,
          animated_count := acc.animated_count + 1,
          animated_states := acc.animated_states ++
            [(wid, AnimationState.new now current_frame target_frame animation_duration)],
          reactor := { acc.reactor with txStore := stamped } }
    else
      { acc with
        reactor := { acc.reactor with txStore := stamped },
        msgs := acc.msgs ++
          [(app_state.handle, Request.SetWindowFrame wid target_frame txid true)] }
  if ¬ is_active ∧ app_state.handle ∈ acc.reactor.dead_handles then some acc
  else
    match lookupA acc.reactor.windows wid with
    | some w =>
      let w := { w with frame_monotonic := target_frame }
      let w := if ¬ is_active then { w with anim_state := none } else w
      some { acc with reactor := { acc.reactor with
        windows := updateA acc.reactor.windows wid w } }
    | none => some acc

/-- The remainder of one `animate_layout` iteration after the current-frame and
carry-over computation (lines 380–474): registry write-back of the possibly
expired animation state, the redundant-commit skip, the `.unwrap()` on the
window-server id (modelled by `none` = panic, line 384), the per-process token
allocation, and the app lookup. -/
noncomputable def animate_step_rest (space active_ws : Nat) (now animation_duration : ℝ)
    (acc : AnimAcc) (wid : WindowId) (target_frame current_frame : CGRect)
    (carry_same_target : Bool) (window : Window) : Option AnimAcc :=
  let acc := { acc with
    reactor := { acc.reactor with windows := updateA acc.reactor.windows wid window } }
  if ¬ carry_same_target = true ∧ target_frame.same_as current_frame then some acc
  else
    let acc := { acc with any_frame_changed := true }
    match window.window_server_id with
    | none => none
    | some wsid =>
      let txA := txidAlloc acc wid.pid wsid
      match lookupA txA.2.reactor.apps wid.pid with
      | none => some txA.2
      | some app_state =>
        animate_step_commit space active_ws now animation_duration txA.2 wid
          target_frame current_frame carry_same_target wsid txA.1 app_state

/-- One iteration of the main loop of `animate_layout` (lines 356–475): the
dragged-window skip, the registry lookup, the current-frame / carry-over
resolution from the in-flight animation state, then `animate_step_rest`. -/
noncomputable def animate_step (space active_ws : Nat) (now animation_duration : ℝ)
    (skip_wid : Option WindowId) (acc : AnimAcc) (entry : WindowId × CGRect) :
    Option AnimAcc :=
  let wid := entry.1
  if skip_wid = some wid then some acc
  else
    let target_frame := entry.2.round
    match lookupA acc.reactor.windows wid with
    | none => some acc
    | some window =>
      match window.anim_state with
      | some state =>
        match state.current_frame now with
        | some frame =>
          animate_step_rest space active_ws now animation_duration acc wid target_frame
            frame (decide (target_frame.same_as state.to_)) window
        | none =>
          animate_step_rest space active_ws now animation_duration acc wid target_frame
            window.frame_monotonic false { window with anim_state := none }
      | none =>
        animate_step_rest space active_ws now animation_duration acc wid target_frame
          window.frame_monotonic false window

/-- The main loop of `animate_layout` over the layout list. -/
noncomputable def animate_loop (space active_ws : Nat) (now animation_duration : ℝ)
    (skip_wid : Option WindowId) :
    AnimAcc → List (WindowId × CGRect) → Option AnimAcc
  | acc, [] => some acc
  | acc, e :: rest =>
    match animate_step space active_ws now animation_duration skip_wid acc e with
    | none => none
    | some acc => animate_loop space active_ws now animation_duration skip_wid acc rest

/-- One iteration of the carry-over loop (lines 478–486). -/
noncomputable def carry_step (now animation_duration : ℝ) (acc : AnimAcc)
    (c : WindowId × CGRect × CGRect × Nat × WindowServerId) : AnimAcc :=
  let wid := c.1
  let from_ := c.2.1
  let to_ := c.2.2.1
  let handle := c.2.2.2.1
  let wsid := c.2.2.2.2
  let txAlloc := txidAlloc acc wid.pid wsid
  let txid := txAlloc.1
  let acc := txAlloc.2
  let stamped := update_txid_entries acc.reactor.txStore [(wsid, txid, to_)]
  { acc with
    anim := acc.anim.add_window handle wid from_ to_ false txid,
    animated_count := acc.animated_count + 1,
    animated_states := acc.animated_states ++
      [(wid, AnimationState.new now from_ to_ animation_duration)],
    reactor := { acc.reactor with txStore := stamped } }

/-- The carry-over loop of `animate_layout`. -/
noncomputable def carry_loop (now animation_duration : ℝ) :
    AnimAcc → List (WindowId × CGRect × CGRect × Nat × WindowServerId) → AnimAcc
  | acc, [] => acc
  | acc, c :: rest => carry_loop now animation_duration (carry_step now animation_duration acc c) rest

/-- The `for (wid, _) in animated_states { window.anim_state = None }` loop of
the skip-to-end branch (lines 493–497). -/
def clear_anim_states : List (WindowId × Window) → List (WindowId × AnimationState) →
    List (WindowId × Window)
  | windows, [] => windows
  | windows, (wid, _) :: rest =>
    let windows :=
      match lookupA windows wid with
      | some w => updateA windows wid { w with anim_state := none }
      | none => windows
    clear_anim_states windows rest

/-- The `for (wid, state) in animated_states { window.anim_state = Some(state) }`
loop of the run branch (lines 501–505). -/
def set_anim_states : List (WindowId × Window) → List (WindowId × AnimationState) →
    List (WindowId × Window)
  | windows, [] => windows
  | windows, (wid, state) :: rest =>
    let windows :=
      match lookupA windows wid with
      | some w => updateA windows wid { w with anim_state := some state }
      | none => windows
    set_anim_states windows rest

/-- `AnimationManager::animate_layout` (lines 330–511).  `now` is the captured
`Instant::now()`.  Returns `none` for the `.unwrap()` panic; otherwise
(any_frame_changed, final accumulator, detached animation run with its
cancellation token when one is spawned). -/
noncomputable def AnimationManager.animate_layout (reactor : Reactor) (now : ℝ)
    (space : Nat) (layout : List (WindowId × CGRect)) (is_resize : Bool)
    (skip_wid : Option WindowId) :
    Option (Bool × AnimAcc × Option (Animation × AnimationCancel)) :=
  match reactor.active_workspace space with
  | none => some (false, ⟨reactor, ⟨now, 0, 0, []⟩, 0, [], [], [], [], false, [], []⟩, none)
  | some active_ws =>
    let anim := Animation.new reactor.settings.animation_fps
      reactor.settings.animation_duration reactor.refresh_rate now
    let animation_duration := reactor.settings.animation_duration
    let acc0 : AnimAcc := ⟨reactor, anim, 0, [], [], [], [], false, [], []⟩
    match animate_loop space active_ws now animation_duration skip_wid acc0 layout with
    | none => none
    | some acc =>
      let acc :=
        if 0 < acc.animated_count ∧ acc.carry_over ≠ [] then
          carry_loop now animation_duration acc acc.carry_over
        else acc
      if 0 < acc.animated_count then
        if is_resize ∨ ¬ reactor.settings.animate ∨ reactor.low_power then
          let acc := { acc with
            msgs := acc.msgs ++ acc.anim.skip_to_end,
            reactor := { acc.reactor with
              windows := clear_anim_states acc.reactor.windows acc.animated_states } }
          some (acc.any_frame_changed, acc, none)
        else
          let generation := acc.reactor.animation_generation + 1
          let acc := { acc with reactor := { acc.reactor with
            animation_generation := generation,
            windows := set_anim_states acc.reactor.windows acc.animated_states } }
          some (acc.any_frame_changed, acc, some (acc.anim, ⟨generation⟩))
      else some (acc.any_frame_changed, acc, none)

/-- `HashMap::entry(pid).or_default().push(v)` of the instant path (line 545);
insertion order models the map's iteration order. -/
def pushEntry {α β : Type} [DecidableEq α] : List (α × List β) → α → β → List (α × List β)
  | [], a, b => [(a, [b])]
  | (k, v) :: rest, a, b =>
    if k = a then (k, v ++ [b]) :: rest else (k, v) :: pushEntry rest a b

/-- First loop of `instant_layout` (lines 521–546): group changed windows by
owning process; no state is mutated. -/
noncomputable def instant_collect (reactor : Reactor) (skip_wid : Option WindowId) :
    List (Nat × List (WindowId × CGRect)) × Bool → List (WindowId × CGRect) →
    List (Nat × List (WindowId × CGRect)) × Bool
  | acc, [] => acc
  | acc, (wid, target_frame0) :: rest =>
    if skip_wid = some wid then instant_collect reactor skip_wid acc rest
    else
      match lookupA reactor.windows wid with
      | none => instant_collect reactor skip_wid acc rest
      | some window =>
        let target_frame := target_frame0.round
        if target_frame.same_as window.frame_monotonic then
          instant_collect reactor skip_wid acc rest
        else
          instant_collect reactor skip_wid
            (pushEntry acc.1 wid.pid (wid, target_frame), true) rest

/-- State threaded through the second loop of `instant_layout`: the reactor,
the emitted messages, and the `generate_next_txid` event trace. -/
structure InstantState where
  reactor : Reactor
  msgs : List (Nat × Request)
  mints : List (Nat × WindowServerId)

/-- The `for (wid, target_frame) in &frames { ... }` frame-cache update at the
end of the instant path (lines 594–599). -/
def set_frames : List (WindowId × Window) → List (WindowId × CGRect) →
    List (WindowId × Window)
  | windows, [] => windows
  | windows, (wid, target_frame) :: rest =>
    let windows :=
      match lookupA windows wid with
      | some w => updateA windows wid { w with frame_monotonic := target_frame, anim_state := none }
      | none => windows
    set_frames windows rest

/-- One step of the `rest_frames` loop inside the per-process send of
`instant_layout` (lines 567–585): stamp the shared token on a further window
of the process and record it in the batch. -/
def instant_send_step (txid : TransactionId)
    (es : List (WindowServerId × TransactionId × CGRect) × InstantState)
    (wf : WindowId × CGRect) :
    List (WindowServerId × TransactionId × CGRect) × InstantState :=
  match lookupA es.2.reactor.windows wf.1 with
  | some w =>
    match w.window_server_id with
    | some wsid =>
      (es.1 ++ [(wsid, txid, wf.2)],
       { es.2 with reactor := { es.2.reactor with
          txStore := set_last_sent_txid es.2.reactor.txStore wsid txid } })
    | none => es
  | none => es

/-- One iteration of the per-process loop of `instant_layout` (lines 548–600). -/
noncomputable def instant_apply_group (s : InstantState) (pid : Nat)
    (frames : List (WindowId × CGRect)) : InstantState :=
  match frames with
  | [] => s
  | (first_wid, first_target) :: rest_frames =>
    match lookupA s.reactor.apps pid with
    | none => s
    | some app_state =>
      let handle := app_state.handle
      let txInit : TransactionId × Bool × List (WindowServerId × TransactionId × CGRect) ×
          InstantState :=
        match lookupA s.reactor.windows first_wid with
        | some window =>
          match window.window_server_id with
          | some wsid =>
            let r := generate_next_txid s.reactor.txStore wsid
            (r.1, true, [(wsid, r.1, first_target)],
             { s with reactor := { s.reactor with txStore := r.2 },
                      mints := s.mints ++ [(pid, wsid)] })
          | none => (0, false, [], s)
        | none => (0, false, [], s)
      let txid := txInit.1
      let has_txid := txInit.2.1
      let step2 : List (WindowServerId × TransactionId × CGRect) × InstantState :=
        if has_txid then
          let folded := rest_frames.foldl (instant_send_step txid)
            (txInit.2.2.1, txInit.2.2.2)
          (folded.1, { folded.2 with reactor := { folded.2.reactor with
            txStore := update_txid_entries folded.2.reactor.txStore folded.1 } })
        else (txInit.2.2.1, txInit.2.2.2)
      let s := step2.2
      let frames_to_send := (first_wid, first_target) :: rest_frames
      let s := { s with msgs := s.msgs ++
        [(handle, Request.SetBatchWindowFrame frames_to_send txid)] }
      if handle ∈ s.reactor.dead_handles then s
      else
        { s with reactor := { s.reactor with
            windows := set_frames s.reactor.windows frames_to_send } }

/-- The per-process loop of `instant_layout`. -/
noncomputable def instant_apply : InstantState → List (Nat × List (WindowId × CGRect)) →
    InstantState
  | s, [] => s
  | s, (pid, frames) :: rest => instant_apply (instant_apply_group s pid frames) rest

/-- `AnimationManager::instant_layout` (lines 513–603): returns
(any_frame_changed, final state with emitted messages and mint trace). -/
noncomputable def AnimationManager.instant_layout (reactor : Reactor)
    (layout : List (WindowId × CGRect)) (skip_wid : Option WindowId) :
    Bool × InstantState :=
  let collected := instant_collect reactor skip_wid ([], false) layout
  (collected.2, instant_apply ⟨reactor, [], []⟩ collected.1)

/-! ## Claim-side view definitions -/

/-- The "effective current rectangle" of claim C6: a still-running animation's
interpolated position is preferred over the cached static frame. -/
noncomputable def Window.effective_current (w : Window) (now : ℝ) : CGRect :=
  match w.anim_state with
  | some st =>
    match st.current_frame now with
    | some f => f
    | none => w.frame_monotonic
  | none => w.frame_monotonic

/-- The carry condition of the orchestrator: a still-running in-flight
animation whose own target equals the requested (already rounded) target. -/
noncomputable def Window.carry_target (w : Window) (now : ℝ) (target : CGRect) : Prop :=
  match w.anim_state with
  | some st => st.current_frame now ≠ none ∧ target = st.to_
  | none => False

/-- Membership of a window entry in a group of an animation batch. -/
def Animation.has_entry (a : Animation) (p : Nat) (t : TransactionId)
    (w : AnimationWindow) : Prop :=
  ∃ g ∈ a.windows, g.pid = p ∧ g.txid = t ∧ w ∈ g.windows

/-- Number of tokens minted for process `p` according to a mint trace. -/
def mintsFor (mints : List (Nat × WindowServerId)) (p : Nat) : Nat :=
  (mints.filter fun m => m.1 = p).length

/-- Number of occurrences of window `x` across the per-process batches built
by the first loop of `instant_layout` (proof-side counting view). -/
def groupCount (G : List (Nat × List (WindowId × CGRect))) (x : WindowId) : Nat :=
  (G.map fun g => (g.2.filter fun q => decide (q.1 = x)).length).sum

end Rift

namespace Rift.SpaceActivation

/-! ## Claim-side definitions for the activation policy -/

/-- First-match-wins evaluation of an ordered rule list: each rule is a
(condition, verdict) pair; the default verdict applies when no rule matches. -/
def firstMatch : List (Bool × Bool) → Bool → Bool
  | [], dflt => dflt
  | (cond, verdict) :: rest, dflt => if cond then verdict else firstMatch rest dflt

/-- The per-screen decision exactly as worded by claim C4: precedence-ordered
rules, with the display-override rules consulted unconditionally. -/
def claimedDecision (p : SpaceActivationPolicy) (cfg : SpaceActivationConfig)
    (space_opt : Option Nat) (display_uuid : Option String) : Bool :=
  let not_starting := (space_opt.map fun s => decide (some s ≠ p.starting_space)).getD false
  let space_disabled := (space_opt.map fun s => decide (s ∈ p.disabled_spaces)).getD false
  let space_enabled := (space_opt.map fun s => decide (s ∈ p.enabled_spaces)).getD false
  let display_disabled := (display_uuid.map fun u => decide (u ∈ p.disabled_displays)).getD false
  let display_enabled := (display_uuid.map fun u => decide (u ∈ p.enabled_displays)).getD false
  firstMatch
    [(p.login_window_active, false),
     (cfg.one_space && not_starting, false),
     (space_disabled, false),
     (display_disabled, false),
     (space_enabled, true),
     (display_enabled, true),
     (cfg.default_disable, false)] true

/-- `compute_active_spaces` as claim C4 describes it: each screen is decided by
`claimedDecision` and inactive screens become `none`. -/
def claimedActiveSpaces (p : SpaceActivationPolicy) (cfg : SpaceActivationConfig)
    (cur_spaces : List (Option Nat)) (cur_display_uuids : List (Option String)) :
    List (Option Nat) :=
  cur_spaces.enum.map fun (idx, space_opt) =>
    if claimedDecision p cfg space_opt ((cur_display_uuids.get? idx).join) then space_opt
    else none

/-- The amended per-screen decision: as `claimedDecision`, except that the two
display-override rules are consulted only under global default-disable. -/
def amendedDecision (p : SpaceActivationPolicy) (cfg : SpaceActivationConfig)
    (space_opt : Option Nat) (display_uuid : Option String) : Bool :=
  let not_starting := (space_opt.map fun s => decide (some s ≠ p.starting_space)).getD false
  let space_disabled := (space_opt.map fun s => decide (s ∈ p.disabled_spaces)).getD false
  let space_enabled := (space_opt.map fun s => decide (s ∈ p.enabled_spaces)).getD false
  let display_disabled := cfg.default_disable &&
    (display_uuid.map fun u => decide (u ∈ p.disabled_displays)).getD false
  let display_enabled := cfg.default_disable &&
    (display_uuid.map fun u => decide (u ∈ p.enabled_displays)).getD false
  firstMatch
    [(p.login_window_active, false),
     (cfg.one_space && not_starting, false),
     (space_disabled, false),
     (display_disabled, false),
     (space_enabled, true),
     (display_enabled, true),
     (cfg.default_disable, false)] true

/-- The amended form of claim C4's procedure. -/
def amendedActiveSpaces (p : SpaceActivationPolicy) (cfg : SpaceActivationConfig)
    (cur_spaces : List (Option Nat)) (cur_display_uuids : List (Option String)) :
    List (Option Nat) :=
  cur_spaces.enum.map fun (idx, space_opt) =>
    if amendedDecision p cfg space_opt ((cur_display_uuids.get? idx).join) then space_opt
    else none

end Rift.SpaceActivation

namespace Rift

/-! # Theorems -/

/-! ## Association-list lemmas -/

@[simp] theorem lookupA_nil {α β : Type} [DecidableEq α] (a : α) :
    lookupA ([] : List (α × β)) a = none := rfl

@[simp] theorem lookupA_cons {α β : Type} [DecidableEq α] (k a : α) (v : β) (l : List (α × β)) :
    lookupA ((k, v) :: l) a = if k = a then some v else lookupA l a := rfl

@[simp] theorem updateA_nil {α β : Type} [DecidableEq α] (a : α) (b : β) :
    updateA ([] : List (α × β)) a b = [(a, b)] := rfl

@[simp] theorem updateA_cons {α β : Type} [DecidableEq α] (k a : α) (v b : β) (l : List (α × β)) :
    updateA ((k, v) :: l) a b = if k = a then (a, b) :: l else (k, v) :: updateA l a b := rfl

theorem lookupA_updateA_self {α β : Type} [DecidableEq α] (l : List (α × β)) (a : α) (b : β) :
    lookupA (updateA l a b) a = some b := by
  induction l with
  | nil => simp
  | cons hd tl ih =>
    obtain ⟨k, v⟩ := hd
    by_cases h : k = a <;> simp [h, ih]

theorem lookupA_updateA_ne {α β : Type} [DecidableEq α] (l : List (α × β)) (a a' : α) (b : β)
    (h : a ≠ a') : lookupA (updateA l a b) a' = lookupA l a' := by
  induction l with
  | nil => simp [h]
  | cons hd tl ih =>
    obtain ⟨k, v⟩ := hd
    by_cases hk : k = a
    · subst hk; simp [h, Ne.symm h]
    · by_cases hk' : k = a' <;> simp [hk, hk', h, Ne.symm h, ih]

end Rift

namespace Rift

/-! ## Claim C3 — transaction-token minting -/

/-- **C3.** For every store and window-server handle, `next_txid` mints a token
strictly greater than the handle's previously stored token, stores it as the
handle's latest token, and clears any stored target rectangle: a read
immediately after it returns the new token with an empty target. -/
theorem next_txid_mints_fresh_monotone_token (s : WindowTxStore) (id : WindowServerId) :
    s.last_txid id < (s.next_txid id).1 ∧
      WindowTxStore.get (s.next_txid id).2 id = some ⟨(s.next_txid id).1, none⟩ ∧
      WindowTxStore.last_txid (s.next_txid id).2 id = (s.next_txid id).1 := by
  unfold WindowTxStore.next_txid WindowTxStore.last_txid WindowTxStore.get
  cases h : lookupA s id with
  | none => simp [h, TransactionId.next, lookupA_updateA_self]
  | some record => simp [h, TransactionId.next, lookupA_updateA_self]

end Rift

namespace Rift.SpaceActivation

/-! ## Claim C4 — `compute_active_spaces` precedence -/

/-- **C4, counterexample.** Under a default-enable configuration, a disabled
override on the screen's display does *not* make the screen inactive, contrary
to the claimed precedence list: the code returns the space, the claimed
procedure returns `none`. -/
theorem compute_active_spaces_display_rule_cex :
    (SpaceActivationPolicy.compute_active_spaces
        { SpaceActivationPolicy.new with disabled_displays := ["u"] }
        ⟨false, false⟩ [some 5] [some "u"] = [some 5]) ∧
      (claimedActiveSpaces
        { SpaceActivationPolicy.new with disabled_displays := ["u"] }
        ⟨false, false⟩ [some 5] [some "u"] = [none]) := by
  constructor <;> rfl

/-- **C4, amended.** `compute_active_spaces` decides each screen by the claimed
precedence order, except that the two display-override rules are consulted only
when the global default is "disabled by default"; under a default-enable
configuration display overrides are ignored at decision time. -/
theorem compute_active_spaces_follows_gated_precedence (p : SpaceActivationPolicy)
    (cfg : SpaceActivationConfig) (cur_spaces : List (Option Nat))
    (cur_display_uuids : List (Option String)) :
    p.compute_active_spaces cfg cur_spaces cur_display_uuids =
      amendedActiveSpaces p cfg cur_spaces cur_display_uuids := by
  unfold SpaceActivationPolicy.compute_active_spaces amendedActiveSpaces
  apply List.map_congr_left
  rintro ⟨idx, space_opt⟩ -
  cases hdd : cfg.default_disable <;>
    cases space_opt <;>
      cases hj : (cur_display_uuids.get? idx).join <;>
        simp [activationDecision, amendedDecision, firstMatch, hdd, hj]

/-! ## Claim C10 — `compute_active_spaces` shape invariants -/

/-- **C10.** `compute_active_spaces` returns a list of exactly the length and
order of its `cur_spaces` input, each entry being `none` or the corresponding
input entry; it introduces no new space and (being a pure function of the
policy) mutates no policy state. -/
theorem compute_active_spaces_shape (p : SpaceActivationPolicy)
    (cfg : SpaceActivationConfig) (cur_spaces : List (Option Nat))
    (cur_display_uuids : List (Option String)) :
    (p.compute_active_spaces cfg cur_spaces cur_display_uuids).length =
        cur_spaces.length ∧
      ∀ i, (p.compute_active_spaces cfg cur_spaces cur_display_uuids).get? i = some none ∨
        (p.compute_active_spaces cfg cur_spaces cur_display_uuids).get? i =
          cur_spaces.get? i := by
  unfold SpaceActivationPolicy.compute_active_spaces
  constructor
  · simp
  · intro i
    simp only [List.get?_eq_getElem?]
    rw [List.getElem?_map, List.getElem?_enum]
    cases h : cur_spaces[i]? with
    | none => right; simp [h]
    | some so =>
      simp only [h, Option.map_some']
      have key : ∀ c : Bool, some (if c = true then so else none) = some none ∨
          some (if c = true then so else none) = some so := by
        intro c; cases c <;> simp
      exact key _

end Rift.SpaceActivation

namespace Rift.SpaceActivation

/-! ## Claim C7 — activation transfer across space-id churn -/

theorem lookupA_filter_key {β : Type} (l : List (Nat × β)) (pred : Nat → Bool) (a : Nat)
    (h : pred a = true) :
    Rift.lookupA (l.filter fun e => pred e.1) a = Rift.lookupA l a := by
  induction l with
  | nil => simp
  | cons hd tl ih =>
    obtain ⟨k, v⟩ := hd
    by_cases hk : k = a
    · subst hk; simp [h]
    · by_cases hp : pred k <;> simp [hp, hk, ih]

theorem spacesChurnLoop_singleton (cfg : SpaceActivationConfig)
    (q : SpaceActivationPolicy) (sid B : Nat) (du : Option String) :
    spacesChurnLoop cfg q [⟨sid, some B, du⟩] =
      (fun q' => { q' with
          known_user_spaces := q'.known_user_spaces.insert B,
          last_known_space_by_screen := updateA q'.last_known_space_by_screen sid B })
        (match Rift.lookupA q.last_known_space_by_screen sid with
         | some prev =>
           if prev ≠ B ∧ prev ∉ q.known_user_spaces then
             q.transfer_space_activation cfg prev B
           else q
         | none => q) := rfl

theorem transfer_space_enabled (p : SpaceActivationPolicy) (cfg : SpaceActivationConfig)
    (A B : Nat) :
    (p.transfer_space_activation cfg A B).enabled_spaces =
      if cfg.default_disable ∧ A ∈ p.enabled_spaces then (p.enabled_spaces.erase A).insert B
      else p.enabled_spaces := by
  unfold SpaceActivationPolicy.transfer_space_activation
  by_cases hd : cfg.default_disable <;>
    by_cases hA : A ∈ p.enabled_spaces <;>
      by_cases hA' : A ∈ p.disabled_spaces <;>
        simp [hd, hA, hA', apply_ite SpaceActivationPolicy.enabled_spaces]

theorem transfer_space_disabled (p : SpaceActivationPolicy) (cfg : SpaceActivationConfig)
    (A B : Nat) :
    (p.transfer_space_activation cfg A B).disabled_spaces =
      if ¬ cfg.default_disable ∧ A ∈ p.disabled_spaces then (p.disabled_spaces.erase A).insert B
      else p.disabled_spaces := by
  unfold SpaceActivationPolicy.transfer_space_activation
  by_cases hd : cfg.default_disable <;>
    by_cases hA : A ∈ p.enabled_spaces <;>
      by_cases hA' : A ∈ p.disabled_spaces <;>
        simp [hd, hA, hA', apply_ite SpaceActivationPolicy.disabled_spaces]

theorem transfer_space_starting (p : SpaceActivationPolicy) (cfg : SpaceActivationConfig)
    (A B : Nat) :
    (p.transfer_space_activation cfg A B).starting_space =
      if p.starting_space = some A then some B else p.starting_space := by
  unfold SpaceActivationPolicy.transfer_space_activation
  by_cases hd : cfg.default_disable <;>
    by_cases hA : A ∈ p.enabled_spaces <;>
      by_cases hA' : A ∈ p.disabled_spaces <;>
        by_cases hst : p.starting_space = some A <;>
          simp [hd, hA, hA', hst]

theorem transfer_space_known (p : SpaceActivationPolicy) (cfg : SpaceActivationConfig)
    (A B : Nat) :
    (p.transfer_space_activation cfg A B).known_user_spaces = p.known_user_spaces := by
  unfold SpaceActivationPolicy.transfer_space_activation
  by_cases hd : cfg.default_disable <;>
    by_cases hA : A ∈ p.enabled_spaces <;>
      by_cases hA' : A ∈ p.disabled_spaces <;>
        simp [hd, hA, hA', apply_ite SpaceActivationPolicy.known_user_spaces]

theorem transfer_display_space_fields (p : SpaceActivationPolicy)
    (cfg : SpaceActivationConfig) (u v : String) :
    (p.transfer_display_activation cfg u v).enabled_spaces = p.enabled_spaces ∧
      (p.transfer_display_activation cfg u v).disabled_spaces = p.disabled_spaces ∧
      (p.transfer_display_activation cfg u v).starting_space = p.starting_space := by
  unfold SpaceActivationPolicy.transfer_display_activation
  by_cases hd : cfg.default_disable <;>
    by_cases hu : u ∈ p.enabled_displays <;>
      by_cases hu' : u ∈ p.disabled_displays <;>
        simp [hd, hu, hu']

theorem displaysChurnLoop_space_fields (cfg : SpaceActivationConfig) :
    ∀ (screens : List ScreenActivationInput) (p : SpaceActivationPolicy),
      (displaysChurnLoop cfg p screens).enabled_spaces = p.enabled_spaces ∧
        (displaysChurnLoop cfg p screens).disabled_spaces = p.disabled_spaces ∧
        (displaysChurnLoop cfg p screens).starting_space = p.starting_space := by
  intro screens
  induction screens with
  | nil => intro p; exact ⟨rfl, rfl, rfl⟩
  | cons screen rest ih =>
    intro p
    have key : ∀ q : SpaceActivationPolicy,
        q.enabled_spaces = p.enabled_spaces → q.disabled_spaces = p.disabled_spaces →
        q.starting_space = p.starting_space →
        (displaysChurnLoop cfg q rest).enabled_spaces = p.enabled_spaces ∧
          (displaysChurnLoop cfg q rest).disabled_spaces = p.disabled_spaces ∧
          (displaysChurnLoop cfg q rest).starting_space = p.starting_space := by
      intro q h1 h2 h3
      obtain ⟨g1, g2, g3⟩ := ih q
      exact ⟨g1.trans h1, g2.trans h2, g3.trans h3⟩
    unfold displaysChurnLoop
    cases hdu : screen.display_uuid with
    | none => exact ih p
    | some new_display =>
      apply key <;>
        · cases hl : Rift.lookupA p.last_known_display_by_screen screen.screen_id with
          | none => rfl
          | some prev =>
            by_cases hpn : prev ≠ new_display <;>
              simp [hpn, (transfer_display_space_fields p cfg prev new_display).1,
                (transfer_display_space_fields p cfg prev new_display).2.1,
                (transfer_display_space_fields p cfg prev new_display).2.2]

theorem retainDisplays_space_fields (p : SpaceActivationPolicy) (ds : List String) :
    (retainDisplays p ds).enabled_spaces = p.enabled_spaces ∧
      (retainDisplays p ds).disabled_spaces = p.disabled_spaces ∧
      (retainDisplays p ds).starting_space = p.starting_space :=
  ⟨rfl, rfl, rfl⟩

theorem applyDisplayActivationLoop_starting (cfg : SpaceActivationConfig) :
    ∀ (screens : List ScreenActivationInput) (p : SpaceActivationPolicy),
      (applyDisplayActivationLoop cfg p screens).starting_space = p.starting_space := by
  intro screens
  induction screens with
  | nil => intro p; rfl
  | cons screen rest ih =>
    intro p
    unfold applyDisplayActivationLoop
    cases hs : screen.space with
    | none => exact ih p
    | some space =>
      cases hdu : screen.display_uuid.orElse fun _ =>
          Rift.lookupA p.last_known_display_by_screen screen.screen_id with
      | none => exact ih p
      | some u => rw [ih]; split_ifs <;> rfl

theorem applyDisplayActivationLoop_enabled_sub (cfg : SpaceActivationConfig) :
    ∀ (screens : List ScreenActivationInput) (p : SpaceActivationPolicy) (x : Nat),
      x ∈ p.enabled_spaces → x ∈ (applyDisplayActivationLoop cfg p screens).enabled_spaces := by
  intro screens
  induction screens with
  | nil => intro p x hx; exact hx
  | cons screen rest ih =>
    intro p x hx
    unfold applyDisplayActivationLoop
    cases hs : screen.space with
    | none => exact ih p x hx
    | some space =>
      cases hdu : screen.display_uuid.orElse fun _ =>
          Rift.lookupA p.last_known_display_by_screen screen.screen_id with
      | none => exact ih p x hx
      | some u =>
        apply ih
        split_ifs <;> simp [List.mem_insert_iff, hx]

theorem applyDisplayActivationLoop_enabled_new (cfg : SpaceActivationConfig) :
    ∀ (screens : List ScreenActivationInput) (p : SpaceActivationPolicy) (x : Nat),
      x ∉ p.enabled_spaces → (∀ s ∈ screens, s.space ≠ some x) →
        x ∉ (applyDisplayActivationLoop cfg p screens).enabled_spaces := by
  intro screens
  induction screens with
  | nil => intro p x hx _; exact hx
  | cons screen rest ih =>
    intro p x hx hscr
    have hrest : ∀ s ∈ rest, s.space ≠ some x := fun s hs => hscr s (List.mem_cons_of_mem _ hs)
    have hhead : screen.space ≠ some x := hscr screen (List.mem_cons_self _ _)
    unfold applyDisplayActivationLoop
    cases hs : screen.space with
    | none => exact ih p x hx hrest
    | some space =>
      have hsx : x ≠ space := by
        intro h; exact hhead (by rw [hs, h])
      cases hdu : screen.display_uuid.orElse fun _ =>
          Rift.lookupA p.last_known_display_by_screen screen.screen_id with
      | none => exact ih p x hx hrest
      | some u =>
        apply ih _ x ?_ hrest
        split_ifs <;> simp [List.mem_insert_iff, hx, hsx]

theorem applyDisplayActivationLoop_disabled_sub (cfg : SpaceActivationConfig) :
    ∀ (screens : List ScreenActivationInput) (p : SpaceActivationPolicy) (x : Nat),
      x ∈ p.disabled_spaces → x ∈ (applyDisplayActivationLoop cfg p screens).disabled_spaces := by
  intro screens
  induction screens with
  | nil => intro p x hx; exact hx
  | cons screen rest ih =>
    intro p x hx
    unfold applyDisplayActivationLoop
    cases hs : screen.space with
    | none => exact ih p x hx
    | some space =>
      cases hdu : screen.display_uuid.orElse fun _ =>
          Rift.lookupA p.last_known_display_by_screen screen.screen_id with
      | none => exact ih p x hx
      | some u =>
        apply ih
        split_ifs <;> simp [List.mem_insert_iff, hx]

theorem applyDisplayActivationLoop_disabled_new (cfg : SpaceActivationConfig) :
    ∀ (screens : List ScreenActivationInput) (p : SpaceActivationPolicy) (x : Nat),
      x ∉ p.disabled_spaces → (∀ s ∈ screens, s.space ≠ some x) →
        x ∉ (applyDisplayActivationLoop cfg p screens).disabled_spaces := by
  intro screens
  induction screens with
  | nil => intro p x hx _; exact hx
  | cons screen rest ih =>
    intro p x hx hscr
    have hrest : ∀ s ∈ rest, s.space ≠ some x := fun s hs => hscr s (List.mem_cons_of_mem _ hs)
    have hhead : screen.space ≠ some x := hscr screen (List.mem_cons_self _ _)
    unfold applyDisplayActivationLoop
    cases hs : screen.space with
    | none => exact ih p x hx hrest
    | some space =>
      have hsx : x ≠ space := by
        intro h; exact hhead (by rw [hs, h])
      cases hdu : screen.display_uuid.orElse fun _ =>
          Rift.lookupA p.last_known_display_by_screen screen.screen_id with
      | none => exact ih p x hx hrest
      | some u =>
        apply ih _ x ?_ hrest
        split_ifs <;> simp [List.mem_insert_iff, hx, hsx]

theorem fixupStartingSpace_sets (p : SpaceActivationPolicy) (active : List Nat)
    (screens : List ScreenActivationInput) :
    (fixupStartingSpace p active screens).enabled_spaces = p.enabled_spaces ∧
      (fixupStartingSpace p active screens).disabled_spaces = p.disabled_spaces := by
  unfold fixupStartingSpace
  cases hs : p.starting_space with
  | none =>
    cases h : screens.head?.bind (fun s => s.space) <;> simp [hs, h]
  | some starting =>
    by_cases ha : starting ∈ active <;>
      simp only [hs, ha, not_true_eq_false, not_false_eq_true, if_true, if_false] <;>
        first
          | exact ⟨rfl, rfl⟩
          | (cases h : screens.head?.bind (fun s => s.space) <;> simp [h])

theorem fixupStartingSpace_keeps (p : SpaceActivationPolicy) (active : List Nat)
    (screens : List ScreenActivationInput) (B : Nat)
    (hB : p.starting_space = some B) (hact : B ∈ active) :
    (fixupStartingSpace p active screens).starting_space = some B := by
  unfold fixupStartingSpace
  simp [hB, hact]

end Rift.SpaceActivation

namespace Rift.SpaceActivation

/-- **C7, counterexample.** Under default-disable, an explicit *disabled*
override on the churned-away space A is not transferred to the new space B, so
"any enabled or disabled override previously on A" does not appear on B: after
the update the disabled override still holds for A = 7 and not for B = 8, even
though A differed from the newly reported space and was not in
`known_user_spaces`. -/
theorem on_spaces_updated_transfer_cex :
    (7 ∉ (SpaceActivationPolicy.new).known_user_spaces) ∧
      (lookupA ({ SpaceActivationPolicy.new with
          disabled_spaces := [7],
          last_known_space_by_screen := [(1, 7)] }).last_known_space_by_screen 1 = some 7) ∧
      (7 ∈ (SpaceActivationPolicy.on_spaces_updated
          { SpaceActivationPolicy.new with
            disabled_spaces := [7], last_known_space_by_screen := [(1, 7)] }
          ⟨true, false⟩ [⟨1, some 8, none⟩]).disabled_spaces) ∧
      (8 ∉ (SpaceActivationPolicy.on_spaces_updated
          { SpaceActivationPolicy.new with
            disabled_spaces := [7], last_known_space_by_screen := [(1, 7)] }
          ⟨true, false⟩ [⟨1, some 8, none⟩]).disabled_spaces) := by
  decide

/-- **C7, amended.** In `on_spaces_updated`, for a screen whose last known
space A differs from its newly reported space B while A is not in
`known_user_spaces`, the override set matching the configured mode is
transferred from A to B — the enabled set under default-disable, the disabled
set under default-enable — and the `starting_space` pointer, if it was A, is
moved to B; the opposite mode's override set is left untouched. -/
theorem on_spaces_updated_transfers_mode_override (p : SpaceActivationPolicy)
    (cfg : SpaceActivationConfig) (sid A B : Nat) (du : Option String)
    (hprev : lookupA p.last_known_space_by_screen sid = some A)
    (hAB : A ≠ B)
    (hknown : A ∉ p.known_user_spaces)
    (hen : p.enabled_spaces.Nodup)
    (hdis : p.disabled_spaces.Nodup) :
    (cfg.default_disable = true → A ∈ p.enabled_spaces →
        B ∈ (p.on_spaces_updated cfg [⟨sid, some B, du⟩]).enabled_spaces ∧
          A ∉ (p.on_spaces_updated cfg [⟨sid, some B, du⟩]).enabled_spaces) ∧
      (cfg.default_disable = false → A ∈ p.disabled_spaces →
        B ∈ (p.on_spaces_updated cfg [⟨sid, some B, du⟩]).disabled_spaces ∧
          A ∉ (p.on_spaces_updated cfg [⟨sid, some B, du⟩]).disabled_spaces) ∧
      (p.starting_space = some A →
        (p.on_spaces_updated cfg [⟨sid, some B, du⟩]).starting_space = some B) := by
  have hscr : ∀ s ∈ ([⟨sid, some B, du⟩] : List ScreenActivationInput), s.space ≠ some A := by
    intro s hs
    simp only [List.mem_singleton] at hs
    subst hs
    intro h
    exact hAB (Option.some_injective _ h).symm
  have hprev1 : Rift.lookupA (pruneScreens p
      (([⟨sid, some B, du⟩] : List ScreenActivationInput).map
        (·.screen_id))).last_known_space_by_screen sid = some A := by
    show Rift.lookupA (p.last_known_space_by_screen.filter fun e => decide (e.1 ∈ [sid])) sid
      = some A
    rw [lookupA_filter_key _ (fun k => decide (k ∈ [sid])) sid (by simp)]
    exact hprev
  have hQ2 : spacesChurnLoop cfg
      (pruneScreens p (([⟨sid, some B, du⟩] : List ScreenActivationInput).map (·.screen_id)))
      [⟨sid, some B, du⟩] =
      { (pruneScreens p
          (([⟨sid, some B, du⟩] : List ScreenActivationInput).map
            (·.screen_id))).transfer_space_activation cfg A B with
        known_user_spaces := ((pruneScreens p
          (([⟨sid, some B, du⟩] : List ScreenActivationInput).map
            (·.screen_id))).transfer_space_activation cfg A B).known_user_spaces.insert B,
        last_known_space_by_screen := updateA ((pruneScreens p
          (([⟨sid, some B, du⟩] : List ScreenActivationInput).map
            (·.screen_id))).transfer_space_activation cfg A B).last_known_space_by_screen
          sid B } := by
    rw [spacesChurnLoop_singleton, hprev1]
    show (fun q' => { q' with
        known_user_spaces := q'.known_user_spaces.insert B,
        last_known_space_by_screen := updateA q'.last_known_space_by_screen sid B })
      (if A ≠ B ∧ A ∉ (pruneScreens p
          (([⟨sid, some B, du⟩] : List ScreenActivationInput).map
            (·.screen_id))).known_user_spaces then
        (pruneScreens p
          (([⟨sid, some B, du⟩] : List ScreenActivationInput).map
            (·.screen_id))).transfer_space_activation cfg A B
      else pruneScreens p
        (([⟨sid, some B, du⟩] : List ScreenActivationInput).map (·.screen_id))) = _
    rw [if_pos ⟨hAB, hknown⟩]
  have hmain : p.on_spaces_updated cfg [⟨sid, some B, du⟩] =
      fixupStartingSpace
        (applyDisplayActivationLoop cfg
          (retainDisplays
            (displaysChurnLoop cfg
              (spacesChurnLoop cfg
                (pruneScreens p
                  (([⟨sid, some B, du⟩] : List ScreenActivationInput).map (·.screen_id)))
                [⟨sid, some B, du⟩])
              [⟨sid, some B, du⟩])
            (activeDisplaysOf
              (displaysChurnLoop cfg
                (spacesChurnLoop cfg
                  (pruneScreens p
                    (([⟨sid, some B, du⟩] : List ScreenActivationInput).map (·.screen_id)))
                  [⟨sid, some B, du⟩])
                [⟨sid, some B, du⟩])
              [⟨sid, some B, du⟩]))
          [⟨sid, some B, du⟩])
        (([⟨sid, some B, du⟩] : List ScreenActivationInput).filterMap (·.space))
        [⟨sid, some B, du⟩] := rfl
  rw [hmain]
  obtain ⟨h3e, h3d, h3s⟩ := displaysChurnLoop_space_fields cfg [⟨sid, some B, du⟩]
    (spacesChurnLoop cfg
      (pruneScreens p (([⟨sid, some B, du⟩] : List ScreenActivationInput).map (·.screen_id)))
      [⟨sid, some B, du⟩])
  have hq2e : (spacesChurnLoop cfg
      (pruneScreens p (([⟨sid, some B, du⟩] : List ScreenActivationInput).map (·.screen_id)))
      [⟨sid, some B, du⟩]).enabled_spaces =
      ((pruneScreens p
        (([⟨sid, some B, du⟩] : List ScreenActivationInput).map
          (·.screen_id))).transfer_space_activation cfg A B).enabled_spaces := by
    rw [hQ2]
  have hq2d : (spacesChurnLoop cfg
      (pruneScreens p (([⟨sid, some B, du⟩] : List ScreenActivationInput).map (·.screen_id)))
      [⟨sid, some B, du⟩]).disabled_spaces =
      ((pruneScreens p
        (([⟨sid, some B, du⟩] : List ScreenActivationInput).map
          (·.screen_id))).transfer_space_activation cfg A B).disabled_spaces := by
    rw [hQ2]
  have hq2s : (spacesChurnLoop cfg
      (pruneScreens p (([⟨sid, some B, du⟩] : List ScreenActivationInput).map (·.screen_id)))
      [⟨sid, some B, du⟩]).starting_space =
      ((pruneScreens p
        (([⟨sid, some B, du⟩] : List ScreenActivationInput).map
          (·.screen_id))).transfer_space_activation cfg A B).starting_space := by
    rw [hQ2]
  refine ⟨?_, ?_, ?_⟩
  · intro hdd hA
    have hA1 : A ∈ (pruneScreens p
        (([⟨sid, some B, du⟩] : List ScreenActivationInput).map (·.screen_id))).enabled_spaces :=
      hA
    have hte : ((pruneScreens p
        (([⟨sid, some B, du⟩] : List ScreenActivationInput).map
          (·.screen_id))).transfer_space_activation cfg A B).enabled_spaces =
        (p.enabled_spaces.erase A).insert B := by
      rw [transfer_space_enabled, if_pos ⟨hdd, hA1⟩]
      rfl
    constructor
    · rw [(fixupStartingSpace_sets _ _ _).1]
      apply applyDisplayActivationLoop_enabled_sub
      show B ∈ (displaysChurnLoop cfg (spacesChurnLoop cfg _ _) _).enabled_spaces
      rw [h3e, hq2e, hte]
      exact List.mem_insert_self _ _
    · rw [(fixupStartingSpace_sets _ _ _).1]
      apply applyDisplayActivationLoop_enabled_new cfg _ _ _ _ hscr
      show A ∉ (displaysChurnLoop cfg (spacesChurnLoop cfg _ _) _).enabled_spaces
      rw [h3e, hq2e, hte]
      intro hmem
      rcases List.mem_insert_iff.mp hmem with h | h
      · exact hAB h
      · exact ((List.Nodup.mem_erase_iff hen).mp h).1 rfl
  · intro hdd hA
    have hA1 : A ∈ (pruneScreens p
        (([⟨sid, some B, du⟩] : List ScreenActivationInput).map (·.screen_id))).disabled_spaces :=
      hA
    have htd : ((pruneScreens p
        (([⟨sid, some B, du⟩] : List ScreenActivationInput).map
          (·.screen_id))).transfer_space_activation cfg A B).disabled_spaces =
        (p.disabled_spaces.erase A).insert B := by
      rw [transfer_space_disabled, if_pos ⟨by simp [hdd], hA1⟩]
      rfl
    constructor
    · rw [(fixupStartingSpace_sets _ _ _).2]
      apply applyDisplayActivationLoop_disabled_sub
      show B ∈ (displaysChurnLoop cfg (spacesChurnLoop cfg _ _) _).disabled_spaces
      rw [h3d, hq2d, htd]
      exact List.mem_insert_self _ _
    · rw [(fixupStartingSpace_sets _ _ _).2]
      apply applyDisplayActivationLoop_disabled_new cfg _ _ _ _ hscr
      show A ∉ (displaysChurnLoop cfg (spacesChurnLoop cfg _ _) _).disabled_spaces
      rw [h3d, hq2d, htd]
      intro hmem
      rcases List.mem_insert_iff.mp hmem with h | h
      · exact hAB h
      · exact ((List.Nodup.mem_erase_iff hdis).mp h).1 rfl
  · intro hst
    have hst1 : (pruneScreens p
        (([⟨sid, some B, du⟩] : List ScreenActivationInput).map (·.screen_id))).starting_space =
        some A := hst
    have h5s : (applyDisplayActivationLoop cfg
        (retainDisplays
          (displaysChurnLoop cfg
            (spacesChurnLoop cfg
              (pruneScreens p
                (([⟨sid, some B, du⟩] : List ScreenActivationInput).map (·.screen_id)))
              [⟨sid, some B, du⟩])
            [⟨sid, some B, du⟩])
          (activeDisplaysOf
            (displaysChurnLoop cfg
              (spacesChurnLoop cfg
                (pruneScreens p
                  (([⟨sid, some B, du⟩] : List ScreenActivationInput).map (·.screen_id)))
                [⟨sid, some B, du⟩])
              [⟨sid, some B, du⟩])
            [⟨sid, some B, du⟩]))
        [⟨sid, some B, du⟩]).starting_space = some B := by
      rw [applyDisplayActivationLoop_starting]
      show (displaysChurnLoop cfg (spacesChurnLoop cfg _ _) _).starting_space = some B
      rw [h3s, hq2s, transfer_space_starting, if_pos hst1]
    exact fixupStartingSpace_keeps _ _ _ B h5s (by simp)

/-- **C7, amended — witness.** The amended transfer theorem applied to a
concrete policy: an enabled override on space 7 moves to space 8 when screen 1
reports 8 while 7 is unknown, under default-disable. -/
theorem on_spaces_updated_transfers_mode_override_witness :
    8 ∈ (SpaceActivationPolicy.on_spaces_updated
        { SpaceActivationPolicy.new with
          enabled_spaces := [7], last_known_space_by_screen := [(1, 7)] }
        ⟨true, false⟩ [⟨1, some 8, none⟩]).enabled_spaces ∧
      7 ∉ (SpaceActivationPolicy.on_spaces_updated
        { SpaceActivationPolicy.new with
          enabled_spaces := [7], last_known_space_by_screen := [(1, 7)] }
        ⟨true, false⟩ [⟨1, some 8, none⟩]).enabled_spaces :=
  (on_spaces_updated_transfers_mode_override
    { SpaceActivationPolicy.new with
      enabled_spaces := [7], last_known_space_by_screen := [(1, 7)] }
    ⟨true, false⟩ 1 7 8 none (by decide) (by decide) (by decide) (by decide)
    (by decide)).1 rfl (by decide)

end Rift.SpaceActivation

namespace Rift

/-! ## Claim C8 — easing and interpolation -/

theorem blend_zero (x y : ℝ) : blend x y 0 = x := by unfold blend; ring

theorem blend_one (x y : ℝ) : blend x y 1 = y := by unfold blend; ring

theorem ease_zero : ease 0 = 0 := by
  unfold ease
  rw [if_pos (by norm_num : (0:ℝ) < 1/2)]
  norm_num

theorem ease_one : ease 1 = 1 := by
  unfold ease
  rw [if_neg (by norm_num : ¬ (1:ℝ) < 1/2)]
  norm_num

theorem ease_symm (t : ℝ) : ease (1 - t) = 1 - ease t := by
  unfold ease
  rcases lt_trichotomy t (1/2) with h | h | h
  · rw [if_neg (by linarith : ¬ (1 - t < 1/2)), if_pos h]
    have harg : (1:ℝ) - (-2 * (1 - t) + 2)^2 = 1 - (2 * t)^2 := by ring
    rw [harg]
    ring
  · subst h
    rw [if_neg (by norm_num : ¬ ((1:ℝ) - 1/2 < 1/2)), if_neg (by norm_num : ¬ ((1:ℝ)/2 < 1/2))]
    have harg : (1:ℝ) - (-2 * (1 - 1/2) + 2)^2 = 0 := by ring
    have harg' : (1:ℝ) - (-2 * (1/2) + 2)^2 = 0 := by ring
    rw [harg, harg', Real.sqrt_zero]
    ring
  · rw [if_pos (by linarith : (1 - t) < 1/2), if_neg (by linarith : ¬ (t < 1/2))]
    have harg : (1:ℝ) - (2 * (1 - t))^2 = 1 - (-2 * t + 2)^2 := by ring
    rw [harg]
    ring

theorem ease_monotoneOn : MonotoneOn ease (Set.Icc 0 1) := by
  intro a ha b hb hab
  obtain ⟨ha0, ha1⟩ := ha
  obtain ⟨hb0, hb1⟩ := hb
  unfold ease
  by_cases hb2 : b < 1/2
  · have ha2 : a < 1/2 := lt_of_le_of_lt hab hb2
    rw [if_pos ha2, if_pos hb2]
    have h1 : (2*a)^2 ≤ (2*b)^2 := by nlinarith
    have h2 : Real.sqrt (1 - (2*b)^2) ≤ Real.sqrt (1 - (2*a)^2) :=
      Real.sqrt_le_sqrt (by linarith)
    linarith
  · by_cases ha2 : a < 1/2
    · rw [if_pos ha2, if_neg hb2]
      have h1 : (0:ℝ) ≤ Real.sqrt (1 - (2*a)^2) := Real.sqrt_nonneg _
      have h2 : (0:ℝ) ≤ Real.sqrt (1 - (-2*b+2)^2) := Real.sqrt_nonneg _
      linarith
    · rw [if_neg ha2, if_neg hb2]
      push_neg at ha2
      have h1 : (-2*b+2)^2 ≤ (-2*a+2)^2 := by nlinarith
      have h2 : Real.sqrt (1 - (-2*a+2)^2) ≤ Real.sqrt (1 - (-2*b+2)^2) :=
        Real.sqrt_le_sqrt (by linarith)
      linarith

theorem blend_ease_monoOn (x y : ℝ) (hxy : x ≤ y) :
    MonotoneOn (fun t => blend x y (ease t)) (Set.Icc 0 1) := by
  intro a ha b hb hab
  have he := ease_monotoneOn ha hb hab
  simp only [blend]
  nlinarith [he]

theorem blend_ease_antiOn (x y : ℝ) (hxy : y ≤ x) :
    AntitoneOn (fun t => blend x y (ease t)) (Set.Icc 0 1) := by
  intro a ha b hb hab
  have he := ease_monotoneOn ha hb hab
  simp only [blend]
  nlinarith [he]

theorem get_frame_zero (a b : CGRect) : get_frame a b 0 = a := by
  show (⟨⟨blend a.origin.x b.origin.x (ease 0), blend a.origin.y b.origin.y (ease 0)⟩,
    ⟨blend a.size.width b.size.width (ease 0), blend a.size.height b.size.height (ease 0)⟩⟩ :
      CGRect) = a
  rw [ease_zero, blend_zero, blend_zero, blend_zero, blend_zero]

theorem get_frame_one (a b : CGRect) : get_frame a b 1 = b := by
  show (⟨⟨blend a.origin.x b.origin.x (ease 1), blend a.origin.y b.origin.y (ease 1)⟩,
    ⟨blend a.size.width b.size.width (ease 1), blend a.size.height b.size.height (ease 1)⟩⟩ :
      CGRect) = b
  rw [ease_one, blend_one, blend_one, blend_one, blend_one]

/-- **C8.** The easing function maps 0 to 0 and 1 to 1, is symmetric about
(0.5, 0.5) (`ease (1 - t) = 1 - ease t`), and is monotonically non-decreasing
on [0, 1]; consequently `get_frame from to t` equals `from` at t = 0, equals
`to` at t = 1, and each of the four rectangle components moves monotonically
(non-decreasing or non-increasing according to the component's endpoints)
between them. -/
theorem ease_get_frame_properties :
    ease 0 = 0 ∧ ease 1 = 1 ∧
      (∀ t : ℝ, ease (1 - t) = 1 - ease t) ∧
      MonotoneOn ease (Set.Icc 0 1) ∧
      (∀ a b : CGRect, get_frame a b 0 = a ∧ get_frame a b 1 = b) ∧
      (∀ a b : CGRect,
        (a.origin.x ≤ b.origin.x →
          MonotoneOn (fun t => (get_frame a b t).origin.x) (Set.Icc 0 1)) ∧
        (b.origin.x ≤ a.origin.x →
          AntitoneOn (fun t => (get_frame a b t).origin.x) (Set.Icc 0 1)) ∧
        (a.origin.y ≤ b.origin.y →
          MonotoneOn (fun t => (get_frame a b t).origin.y) (Set.Icc 0 1)) ∧
        (b.origin.y ≤ a.origin.y →
          AntitoneOn (fun t => (get_frame a b t).origin.y) (Set.Icc 0 1)) ∧
        (a.size.width ≤ b.size.width →
          MonotoneOn (fun t => (get_frame a b t).size.width) (Set.Icc 0 1)) ∧
        (b.size.width ≤ a.size.width →
          AntitoneOn (fun t => (get_frame a b t).size.width) (Set.Icc 0 1)) ∧
        (a.size.height ≤ b.size.height →
          MonotoneOn (fun t => (get_frame a b t).size.height) (Set.Icc 0 1)) ∧
        (b.size.height ≤ a.size.height →
          AntitoneOn (fun t => (get_frame a b t).size.height) (Set.Icc 0 1))) :=
  ⟨ease_zero, ease_one, ease_symm, ease_monotoneOn,
    fun a b => ⟨get_frame_zero a b, get_frame_one a b⟩,
    fun a b =>
      ⟨fun h => blend_ease_monoOn _ _ h, fun h => blend_ease_antiOn _ _ h,
       fun h => blend_ease_monoOn _ _ h, fun h => blend_ease_antiOn _ _ h,
       fun h => blend_ease_monoOn _ _ h, fun h => blend_ease_antiOn _ _ h,
       fun h => blend_ease_monoOn _ _ h, fun h => blend_ease_antiOn _ _ h⟩⟩

end Rift

namespace Rift

/-! ## Claim C1 — cancellation semantics of the tick callback -/

/-- **C1.** `is_cancelled` is true exactly when the shared counter's current
value differs from the generation captured at animation start; on any tick at
which the cancellation check is true, the callback sends end-animation to every
window of every group and stops (returns false, signalling done), and a
completed tick state emits nothing on any further tick — no interpolated
position or frame update follows for that pass. -/
theorem cancelled_tick_ends_all_windows
    (windows_for_link : List AnimationGroup) (c : AnimationCancel)
    (frames : Nat) (total_duration start now : ℝ) (token_value : Nat) (st : TickState)
    (hrun : st.completed = false)
    (hcanc : token_value ≠ c.generation) :
    (∀ v : Nat, c.is_cancelled v = true ↔ v ≠ c.generation) ∧
      Animation.tick windows_for_link (some c) frames total_duration start now token_value st =
        (false, { st with completed := true },
          windows_for_link.flatMap fun group =>
            group.windows.map fun window =>
              (group.handle, Request.EndWindowAnimation window.wid), true) ∧
      (∀ (wfl : List AnimationGroup) (cl : Option AnimationCancel) (fr : Nat)
          (td s0 n0 : ℝ) (tv : Nat) (s : TickState), s.completed = true →
        Animation.tick wfl cl fr td s0 n0 tv s = (false, s, [], false)) := by
  refine ⟨?_, ?_, ?_⟩
  · intro v
    simp [AnimationCancel.is_cancelled]
  · unfold Animation.tick
    rw [if_neg (by simp [hrun]), if_pos (by simp [AnimationCancel.is_cancelled, hcanc])]
  · intro wfl cl fr td s0 n0 tv s hs
    unfold Animation.tick
    rw [if_pos (by simp [hs])]

/-- **C1 — witness.** The cancelled-tick theorem at a concrete input: one group
with one window, generation 0 captured, counter now 1. -/
theorem cancelled_tick_ends_all_windows_witness :
    Animation.tick [⟨1, 1, 1, [⟨⟨1, 0⟩, ⟨⟨0, 0⟩, ⟨1, 1⟩⟩, ⟨⟨0, 0⟩, ⟨1, 1⟩⟩, false⟩]⟩]
        (some ⟨0⟩) 1 1 0 0 1 ⟨0, false, false⟩ =
      (false, { TickState.mk 0 false false with completed := true },
        ([⟨1, 1, 1, [⟨⟨1, 0⟩, ⟨⟨0, 0⟩, ⟨1, 1⟩⟩, ⟨⟨0, 0⟩, ⟨1, 1⟩⟩, false⟩]⟩] :
            List AnimationGroup).flatMap fun group =>
          group.windows.map fun window =>
            (group.handle, Request.EndWindowAnimation window.wid), true) :=
  (cancelled_tick_ends_all_windows
    [⟨1, 1, 1, [⟨⟨1, 0⟩, ⟨⟨0, 0⟩, ⟨1, 1⟩⟩, ⟨⟨0, 0⟩, ⟨1, 1⟩⟩, false⟩]⟩]
    ⟨0⟩ 1 1 0 0 1 ⟨0, false, false⟩ rfl (by decide)).2.1

/-! ## Claim C5 — the orchestrator on per-window problems -/

theorem roundCoord_zero : roundCoord 0 = 0 := by
  unfold roundCoord
  rw [round_zero]
  norm_num

theorem roundCoord_one : roundCoord 1 = 1 := by
  unfold roundCoord
  rw [round_one]
  norm_num

/-- **C5 (code bug).** A tracked window that transiently lacks a window-server
id and whose frame must change makes `animate_layout` panic at the
`.unwrap()` on animation.rs line 384 (modelled by the `none` result) instead of
logging and skipping the window: the call does not return a boolean for this
input. -/
theorem animate_layout_panics_on_missing_window_server_id :
    AnimationManager.animate_layout
      { windows := [(⟨1, 0⟩, ⟨⟨⟨0, 0⟩, ⟨1, 1⟩⟩, none, none⟩)],
        apps := [(1, ⟨1⟩)], txStore := [], animation_generation := 0,
        settings := ⟨60, 1, true⟩, refresh_rate := none, low_power := false,
        dead_handles := [], active_workspace := fun _ => some 0,
        workspace_for_window := fun _ _ => some 0 }
      0 0 [(⟨1, 0⟩, ⟨⟨1, 1⟩, ⟨1, 1⟩⟩)] false none = none := by
  unfold AnimationManager.animate_layout
  simp only [animate_loop, animate_step, animate_step_rest, CGRect.round, roundCoord_zero,
    roundCoord_one, CGRect.same_as, lookupA_cons, lookupA_nil, if_pos, if_neg,
    CGPoint.mk.injEq, CGSize.mk.injEq, CGRect.mk.injEq]
  norm_num
  simp

end Rift

namespace Rift

/-! ## Orchestrator infrastructure lemmas -/

theorem lookupA_append {α β : Type} [DecidableEq α] (l1 l2 : List (α × β)) (a : α) :
    lookupA (l1 ++ l2) a =
      match lookupA l1 a with
      | some v => some v
      | none => lookupA l2 a := by
  induction l1 with
  | nil => simp
  | cons hd tl ih =>
    obtain ⟨k, v⟩ := hd
    by_cases hk : k = a <;> simp [hk, ih]

theorem mintsFor_append (m : List (Nat × WindowServerId)) (e : Nat × WindowServerId) (p : Nat) :
    mintsFor (m ++ [e]) p = mintsFor m p + if e.1 = p then 1 else 0 := by
  unfold mintsFor
  rw [List.filter_append]
  by_cases h : e.1 = p <;> simp [h, List.length_append]

/-- The invariant tying the mint trace to the per-app token map: exactly one
token has been minted for a process iff the process has an allocated token. -/
def MintInv (acc : AnimAcc) : Prop :=
  ∀ p, mintsFor acc.mints p = if (lookupA acc.per_app_txid p).isSome then 1 else 0

theorem txidAlloc_carry_over (acc : AnimAcc) (p : Nat) (w : WindowServerId) :
    (txidAlloc acc p w).2.carry_over = acc.carry_over := by
  unfold txidAlloc
  cases h : lookupA acc.per_app_txid p <;> simp [h]

theorem txidAlloc_anim (acc : AnimAcc) (p : Nat) (w : WindowServerId) :
    (txidAlloc acc p w).2.anim = acc.anim := by
  unfold txidAlloc
  cases h : lookupA acc.per_app_txid p <;> simp [h]

theorem txidAlloc_animated_count (acc : AnimAcc) (p : Nat) (w : WindowServerId) :
    (txidAlloc acc p w).2.animated_count = acc.animated_count := by
  unfold txidAlloc
  cases h : lookupA acc.per_app_txid p <;> simp [h]

theorem txidAlloc_generation (acc : AnimAcc) (p : Nat) (w : WindowServerId) :
    (txidAlloc acc p w).2.reactor.animation_generation =
      acc.reactor.animation_generation := by
  unfold txidAlloc
  cases h : lookupA acc.per_app_txid p <;> simp [h]

theorem txidAlloc_windows (acc : AnimAcc) (p : Nat) (w : WindowServerId) :
    (txidAlloc acc p w).2.reactor.windows = acc.reactor.windows := by
  unfold txidAlloc
  cases h : lookupA acc.per_app_txid p <;> simp [h]

theorem txidAlloc_apps (acc : AnimAcc) (p : Nat) (w : WindowServerId) :
    (txidAlloc acc p w).2.reactor.apps = acc.reactor.apps := by
  unfold txidAlloc
  cases h : lookupA acc.per_app_txid p <;> simp [h]

theorem txidAlloc_per_app_mono (acc : AnimAcc) (p : Nat) (w : WindowServerId)
    (q : Nat) (t : TransactionId) (h : lookupA acc.per_app_txid q = some t) :
    lookupA (txidAlloc acc p w).2.per_app_txid q = some t := by
  unfold txidAlloc
  cases hl : lookupA acc.per_app_txid p
  · simp only [hl]
    rw [lookupA_append, h]
  · simpa [hl] using h

theorem txidAlloc_per_app_self (acc : AnimAcc) (p : Nat) (w : WindowServerId) :
    lookupA (txidAlloc acc p w).2.per_app_txid p = some (txidAlloc acc p w).1 := by
  unfold txidAlloc
  cases hl : lookupA acc.per_app_txid p
  · simp only [hl]
    rw [lookupA_append, hl]
    simp
  · simpa [hl]

theorem txidAlloc_inv (acc : AnimAcc) (p : Nat) (w : WindowServerId)
    (h : MintInv acc) : MintInv (txidAlloc acc p w).2 := by
  unfold txidAlloc
  cases hl : lookupA acc.per_app_txid p
  · intro q
    simp only [hl]
    rw [mintsFor_append, lookupA_append]
    by_cases hq : p = q
    · subst hq
      rw [hl]
      have := h p
      rw [hl] at this
      simp_all
    · have hne : lookupA [(p, (generate_next_txid acc.reactor.txStore w).1)] q = none := by
        simp [hq]
      rw [hne]
      have hmq := h q
      cases hlq : lookupA acc.per_app_txid q <;> simp_all [hq, hlq]
  · simpa [hl] using h

/-- Animation batches only grow: an existing window entry survives
`add_window`. -/
theorem addToGroups_mono (handle : Nat) (wid : WindowId) (s f : CGRect) (foc : Bool)
    (txid : TransactionId) (p : Nat) (t : TransactionId) (w : AnimationWindow) :
    ∀ gs : List AnimationGroup,
      (∃ g ∈ gs, g.pid = p ∧ g.txid = t ∧ w ∈ g.windows) →
      ∃ g ∈ Animation.addToGroups handle wid s f foc txid gs,
        g.pid = p ∧ g.txid = t ∧ w ∈ g.windows := by
  intro gs
  induction gs with
  | nil => rintro ⟨g, hg, _⟩; cases hg
  | cons g0 rest ih =>
    rintro ⟨g, hg, hgp, hgt, hgw⟩
    unfold Animation.addToGroups
    by_cases hmatch : g0.pid = wid.pid ∧ g0.txid = txid
    · rw [if_pos hmatch]
      rcases List.mem_cons.mp hg with hg | hg
      · subst hg
        exact ⟨_, List.mem_cons_self _ _, hgp, hgt, List.mem_append_left _ hgw⟩
      · exact ⟨g, List.mem_cons_of_mem _ hg, hgp, hgt, hgw⟩
    · rw [if_neg hmatch]
      rcases List.mem_cons.mp hg with hg | hg
      · subst hg
        exact ⟨g, List.mem_cons_self _ _, hgp, hgt, hgw⟩
      · obtain ⟨g', hg', hp', ht', hw'⟩ := ih ⟨g, hg, hgp, hgt, hgw⟩
        exact ⟨g', List.mem_cons_of_mem _ hg', hp', ht', hw'⟩

theorem add_window_mono (a : Animation) (handle : Nat) (wid : WindowId) (s f : CGRect)
    (foc : Bool) (txid : TransactionId) (p : Nat) (t : TransactionId) (w : AnimationWindow)
    (h : a.has_entry p t w) :
    (a.add_window handle wid s f foc txid).has_entry p t w :=
  addToGroups_mono handle wid s f foc txid p t w a.windows h

/-- `add_window` puts the window into a group carrying its pid and token. -/
theorem addToGroups_self (handle : Nat) (wid : WindowId) (s f : CGRect) (foc : Bool)
    (txid : TransactionId) :
    ∀ gs : List AnimationGroup,
      ∃ g ∈ Animation.addToGroups handle wid s f foc txid gs,
        g.pid = wid.pid ∧ g.txid = txid ∧ (⟨wid, s, f, foc⟩ : AnimationWindow) ∈ g.windows := by
  intro gs
  induction gs with
  | nil =>
    exact ⟨_, List.mem_cons_self _ _, rfl, rfl, List.mem_cons_self _ _⟩
  | cons g0 rest ih =>
    unfold Animation.addToGroups
    by_cases hmatch : g0.pid = wid.pid ∧ g0.txid = txid
    · rw [if_pos hmatch]
      exact ⟨_, List.mem_cons_self _ _, hmatch.1, hmatch.2, List.mem_append_right _
        (List.mem_cons_self _ _)⟩
    · rw [if_neg hmatch]
      obtain ⟨g, hg, hp, ht, hw⟩ := ih
      exact ⟨g, List.mem_cons_of_mem _ hg, hp, ht, hw⟩

theorem add_window_self (a : Animation) (handle : Nat) (wid : WindowId) (s f : CGRect)
    (foc : Bool) (txid : TransactionId) :
    (a.add_window handle wid s f foc txid).has_entry wid.pid txid ⟨wid, s, f, foc⟩ :=
  addToGroups_self handle wid s f foc txid a.windows

end Rift

namespace Rift

theorem txidAlloc_workspace (acc : AnimAcc) (p : Nat) (w : WindowServerId) :
    (txidAlloc acc p w).2.reactor.workspace_for_window =
      acc.reactor.workspace_for_window := by
  unfold txidAlloc
  cases h : lookupA acc.per_app_txid p <;> simp [h]

theorem animate_step_commit_props (space active_ws : Nat) (now dur : ℝ)
    (acc acc' : AnimAcc) (wid : WindowId) (tf cf : CGRect) (carry : Bool)
    (wsid : WindowServerId) (txid : TransactionId) (app : AppState)
    (h : animate_step_commit space active_ws now dur acc wid tf cf carry wsid txid app =
      some acc') :
    acc'.per_app_txid = acc.per_app_txid ∧
      acc'.mints = acc.mints ∧
      (∃ suf, acc'.carry_over = acc.carry_over ++ suf) ∧
      (∀ p t w, acc.anim.has_entry p t w → acc'.anim.has_entry p t w) ∧
      acc'.reactor.animation_generation = acc.reactor.animation_generation := by
  unfold animate_step_commit at h
  generalize hIA : (match acc.reactor.workspace_for_window space wid with
    | some ws => decide (ws = active_ws)
    | none => false) = IA at h
  cases IA
  case true =>
    simp only [if_true, ite_true, not_true_eq_false, false_and, if_false, ite_false] at h
    cases carry
    case true =>
      simp only [if_true, ite_true] at h
      split at h
      case h_1 w hfin =>
        simp only [Option.some.injEq] at h
        subst h
        exact ⟨rfl, rfl, ⟨_, rfl⟩, fun _ _ _ hw => hw, rfl⟩
      case h_2 hfin =>
        simp only [Option.some.injEq] at h
        subst h
        exact ⟨rfl, rfl, ⟨_, rfl⟩, fun _ _ _ hw => hw, rfl⟩
    case false =>
      simp only [Bool.false_eq_true, if_false, ite_false] at h
      split at h
      case h_1 w hfin =>
        simp only [Option.some.injEq] at h
        subst h
        exact ⟨rfl, rfl, ⟨[], by simp⟩,
          fun p t w hw => add_window_mono _ _ _ _ _ _ _ _ _ _ hw, rfl⟩
      case h_2 hfin =>
        simp only [Option.some.injEq] at h
        subst h
        exact ⟨rfl, rfl, ⟨[], by simp⟩,
          fun p t w hw => add_window_mono _ _ _ _ _ _ _ _ _ _ hw, rfl⟩
  case false =>
    simp only [Bool.false_eq_true, if_false, ite_false, not_false_eq_true, true_and] at h
    split at h
    · simp only [Option.some.injEq] at h
      subst h
      exact ⟨rfl, rfl, ⟨[], by simp⟩, fun _ _ _ hw => hw, rfl⟩
    · split at h
      case h_1 w hfin =>
        simp only [Option.some.injEq] at h
        subst h
        exact ⟨rfl, rfl, ⟨[], by simp⟩, fun _ _ _ hw => hw, rfl⟩
      case h_2 hfin =>
        simp only [Option.some.injEq] at h
        subst h
        exact ⟨rfl, rfl, ⟨[], by simp⟩, fun _ _ _ hw => hw, rfl⟩

end Rift

namespace Rift

theorem animate_step_rest_props (space active_ws : Nat) (now dur : ℝ)
    (acc acc' : AnimAcc) (wid : WindowId) (tf cf : CGRect) (carry : Bool) (window : Window)
    (h : animate_step_rest space active_ws now dur acc wid tf cf carry window = some acc') :
    (∀ p t, lookupA acc.per_app_txid p = some t → lookupA acc'.per_app_txid p = some t) ∧
      (MintInv acc → MintInv acc') ∧
      (∃ suf, acc'.carry_over = acc.carry_over ++ suf) ∧
      (∀ p t w, acc.anim.has_entry p t w → acc'.anim.has_entry p t w) ∧
      acc'.reactor.animation_generation = acc.reactor.animation_generation := by
  unfold animate_step_rest at h
  split at h
  · simp only [Option.some.injEq] at h
    subst h
    exact ⟨fun _ _ ht => ht, fun hi => hi, ⟨[], by simp⟩, fun _ _ _ hw => hw, rfl⟩
  · split at h
    case h_1 => exact absurd h (by simp)
    case h_2 wsid hwsid =>
      dsimp only at h
      split at h
      case h_1 happ =>
        simp only [Option.some.injEq] at h
        subst h
        refine ⟨?_, ?_, ?_, ?_, ?_⟩
        · intro p t ht
          exact txidAlloc_per_app_mono _ wid.pid wsid p t ht
        · intro hi
          apply txidAlloc_inv
          exact hi
        · rw [txidAlloc_carry_over]
          exact ⟨[], by simp⟩
        · intro p t w hw
          rw [txidAlloc_anim]
          exact hw
        · rw [txidAlloc_generation]
      case h_2 app happ =>
        obtain ⟨c1, c2, c3, c4, c5⟩ := animate_step_commit_props _ _ _ _ _ _ _ _ _ _ _ _ _ h
        refine ⟨?_, ?_, ?_, ?_, ?_⟩
        · intro p t ht
          rw [c1]
          exact txidAlloc_per_app_mono _ wid.pid wsid p t ht
        · intro hi
          intro p
          rw [c2, c1]
          revert p
          apply txidAlloc_inv
          exact hi
        · obtain ⟨suf, hsuf⟩ := c3
          rw [txidAlloc_carry_over] at hsuf
          exact ⟨suf, hsuf⟩
        · intro p t w hw
          apply c4
          rw [txidAlloc_anim]
          exact hw
        · rw [c5, txidAlloc_generation]

theorem animate_step_props (space active_ws : Nat) (now dur : ℝ) (skip_wid : Option WindowId)
    (acc acc' : AnimAcc) (e : WindowId × CGRect)
    (h : animate_step space active_ws now dur skip_wid acc e = some acc') :
    (∀ p t, lookupA acc.per_app_txid p = some t → lookupA acc'.per_app_txid p = some t) ∧
      (MintInv acc → MintInv acc') ∧
      (∃ suf, acc'.carry_over = acc.carry_over ++ suf) ∧
      (∀ p t w, acc.anim.has_entry p t w → acc'.anim.has_entry p t w) ∧
      acc'.reactor.animation_generation = acc.reactor.animation_generation := by
  unfold animate_step at h
  dsimp only at h
  split at h
  · simp only [Option.some.injEq] at h
    subst h
    exact ⟨fun _ _ ht => ht, fun hi => hi, ⟨[], by simp⟩, fun _ _ _ hw => hw, rfl⟩
  · split at h
    case h_1 =>
      simp only [Option.some.injEq] at h
      subst h
      exact ⟨fun _ _ ht => ht, fun hi => hi, ⟨[], by simp⟩, fun _ _ _ hw => hw, rfl⟩
    case h_2 window hwin =>
      split at h
      case h_2 =>
        exact animate_step_rest_props _ _ _ _ _ _ _ _ _ _ _ h
      case h_1 state hstate =>
        split at h
        case h_1 frame hframe =>
          exact animate_step_rest_props _ _ _ _ _ _ _ _ _ _ _ h
        case h_2 hframe =>
          exact animate_step_rest_props _ _ _ _ _ _ _ _ _ _ _ h

theorem animate_loop_props (space active_ws : Nat) (now dur : ℝ)
    (skip_wid : Option WindowId) :
    ∀ (l : List (WindowId × CGRect)) (acc acc' : AnimAcc),
      animate_loop space active_ws now dur skip_wid acc l = some acc' →
      (∀ p t, lookupA acc.per_app_txid p = some t → lookupA acc'.per_app_txid p = some t) ∧
        (MintInv acc → MintInv acc') ∧
        (∃ suf, acc'.carry_over = acc.carry_over ++ suf) ∧
        (∀ p t w, acc.anim.has_entry p t w → acc'.anim.has_entry p t w) ∧
        acc'.reactor.animation_generation = acc.reactor.animation_generation := by
  intro l
  induction l with
  | nil =>
    intro acc acc' h
    unfold animate_loop at h
    simp only [Option.some.injEq] at h
    subst h
    exact ⟨fun _ _ ht => ht, fun hi => hi, ⟨[], by simp⟩, fun _ _ _ hw => hw, rfl⟩
  | cons e rest ih =>
    intro acc acc' h
    unfold animate_loop at h
    cases hstep : animate_step space active_ws now dur skip_wid acc e with
    | none => rw [hstep] at h; cases h
    | some accm =>
      rw [hstep] at h
      obtain ⟨s1, s2, s3, s4, s5⟩ :=
        animate_step_props space active_ws now dur skip_wid acc accm e hstep
      obtain ⟨l1, l2, l3, l4, l5⟩ := ih accm acc' h
      refine ⟨?_, ?_, ?_, ?_, ?_⟩
      · intro p t ht
        exact l1 p t (s1 p t ht)
      · intro hi
        exact l2 (s2 hi)
      · obtain ⟨suf1, h1⟩ := s3
        obtain ⟨suf2, h2⟩ := l3
        exact ⟨suf1 ++ suf2, by rw [h2, h1, List.append_assoc]⟩
      · intro p t w hw
        exact l4 p t w (s4 p t w hw)
      · rw [l5, s5]

end Rift

namespace Rift

theorem carry_step_props (now dur : ℝ) (acc : AnimAcc)
    (c : WindowId × CGRect × CGRect × Nat × WindowServerId) :
    (∀ p t, lookupA acc.per_app_txid p = some t →
        lookupA (carry_step now dur acc c).per_app_txid p = some t) ∧
      (MintInv acc → MintInv (carry_step now dur acc c)) ∧
      (∀ p t w, acc.anim.has_entry p t w → (carry_step now dur acc c).anim.has_entry p t w) ∧
      (carry_step now dur acc c).reactor.animation_generation =
        acc.reactor.animation_generation ∧
      (carry_step now dur acc c).carry_over = acc.carry_over ∧
      acc.animated_count + 1 = (carry_step now dur acc c).animated_count ∧
      (∃ t, lookupA (carry_step now dur acc c).per_app_txid c.1.pid = some t ∧
        (carry_step now dur acc c).anim.has_entry c.1.pid t
          ⟨c.1, c.2.1, c.2.2.1, false⟩) := by
  unfold carry_step
  dsimp only
  refine ⟨?_, ?_, ?_, ?_, ?_, ?_, ?_⟩
  · intro p t ht
    exact txidAlloc_per_app_mono _ c.1.pid c.2.2.2.2 p t ht
  · intro hi
    intro p
    show mintsFor (txidAlloc acc c.1.pid c.2.2.2.2).2.mints p = _
    revert p
    apply txidAlloc_inv
    exact hi
  · intro p t w hw
    show ((txidAlloc acc c.1.pid c.2.2.2.2).2.anim.add_window _ _ _ _ _ _).has_entry p t w
    apply add_window_mono
    rw [txidAlloc_anim]
    exact hw
  · show (txidAlloc acc c.1.pid c.2.2.2.2).2.reactor.animation_generation = _
    rw [txidAlloc_generation]
  · show (txidAlloc acc c.1.pid c.2.2.2.2).2.carry_over = _
    rw [txidAlloc_carry_over]
  · show acc.animated_count + 1 = (txidAlloc acc c.1.pid c.2.2.2.2).2.animated_count + 1
    rw [txidAlloc_animated_count]
  · refine ⟨(txidAlloc acc c.1.pid c.2.2.2.2).1, ?_, ?_⟩
    · show lookupA (txidAlloc acc c.1.pid c.2.2.2.2).2.per_app_txid c.1.pid = _
      exact txidAlloc_per_app_self acc c.1.pid c.2.2.2.2
    · exact add_window_self _ _ _ _ _ _ _

theorem carry_loop_props (now dur : ℝ) :
    ∀ (cs : List (WindowId × CGRect × CGRect × Nat × WindowServerId)) (acc : AnimAcc),
      (∀ p t, lookupA acc.per_app_txid p = some t →
          lookupA (carry_loop now dur acc cs).per_app_txid p = some t) ∧
        (MintInv acc → MintInv (carry_loop now dur acc cs)) ∧
        (∀ p t w, acc.anim.has_entry p t w →
          (carry_loop now dur acc cs).anim.has_entry p t w) ∧
        (carry_loop now dur acc cs).reactor.animation_generation =
          acc.reactor.animation_generation ∧
        acc.animated_count ≤ (carry_loop now dur acc cs).animated_count := by
  intro cs
  induction cs with
  | nil =>
    intro acc
    exact ⟨fun _ _ ht => ht, fun hi => hi, fun _ _ _ hw => hw, rfl, le_refl _⟩
  | cons c rest ih =>
    intro acc
    obtain ⟨s1, s2, s3, s4, s5, s6, _⟩ := carry_step_props now dur acc c
    obtain ⟨l1, l2, l3, l4, l5⟩ := ih (carry_step now dur acc c)
    refine ⟨?_, ?_, ?_, ?_, ?_⟩
    · intro p t ht
      exact l1 p t (s1 p t ht)
    · intro hi
      exact l2 (s2 hi)
    · intro p t w hw
      exact l3 p t w (s3 p t w hw)
    · show (carry_loop now dur (carry_step now dur acc c) rest).reactor.animation_generation = _
      rw [l4, s4]
    · calc acc.animated_count ≤ acc.animated_count + 1 := Nat.le_succ _
        _ = (carry_step now dur acc c).animated_count := s6
        _ ≤ _ := l5

theorem carry_loop_processes (now dur : ℝ) :
    ∀ (cs : List (WindowId × CGRect × CGRect × Nat × WindowServerId)) (acc : AnimAcc)
      (c : WindowId × CGRect × CGRect × Nat × WindowServerId), c ∈ cs →
      ∃ t, lookupA (carry_loop now dur acc cs).per_app_txid c.1.pid = some t ∧
        (carry_loop now dur acc cs).anim.has_entry c.1.pid t
          ⟨c.1, c.2.1, c.2.2.1, false⟩ := by
  intro cs
  induction cs with
  | nil => intro acc c hc; cases hc
  | cons c0 rest ih =>
    intro acc c hc
    rcases List.mem_cons.mp hc with hc | hc
    · subst hc
      obtain ⟨_, _, _, _, _, _, t, ht, hentry⟩ := carry_step_props now dur acc c
      obtain ⟨l1, _, l3, _, _⟩ := carry_loop_props now dur rest (carry_step now dur acc c)
      exact ⟨t, l1 _ t ht, l3 _ t _ hentry⟩
    · exact ih (carry_step now dur acc c0) c hc

theorem carry_loop_carry_over (now dur : ℝ) :
    ∀ (cs : List (WindowId × CGRect × CGRect × Nat × WindowServerId)) (acc : AnimAcc),
      (carry_loop now dur acc cs).carry_over = acc.carry_over := by
  intro cs
  induction cs with
  | nil => intro acc; rfl
  | cons c rest ih =>
    intro acc
    show (carry_loop now dur (carry_step now dur acc c) rest).carry_over = _
    rw [ih, (carry_step_props now dur acc c).2.2.2.2.1]

end Rift

namespace Rift

theorem animate_step_commit_carry_mem (space active_ws : Nat) (now dur : ℝ)
    (acc acc' : AnimAcc) (wid : WindowId) (tf cf : CGRect) (wsid : WindowServerId)
    (txid : TransactionId) (app : AppState)
    (h : animate_step_commit space active_ws now dur acc wid tf cf true wsid txid app =
      some acc')
    (hact : acc.reactor.workspace_for_window space wid = some active_ws) :
    (wid, cf, tf, app.handle, wsid) ∈ acc'.carry_over := by
  unfold animate_step_commit at h
  rw [hact] at h
  simp only [decide_eq_true_eq, if_true, ite_true, not_true_eq_false, false_and, if_false,
    ite_false, decide_True] at h
  split at h
  case h_1 w hfin =>
    simp only [Option.some.injEq] at h
    subst h
    exact List.mem_append_right _ (List.mem_cons_self _ _)
  case h_2 hfin =>
    simp only [Option.some.injEq] at h
    subst h
    exact List.mem_append_right _ (List.mem_cons_self _ _)

theorem animate_step_rest_carry_mem (space active_ws : Nat) (now dur : ℝ)
    (acc acc' : AnimAcc) (wid : WindowId) (tf cf : CGRect) (window : Window)
    (wsid : WindowServerId) (app : AppState)
    (h : animate_step_rest space active_ws now dur acc wid tf cf true window = some acc')
    (hwsid : window.window_server_id = some wsid)
    (happ : lookupA acc.reactor.apps wid.pid = some app)
    (hact : acc.reactor.workspace_for_window space wid = some active_ws) :
    (wid, cf, tf, app.handle, wsid) ∈ acc'.carry_over := by
  unfold animate_step_rest at h
  dsimp only at h
  rw [if_neg (by simp)] at h
  simp only [hwsid] at h
  rw [txidAlloc_apps] at h
  simp only [happ] at h
  apply animate_step_commit_carry_mem space active_ws now dur _ acc' wid tf cf wsid _ app h
  rw [txidAlloc_workspace]
  exact hact

theorem animate_step_carry_mem (space active_ws : Nat) (now dur : ℝ)
    (skip_wid : Option WindowId) (acc acc' : AnimAcc) (wid : WindowId) (tf : CGRect)
    (w : Window) (st : AnimationState) (cf : CGRect) (wsid : WindowServerId)
    (app : AppState)
    (hstep : animate_step space active_ws now dur skip_wid acc (wid, tf) = some acc')
    (hskip : ¬ skip_wid = some wid)
    (hwin : lookupA acc.reactor.windows wid = some w)
    (hanim : w.anim_state = some st)
    (hcf : st.current_frame now = some cf)
    (hcarry : tf.round.same_as st.to_)
    (hwsid : w.window_server_id = some wsid)
    (happ : lookupA acc.reactor.apps wid.pid = some app)
    (hact : acc.reactor.workspace_for_window space wid = some active_ws) :
    (wid, cf, tf.round, app.handle, wsid) ∈ acc'.carry_over := by
  unfold animate_step at hstep
  dsimp only at hstep
  rw [if_neg hskip] at hstep
  simp only [hwin] at hstep
  simp only [hanim] at hstep
  simp only [hcf] at hstep
  rw [show decide ((tf.round).same_as st.to_) = true from decide_eq_true hcarry] at hstep
  exact animate_step_rest_carry_mem space active_ws now dur acc acc' wid tf.round cf w
    wsid app hstep hwsid happ hact

end Rift

namespace Rift

theorem animate_loop_append (space active_ws : Nat) (now dur : ℝ)
    (skip_wid : Option WindowId) :
    ∀ (l1 l2 : List (WindowId × CGRect)) (acc : AnimAcc),
      animate_loop space active_ws now dur skip_wid acc (l1 ++ l2) =
        match animate_loop space active_ws now dur skip_wid acc l1 with
        | none => none
        | some acc1 => animate_loop space active_ws now dur skip_wid acc1 l2 := by
  intro l1
  induction l1 with
  | nil => intro l2 acc; rfl
  | cons e rest ih =>
    intro l2 acc
    simp only [List.cons_append, animate_loop]
    cases hstep : animate_step space active_ws now dur skip_wid acc e with
    | none => simp only [hstep]
    | some accm =>
      simp only [hstep]
      exact ih l2 accm

/-- **C2 (amended).** In `animate_layout`, a window whose still-running
in-flight animation targets the newly requested rounded target takes the
carry-over path: it is deferred into the carry-over batch and exactly one
token is minted for its process in the whole pass; **provided the pass also
animates at least one other window** (`animated_count > 0`, the gate of lines
477 and 489), the carry-over batch is folded into the new animation's groups,
the window's entry carrying that token, and the detached run is spawned under
the new pass's cancellation generation, the advanced value of the global
counter.  Without that proviso the batch is discarded (see
`carry_only_pass_orphans_batch_cex`). -/
theorem animate_layout_carry_over
    (reactor : Reactor) (now : ℝ) (space active_ws : Nat)
    (l1 l2 : List (WindowId × CGRect)) (wid : WindowId) (tf : CGRect)
    (is_resize : Bool) (skip_wid : Option WindowId)
    (accMid accL : AnimAcc) (w : Window) (st : AnimationState) (cf : CGRect)
    (wsid : WindowServerId) (app : AppState)
    (hws : reactor.active_workspace space = some active_ws)
    (hloop1 : animate_loop space active_ws now reactor.settings.animation_duration skip_wid
      ⟨reactor, Animation.new reactor.settings.animation_fps
        reactor.settings.animation_duration reactor.refresh_rate now,
        0, [], [], [], [], false, [], []⟩ l1 = some accMid)
    (hskip : ¬ skip_wid = some wid)
    (hwin : lookupA accMid.reactor.windows wid = some w)
    (hanim : w.anim_state = some st)
    (hcf : st.current_frame now = some cf)
    (hcarry : tf.round.same_as st.to_)
    (hwsid : w.window_server_id = some wsid)
    (happ : lookupA accMid.reactor.apps wid.pid = some app)
    (hact : accMid.reactor.workspace_for_window space wid = some active_ws)
    (hloop2 : animate_loop space active_ws now reactor.settings.animation_duration skip_wid
      accMid ((wid, tf) :: l2) = some accL)
    (hcnt : 0 < accL.animated_count)
    (hres : is_resize = false) (hanimate : reactor.settings.animate = true)
    (hlp : reactor.low_power = false) :
    ∃ accF t,
      AnimationManager.animate_layout reactor now space (l1 ++ (wid, tf) :: l2) is_resize
          skip_wid =
        some (accF.any_frame_changed, accF,
          some (accF.anim, ⟨reactor.animation_generation + 1⟩)) ∧
      (wid, cf, tf.round, app.handle, wsid) ∈ accF.carry_over ∧
      lookupA accF.per_app_txid wid.pid = some t ∧
      accF.anim.has_entry wid.pid t ⟨wid, cf, tf.round, false⟩ ∧
      mintsFor accF.mints wid.pid = 1 := by
  -- peel one step off the second loop
  unfold animate_loop at hloop2
  cases hstep : animate_step space active_ws now reactor.settings.animation_duration skip_wid
      accMid (wid, tf) with
  | none => rw [hstep] at hloop2; cases hloop2
  | some accW =>
  rw [hstep] at hloop2
  -- the carry entry is deferred by our step and survives the rest of the loop
  have hmemW : (wid, cf, tf.round, app.handle, wsid) ∈ accW.carry_over :=
    animate_step_carry_mem space active_ws now reactor.settings.animation_duration skip_wid
      accMid accW wid tf w st cf wsid app hstep hskip hwin hanim hcf hcarry hwsid happ hact
  obtain ⟨p21, p22, ⟨suf2, hsuf2⟩, p24, p25⟩ :=
    animate_loop_props space active_ws now reactor.settings.animation_duration skip_wid l2
      accW accL hloop2
  have hmemL : (wid, cf, tf.round, app.handle, wsid) ∈ accL.carry_over := by
    rw [hsuf2]
    exact List.mem_append_left _ hmemW
  have hcarryne : accL.carry_over ≠ [] := by
    intro hnil
    rw [hnil] at hmemL
    cases hmemL
  -- mint invariant along the whole pass
  have hInv0 : MintInv (⟨reactor, Animation.new reactor.settings.animation_fps
      reactor.settings.animation_duration reactor.refresh_rate now,
      0, [], [], [], [], false, [], []⟩ : AnimAcc) := by
    intro p
    simp [mintsFor]
  obtain ⟨q11, q12, q13, q14, q15⟩ :=
    animate_loop_props space active_ws now reactor.settings.animation_duration skip_wid l1
      _ accMid hloop1
  obtain ⟨s1, s2, s3, s4, s5⟩ :=
    animate_step_props space active_ws now reactor.settings.animation_duration skip_wid
      accMid accW (wid, tf) hstep
  have hInvL : MintInv accL := p22 (s2 (q12 hInv0))
  -- the carry-over loop
  obtain ⟨c1, c2, c3, c4, c5⟩ := carry_loop_props now reactor.settings.animation_duration
    accL.carry_over accL
  have hInvC : MintInv (carry_loop now reactor.settings.animation_duration accL
    accL.carry_over) := c2 hInvL
  obtain ⟨t, htok, hentry⟩ := carry_loop_processes now reactor.settings.animation_duration
    accL.carry_over accL (wid, cf, tf.round, app.handle, wsid) hmemL
  have hcntC : 0 < (carry_loop now reactor.settings.animation_duration accL
      accL.carry_over).animated_count := lt_of_lt_of_le hcnt c5
  have hgen : (carry_loop now reactor.settings.animation_duration accL
      accL.carry_over).reactor.animation_generation = reactor.animation_generation := by
    rw [c4, p25, s5, q15]
  refine ⟨{ carry_loop now reactor.settings.animation_duration accL accL.carry_over with
    reactor := { (carry_loop now reactor.settings.animation_duration accL
        accL.carry_over).reactor with
      animation_generation := (carry_loop now reactor.settings.animation_duration accL
        accL.carry_over).reactor.animation_generation + 1,
      windows := set_anim_states (carry_loop now reactor.settings.animation_duration accL
          accL.carry_over).reactor.windows
        (carry_loop now reactor.settings.animation_duration accL
          accL.carry_over).animated_states } }, t, ?_, ?_, ?_, ?_, ?_⟩
  · unfold AnimationManager.animate_layout
    rw [hws]
    dsimp only
    rw [animate_loop_append, hloop1]
    show (match animate_loop space active_ws now reactor.settings.animation_duration skip_wid
        accMid ((wid, tf) :: l2) with
      | none => none
      | some acc => _) = _
    rw [show animate_loop space active_ws now reactor.settings.animation_duration skip_wid
        accMid ((wid, tf) :: l2) = some accL from by
      unfold animate_loop
      rw [hstep]
      exact hloop2]
    dsimp only
    rw [if_pos (show 0 < accL.animated_count ∧ accL.carry_over ≠ [] from ⟨hcnt, hcarryne⟩)]
    rw [if_pos hcntC]
    rw [if_neg (show ¬ (is_resize = true ∨ ¬ reactor.settings.animate = true ∨
      reactor.low_power = true) from by simp [hres, hanimate, hlp])]
    rw [hgen]
  · show (wid, cf, tf.round, app.handle, wsid) ∈
      (carry_loop now reactor.settings.animation_duration accL accL.carry_over).carry_over
    rw [carry_loop_carry_over]
    exact hmemL
  · exact htok
  · exact hentry
  · have := hInvC wid.pid
    rw [htok] at this
    simpa using this

end Rift

namespace Rift

theorem blend_self (x s : ℝ) : blend x x s = x := by unfold blend; ring

theorem get_frame_self (a : CGRect) (t : ℝ) : get_frame a a t = a := by
  show (⟨⟨blend a.origin.x a.origin.x (ease t), blend a.origin.y a.origin.y (ease t)⟩,
    ⟨blend a.size.width a.size.width (ease t),
      blend a.size.height a.size.height (ease t)⟩⟩ : CGRect) = a
  rw [blend_self, blend_self, blend_self, blend_self]

theorem current_frame_half (a : CGRect) :
    AnimationState.current_frame ⟨0, a, a, 1⟩ ((2 : ℝ)⁻¹) = some a := by
  unfold AnimationState.current_frame
  rw [if_neg one_ne_zero, if_neg (by norm_num [max_def])]
  rw [get_frame_self]

theorem round_unit : CGRect.round ⟨⟨1, 1⟩, ⟨1, 1⟩⟩ = ⟨⟨1, 1⟩, ⟨1, 1⟩⟩ := by
  simp [CGRect.round, roundCoord_one]

theorem round_unit2 : CGRect.round ⟨⟨1, 0⟩, ⟨1, 1⟩⟩ = ⟨⟨1, 0⟩, ⟨1, 1⟩⟩ := by
  simp [CGRect.round, roundCoord_one, roundCoord_zero]

/-- Witness for `animate_layout_carry_over` at a concrete two-window layout:
window ⟨1,0⟩ is mid-animation towards the very rect the layout requests again
(the carry-over case), window ⟨2,0⟩ is a plain window that animates, so the
pass spawns an animation. -/
theorem animate_layout_carry_over_witness :
    ∃ accF t,
      AnimationManager.animate_layout
          ⟨[(⟨1, 0⟩, ⟨⟨⟨0, 0⟩, ⟨1, 1⟩⟩, some ⟨0, ⟨⟨1, 1⟩, ⟨1, 1⟩⟩, ⟨⟨1, 1⟩, ⟨1, 1⟩⟩, 1⟩, some 5⟩), (⟨2, 0⟩, ⟨⟨⟨0, 0⟩, ⟨1, 1⟩⟩, none, some 6⟩)], [(1, ⟨1⟩), (2, ⟨2⟩)], [], 0, ⟨1, 1, true⟩, none, false, [], fun _ => some 0, fun _ _ => some 0⟩
          ((2 : ℝ)⁻¹) 0
          ([] ++ (⟨1, 0⟩, ⟨⟨1, 1⟩, ⟨1, 1⟩⟩) :: [(⟨2, 0⟩, ⟨⟨1, 0⟩, ⟨1, 1⟩⟩)]) false none =
        some (accF.any_frame_changed, accF, some (accF.anim, ⟨1⟩)) ∧
      ((⟨1, 0⟩ : WindowId), (⟨⟨1, 1⟩, ⟨1, 1⟩⟩ : CGRect),
          CGRect.round ⟨⟨1, 1⟩, ⟨1, 1⟩⟩, (1 : Nat), (5 : WindowServerId)) ∈ accF.carry_over ∧
      lookupA accF.per_app_txid 1 = some t ∧
      accF.anim.has_entry 1 t ⟨⟨1, 0⟩, ⟨⟨1, 1⟩, ⟨1, 1⟩⟩, CGRect.round ⟨⟨1, 1⟩, ⟨1, 1⟩⟩, false⟩ ∧
      mintsFor accF.mints 1 = 1 := by
  rcases hL : animate_loop 0 0 ((2 : ℝ)⁻¹) 1 none
      ⟨⟨[(⟨1, 0⟩, ⟨⟨⟨0, 0⟩, ⟨1, 1⟩⟩, some ⟨0, ⟨⟨1, 1⟩, ⟨1, 1⟩⟩, ⟨⟨1, 1⟩, ⟨1, 1⟩⟩, 1⟩, some 5⟩), (⟨2, 0⟩, ⟨⟨⟨0, 0⟩, ⟨1, 1⟩⟩, none, some 6⟩)], [(1, ⟨1⟩), (2, ⟨2⟩)], [], 0, ⟨1, 1, true⟩, none, false, [], fun _ => some 0, fun _ _ => some 0⟩,
        Animation.new 1 1 none ((2 : ℝ)⁻¹), 0, [], [], [], [], false, [], []⟩
      [(⟨1, 0⟩, ⟨⟨1, 1⟩, ⟨1, 1⟩⟩), (⟨2, 0⟩, ⟨⟨1, 0⟩, ⟨1, 1⟩⟩)] with _ | accL
  case none =>
    exfalso
    simp [animate_loop, animate_step, animate_step_rest, animate_step_commit,
      txidAlloc, generate_next_txid, WindowTxStore.next_txid, TransactionId.next,
      update_txid_entries, WindowTxStore.insert, lookupA, updateA,
      round_unit, round_unit2, CGRect.same_as, current_frame_half,
      Animation.add_window, Animation.addToGroups, Animation.new,
      CGRect.mk.injEq, CGPoint.mk.injEq, CGSize.mk.injEq,
      decide_eq_true_eq, AnimationState.new] at hL
  case some =>
    have hcnt : 0 < accL.animated_count := by
      simp [animate_loop, animate_step, animate_step_rest, animate_step_commit,
        txidAlloc, generate_next_txid, WindowTxStore.next_txid, TransactionId.next,
        update_txid_entries, WindowTxStore.insert, lookupA, updateA,
        round_unit, round_unit2, CGRect.same_as, current_frame_half,
        Animation.add_window, Animation.addToGroups, Animation.new,
        CGRect.mk.injEq, CGPoint.mk.injEq, CGSize.mk.injEq,
        decide_eq_true_eq, AnimationState.new] at hL
      exact hL ▸ Nat.zero_lt_one
    exact animate_layout_carry_over
      ⟨[(⟨1, 0⟩, ⟨⟨⟨0, 0⟩, ⟨1, 1⟩⟩, some ⟨0, ⟨⟨1, 1⟩, ⟨1, 1⟩⟩, ⟨⟨1, 1⟩, ⟨1, 1⟩⟩, 1⟩, some 5⟩), (⟨2, 0⟩, ⟨⟨⟨0, 0⟩, ⟨1, 1⟩⟩, none, some 6⟩)], [(1, ⟨1⟩), (2, ⟨2⟩)], [], 0, ⟨1, 1, true⟩, none, false, [], fun _ => some 0, fun _ _ => some 0⟩
      ((2 : ℝ)⁻¹) 0 0 [] [(⟨2, 0⟩, ⟨⟨1, 0⟩, ⟨1, 1⟩⟩)] ⟨1, 0⟩ ⟨⟨1, 1⟩, ⟨1, 1⟩⟩ false none
      _ accL
      ⟨⟨⟨0, 0⟩, ⟨1, 1⟩⟩, some ⟨0, ⟨⟨1, 1⟩, ⟨1, 1⟩⟩, ⟨⟨1, 1⟩, ⟨1, 1⟩⟩, 1⟩, some 5⟩
      ⟨0, ⟨⟨1, 1⟩, ⟨1, 1⟩⟩, ⟨⟨1, 1⟩, ⟨1, 1⟩⟩, 1⟩ ⟨⟨1, 1⟩, ⟨1, 1⟩⟩ 5 ⟨1⟩
      rfl rfl (by simp) (by simp [lookupA]) rfl (current_frame_half ⟨⟨1, 1⟩, ⟨1, 1⟩⟩)
      (by simp [CGRect.same_as, round_unit]) rfl (by simp [lookupA]) rfl
      hL hcnt rfl rfl rfl


/-- C2 counterexample (carry-only pass): the sole window's in-flight animation
already targets the requested rounded frame, so the pass animates nothing
else.  The window is deferred into the carry-over batch and a fresh token is
minted for its process (line 385) — but `animated_count = 0`, so the batch is
never folded into the new animation (line 477), no detached run is spawned and
the cancellation generation does not advance (lines 489–506): the fresh token
supersedes the in-flight one while the old-generation animation keeps running,
contrary to the claim's unconditional wording. -/
theorem carry_only_pass_orphans_batch_cex :
    Window.carry_target
      ⟨⟨⟨0, 0⟩, ⟨1, 1⟩⟩, some ⟨0, ⟨⟨1, 1⟩, ⟨1, 1⟩⟩, ⟨⟨1, 1⟩, ⟨1, 1⟩⟩, 1⟩, some 5⟩
      ((2 : ℝ)⁻¹) (CGRect.round ⟨⟨1, 1⟩, ⟨1, 1⟩⟩) ∧
    ∃ b acc,
      AnimationManager.animate_layout
          ⟨[(⟨1, 0⟩, ⟨⟨⟨0, 0⟩, ⟨1, 1⟩⟩, some ⟨0, ⟨⟨1, 1⟩, ⟨1, 1⟩⟩, ⟨⟨1, 1⟩, ⟨1, 1⟩⟩, 1⟩, some 5⟩)], [(1, ⟨1⟩)], [], 0, ⟨1, 1, true⟩, none, false, [], fun _ => some 0, fun _ _ => some 0⟩
          ((2 : ℝ)⁻¹) 0 [(⟨1, 0⟩, ⟨⟨1, 1⟩, ⟨1, 1⟩⟩)] false none = some (b, acc, none) ∧
      ((⟨1, 0⟩ : WindowId), (⟨⟨1, 1⟩, ⟨1, 1⟩⟩ : CGRect), (⟨⟨1, 1⟩, ⟨1, 1⟩⟩ : CGRect),
        (1 : Nat), (5 : WindowServerId)) ∈ acc.carry_over ∧
      mintsFor acc.mints 1 = 1 ∧
      acc.animated_count = 0 ∧
      acc.anim.windows = [] ∧
      acc.reactor.animation_generation = 0 := by
  refine ⟨?_, ?_⟩
  · simp [Window.carry_target, current_frame_half, round_unit]
  · rcases hE : AnimationManager.animate_layout
        ⟨[(⟨1, 0⟩, ⟨⟨⟨0, 0⟩, ⟨1, 1⟩⟩, some ⟨0, ⟨⟨1, 1⟩, ⟨1, 1⟩⟩, ⟨⟨1, 1⟩, ⟨1, 1⟩⟩, 1⟩, some 5⟩)], [(1, ⟨1⟩)], [], 0, ⟨1, 1, true⟩, none, false, [], fun _ => some 0, fun _ _ => some 0⟩
        ((2 : ℝ)⁻¹) 0 [(⟨1, 0⟩, ⟨⟨1, 1⟩, ⟨1, 1⟩⟩)] false none with _ | res
    case none =>
      exfalso
      simp [AnimationManager.animate_layout, animate_loop, animate_step, animate_step_rest,
        animate_step_commit, txidAlloc, generate_next_txid, WindowTxStore.next_txid,
        TransactionId.next, update_txid_entries, WindowTxStore.insert, lookupA, updateA,
        round_unit, round_unit2, CGRect.same_as, current_frame_half,
        Animation.add_window, Animation.addToGroups, Animation.new, carry_loop,
        CGRect.mk.injEq, CGPoint.mk.injEq, CGSize.mk.injEq,
        decide_eq_true_eq, AnimationState.new] at hE
    case some =>
      obtain ⟨b, acc, rest⟩ := res
      have hE2 := hE
      simp [AnimationManager.animate_layout, animate_loop, animate_step, animate_step_rest,
        animate_step_commit, txidAlloc, generate_next_txid, WindowTxStore.next_txid,
        TransactionId.next, update_txid_entries, WindowTxStore.insert, lookupA, updateA,
        round_unit, round_unit2, CGRect.same_as, current_frame_half,
        Animation.add_window, Animation.addToGroups, Animation.new, carry_loop,
        CGRect.mk.injEq, CGPoint.mk.injEq, CGSize.mk.injEq,
        decide_eq_true_eq, AnimationState.new] at hE2
      obtain ⟨hb, hacc, hrest⟩ := hE2
      subst hacc
      subst hrest
      refine ⟨b, _, rfl, ?_, ?_, rfl, rfl, rfl⟩
      · simp
      · simp [mintsFor]

theorem round_01 : CGRect.round ⟨⟨0, 0⟩, ⟨1, 1⟩⟩ = ⟨⟨0, 0⟩, ⟨1, 1⟩⟩ := by
  simp [CGRect.round, roundCoord_one, roundCoord_zero]

theorem current_frame_half_mid :
    AnimationState.current_frame ⟨0, ⟨⟨0, 0⟩, ⟨1, 1⟩⟩, ⟨⟨2, 0⟩, ⟨1, 1⟩⟩, 1⟩ ((2 : ℝ)⁻¹) =
      some ⟨⟨1, 0⟩, ⟨1, 1⟩⟩ := by
  unfold AnimationState.current_frame
  rw [if_neg one_ne_zero, if_neg (by norm_num [max_def])]
  have h1 : max ((2 : ℝ)⁻¹ - 0) 0 / 1 = 2⁻¹ := by norm_num [max_def]
  rw [h1]
  have h2 : ease ((2 : ℝ)⁻¹) = 2⁻¹ := by
    unfold ease
    rw [if_neg (by norm_num)]
    norm_num [Real.sqrt_zero]
  unfold get_frame
  rw [h2]
  norm_num [blend]

/-- C6 counterexample: a window mid-animation whose interpolated position and
animation target both already equal the rounded requested target.  The claim
says both paths skip it entirely — yet `animate_layout` mints a fresh
transaction token for its process and writes a transaction record for its
window-server id. -/
theorem matching_target_carry_mints_cex :
    Window.effective_current
        ⟨⟨⟨0, 0⟩, ⟨1, 1⟩⟩, some ⟨0, ⟨⟨1, 1⟩, ⟨1, 1⟩⟩, ⟨⟨1, 1⟩, ⟨1, 1⟩⟩, 1⟩, some 5⟩
        ((2 : ℝ)⁻¹) =
      CGRect.round ⟨⟨1, 1⟩, ⟨1, 1⟩⟩ ∧
    Window.carry_target
      ⟨⟨⟨0, 0⟩, ⟨1, 1⟩⟩, some ⟨0, ⟨⟨1, 1⟩, ⟨1, 1⟩⟩, ⟨⟨1, 1⟩, ⟨1, 1⟩⟩, 1⟩, some 5⟩
      ((2 : ℝ)⁻¹) (CGRect.round ⟨⟨1, 1⟩, ⟨1, 1⟩⟩) ∧
    ∃ b acc rest,
      AnimationManager.animate_layout
          ⟨[(⟨1, 0⟩, ⟨⟨⟨0, 0⟩, ⟨1, 1⟩⟩, some ⟨0, ⟨⟨1, 1⟩, ⟨1, 1⟩⟩, ⟨⟨1, 1⟩, ⟨1, 1⟩⟩, 1⟩, some 5⟩)], [(1, ⟨1⟩)], [], 0, ⟨1, 1, true⟩, none, false, [], fun _ => some 0, fun _ _ => some 0⟩
          ((2 : ℝ)⁻¹) 0 [(⟨1, 0⟩, ⟨⟨1, 1⟩, ⟨1, 1⟩⟩)] false none = some (b, acc, rest) ∧
      mintsFor acc.mints 1 = 1 ∧
      acc.reactor.txStore ≠ [] := by
  refine ⟨?_, ?_, ?_⟩
  · simp [Window.effective_current, current_frame_half, round_unit]
  · simp [Window.carry_target, current_frame_half, round_unit]
  · rcases hE : AnimationManager.animate_layout
        ⟨[(⟨1, 0⟩, ⟨⟨⟨0, 0⟩, ⟨1, 1⟩⟩, some ⟨0, ⟨⟨1, 1⟩, ⟨1, 1⟩⟩, ⟨⟨1, 1⟩, ⟨1, 1⟩⟩, 1⟩, some 5⟩)], [(1, ⟨1⟩)], [], 0, ⟨1, 1, true⟩, none, false, [], fun _ => some 0, fun _ _ => some 0⟩
        ((2 : ℝ)⁻¹) 0 [(⟨1, 0⟩, ⟨⟨1, 1⟩, ⟨1, 1⟩⟩)] false none with _ | res
    case none =>
      exfalso
      simp [AnimationManager.animate_layout, animate_loop, animate_step, animate_step_rest,
        animate_step_commit, txidAlloc, generate_next_txid, WindowTxStore.next_txid,
        TransactionId.next, update_txid_entries, WindowTxStore.insert, lookupA, updateA,
        round_unit, round_unit2, CGRect.same_as, current_frame_half,
        Animation.add_window, Animation.addToGroups, Animation.new, carry_loop,
        CGRect.mk.injEq, CGPoint.mk.injEq, CGSize.mk.injEq,
        decide_eq_true_eq, AnimationState.new] at hE
    case some =>
      obtain ⟨b, acc, rest⟩ := res
      have hE2 := hE
      simp [AnimationManager.animate_layout, animate_loop, animate_step, animate_step_rest,
        animate_step_commit, txidAlloc, generate_next_txid, WindowTxStore.next_txid,
        TransactionId.next, update_txid_entries, WindowTxStore.insert, lookupA, updateA,
        round_unit, round_unit2, CGRect.same_as, current_frame_half,
        Animation.add_window, Animation.addToGroups, Animation.new, carry_loop,
        CGRect.mk.injEq, CGPoint.mk.injEq, CGSize.mk.injEq,
        decide_eq_true_eq, AnimationState.new] at hE2
      obtain ⟨hb, hacc, hrest⟩ := hE2
      subst hacc
      refine ⟨b, _, rest, rfl, ?_, ?_⟩
      · simp [mintsFor]
      · simp

/-- C6 (amended): the actual skip conditions of the two paths.  The animated
path skips a window exactly when its in-flight animation targets a different
rectangle while the interpolated position already equals the rounded target
(write-back of the untouched window, nothing else changes); the instant path
decides from the cached static frame alone, ignoring any animation. -/
theorem skip_conditions_animated_and_instant :
    (∀ (space active_ws : Nat) (now dur : ℝ) (skip_wid : Option WindowId)
        (acc : AnimAcc) (wid : WindowId) (tf : CGRect) (w : Window)
        (st : AnimationState) (frame : CGRect),
      ¬ skip_wid = some wid →
      lookupA acc.reactor.windows wid = some w →
      w.anim_state = some st →
      st.current_frame now = some frame →
      ¬ tf.round.same_as st.to_ →
      tf.round.same_as frame →
      animate_step space active_ws now dur skip_wid acc (wid, tf) =
        some { acc with reactor := { acc.reactor with
          windows := updateA acc.reactor.windows wid w } }) ∧
    (∀ (reactor : Reactor) (skip_wid : Option WindowId)
        (acc : List (Nat × List (WindowId × CGRect)) × Bool)
        (wid : WindowId) (tf : CGRect) (w : Window)
        (rest : List (WindowId × CGRect)),
      ¬ skip_wid = some wid →
      lookupA reactor.windows wid = some w →
      tf.round.same_as w.frame_monotonic →
      instant_collect reactor skip_wid acc ((wid, tf) :: rest) =
        instant_collect reactor skip_wid acc rest) := by
  constructor
  · intro space active_ws now dur skip_wid acc wid tf w st frame
      hskip hwin hst hcf hdiff hsame
    have hd : decide (tf.round.same_as st.to_) = false := decide_eq_false hdiff
    simp only [animate_step]
    rw [if_neg hskip]
    simp only [hwin, hst, hcf, hd, animate_step_rest]
    rw [if_pos (show ¬ false = true ∧ tf.round.same_as frame from ⟨by simp, hsame⟩)]
  · intro reactor skip_wid acc wid tf w rest hskip hwin hsame
    simp only [instant_collect]
    rw [if_neg hskip]
    simp only [hwin]
    rw [if_pos hsame]

/-- Witness for `skip_conditions_animated_and_instant`: both parts applied at
concrete windows — an animation flying towards ⟨⟨2,0⟩,⟨1,1⟩⟩ currently passing
through the requested ⟨⟨1,0⟩,⟨1,1⟩⟩, and an instant-path window whose cached
frame already equals the target. -/
theorem skip_conditions_animated_and_instant_witness :
    animate_step 0 0 ((2 : ℝ)⁻¹) 1 none
        ⟨⟨[(⟨1, 0⟩, ⟨⟨⟨9, 9⟩, ⟨1, 1⟩⟩, some ⟨0, ⟨⟨0, 0⟩, ⟨1, 1⟩⟩, ⟨⟨2, 0⟩, ⟨1, 1⟩⟩, 1⟩, some 5⟩)], [(1, ⟨1⟩)], [], 0, ⟨1, 1, true⟩, none, false, [], fun _ => some 0, fun _ _ => some 0⟩, ⟨0, 0, 0, []⟩, 0, [], [], [], [], false, [], []⟩
        (⟨1, 0⟩, ⟨⟨1, 0⟩, ⟨1, 1⟩⟩) =
      some { (⟨⟨[(⟨1, 0⟩, ⟨⟨⟨9, 9⟩, ⟨1, 1⟩⟩, some ⟨0, ⟨⟨0, 0⟩, ⟨1, 1⟩⟩, ⟨⟨2, 0⟩, ⟨1, 1⟩⟩, 1⟩, some 5⟩)], [(1, ⟨1⟩)], [], 0, ⟨1, 1, true⟩, none, false, [], fun _ => some 0, fun _ _ => some 0⟩, ⟨0, 0, 0, []⟩, 0, [], [], [], [], false, [], []⟩ : AnimAcc) with
        reactor := { (⟨[(⟨1, 0⟩, ⟨⟨⟨9, 9⟩, ⟨1, 1⟩⟩, some ⟨0, ⟨⟨0, 0⟩, ⟨1, 1⟩⟩, ⟨⟨2, 0⟩, ⟨1, 1⟩⟩, 1⟩, some 5⟩)], [(1, ⟨1⟩)], [], 0, ⟨1, 1, true⟩, none, false, [], fun _ => some 0, fun _ _ => some 0⟩ : Reactor) with
          windows := updateA [(⟨1, 0⟩, ⟨⟨⟨9, 9⟩, ⟨1, 1⟩⟩, some ⟨0, ⟨⟨0, 0⟩, ⟨1, 1⟩⟩, ⟨⟨2, 0⟩, ⟨1, 1⟩⟩, 1⟩, some 5⟩)] ⟨1, 0⟩ ⟨⟨⟨9, 9⟩, ⟨1, 1⟩⟩, some ⟨0, ⟨⟨0, 0⟩, ⟨1, 1⟩⟩, ⟨⟨2, 0⟩, ⟨1, 1⟩⟩, 1⟩, some 5⟩ } } ∧
    instant_collect
        ⟨[(⟨1, 0⟩, ⟨⟨⟨1, 0⟩, ⟨1, 1⟩⟩, some ⟨0, ⟨⟨0, 0⟩, ⟨1, 1⟩⟩, ⟨⟨2, 0⟩, ⟨1, 1⟩⟩, 1⟩, some 5⟩)], [(1, ⟨1⟩)], [], 0, ⟨1, 1, true⟩, none, false, [], fun _ => some 0, fun _ _ => some 0⟩
        none ([], false) [(⟨1, 0⟩, ⟨⟨1, 0⟩, ⟨1, 1⟩⟩)] =
      instant_collect
        ⟨[(⟨1, 0⟩, ⟨⟨⟨1, 0⟩, ⟨1, 1⟩⟩, some ⟨0, ⟨⟨0, 0⟩, ⟨1, 1⟩⟩, ⟨⟨2, 0⟩, ⟨1, 1⟩⟩, 1⟩, some 5⟩)], [(1, ⟨1⟩)], [], 0, ⟨1, 1, true⟩, none, false, [], fun _ => some 0, fun _ _ => some 0⟩
        none ([], false) [] := by
  constructor
  · exact skip_conditions_animated_and_instant.1 0 0 ((2 : ℝ)⁻¹) 1 none
      ⟨⟨[(⟨1, 0⟩, ⟨⟨⟨9, 9⟩, ⟨1, 1⟩⟩, some ⟨0, ⟨⟨0, 0⟩, ⟨1, 1⟩⟩, ⟨⟨2, 0⟩, ⟨1, 1⟩⟩, 1⟩, some 5⟩)], [(1, ⟨1⟩)], [], 0, ⟨1, 1, true⟩, none, false, [], fun _ => some 0, fun _ _ => some 0⟩, ⟨0, 0, 0, []⟩, 0, [], [], [], [], false, [], []⟩
      ⟨1, 0⟩ ⟨⟨1, 0⟩, ⟨1, 1⟩⟩
      ⟨⟨⟨9, 9⟩, ⟨1, 1⟩⟩, some ⟨0, ⟨⟨0, 0⟩, ⟨1, 1⟩⟩, ⟨⟨2, 0⟩, ⟨1, 1⟩⟩, 1⟩, some 5⟩
      ⟨0, ⟨⟨0, 0⟩, ⟨1, 1⟩⟩, ⟨⟨2, 0⟩, ⟨1, 1⟩⟩, 1⟩ ⟨⟨1, 0⟩, ⟨1, 1⟩⟩
      (by simp) (by simp [lookupA]) rfl current_frame_half_mid
      (by simp [round_unit2, CGRect.same_as, CGRect.mk.injEq, CGPoint.mk.injEq])
      (by rw [round_unit2]; rfl)
  · exact skip_conditions_animated_and_instant.2
      ⟨[(⟨1, 0⟩, ⟨⟨⟨1, 0⟩, ⟨1, 1⟩⟩, some ⟨0, ⟨⟨0, 0⟩, ⟨1, 1⟩⟩, ⟨⟨2, 0⟩, ⟨1, 1⟩⟩, 1⟩, some 5⟩)], [(1, ⟨1⟩)], [], 0, ⟨1, 1, true⟩, none, false, [], fun _ => some 0, fun _ _ => some 0⟩
      none ([], false) ⟨1, 0⟩ ⟨⟨1, 0⟩, ⟨1, 1⟩⟩
      ⟨⟨⟨1, 0⟩, ⟨1, 1⟩⟩, some ⟨0, ⟨⟨0, 0⟩, ⟨1, 1⟩⟩, ⟨⟨2, 0⟩, ⟨1, 1⟩⟩, 1⟩, some 5⟩ []
      (by simp) (by simp [lookupA]) (by rw [round_unit2]; rfl)

theorem keysNodupUnique {α β : Type} (a : α) (b c : β) :
    ∀ l : List (α × β), (l.map Prod.fst).Nodup → (a, b) ∈ l → (a, c) ∈ l → b = c := by
  intro l
  induction l with
  | nil => intro _ hb _; cases hb
  | cons p rest ih =>
    intro h hb hc
    rw [List.map_cons, List.nodup_cons] at h
    rcases List.mem_cons.1 hb with hb1 | hb2 <;> rcases List.mem_cons.1 hc with hc1 | hc2
    · subst hb1
      exact ((Prod.ext_iff.mp hc1).2).symm
    · subst hb1
      exact absurd (List.mem_map.2 ⟨(a, c), hc2, rfl⟩) h.1
    · subst hc1
      exact absurd (List.mem_map.2 ⟨(a, b), hb2, rfl⟩) h.1
    · exact ih h.2 hb2 hc2

theorem pushEntry_mem {α β : Type} [DecidableEq α] :
    ∀ (G : List (α × List β)) (a : α) (b : β) (p : α × List β),
      p ∈ pushEntry G a b → ∀ q ∈ p.2,
        (∃ fr0, (p.1, fr0) ∈ G ∧ q ∈ fr0) ∨ (q = b ∧ p.1 = a) := by
  intro G a b
  induction G with
  | nil =>
    intro p hp q hq
    simp only [pushEntry, List.mem_singleton] at hp
    subst hp
    simp only [List.mem_singleton] at hq
    exact Or.inr ⟨hq, rfl⟩
  | cons g rest ih =>
    obtain ⟨k, v⟩ := g
    intro p hp q hq
    by_cases hk : k = a
    · rw [pushEntry, if_pos hk] at hp
      rcases List.mem_cons.1 hp with hp1 | hp2
      · subst hp1
        rcases List.mem_append.1 hq with hv | hb
        · exact Or.inl ⟨v, List.mem_cons_self _ _, hv⟩
        · exact Or.inr ⟨List.mem_singleton.1 hb, hk⟩
      · exact Or.inl ⟨p.2, List.mem_cons_of_mem _ hp2, hq⟩
    · rw [pushEntry, if_neg hk] at hp
      rcases List.mem_cons.1 hp with hp1 | hp2
      · subst hp1
        exact Or.inl ⟨v, List.mem_cons_self _ _, hq⟩
      · rcases ih p hp2 q hq with ⟨fr0, hfr0, hqfr0⟩ | hrb
        · exact Or.inl ⟨fr0, List.mem_cons_of_mem _ hfr0, hqfr0⟩
        · exact Or.inr hrb

theorem pushEntry_self {α β : Type} [DecidableEq α] :
    ∀ (G : List (α × List β)) (a : α) (b : β),
      ∃ fr, (a, fr) ∈ pushEntry G a b ∧ b ∈ fr := by
  intro G a b
  induction G with
  | nil => exact ⟨[b], List.mem_singleton.2 rfl, List.mem_singleton.2 rfl⟩
  | cons g rest ih =>
    obtain ⟨k, v⟩ := g
    by_cases hk : k = a
    · subst hk
      exact ⟨v ++ [b], by rw [pushEntry, if_pos rfl]; exact List.mem_cons_self _ _,
        List.mem_append.2 (Or.inr (List.mem_singleton.2 rfl))⟩
    · obtain ⟨fr, hfr, hb⟩ := ih
      exact ⟨fr, by rw [pushEntry, if_neg hk]; exact List.mem_cons_of_mem _ hfr, hb⟩

theorem pushEntry_mono {α β : Type} [DecidableEq α] :
    ∀ (G : List (α × List β)) (a : α) (b : β) (k : α) (fr : List β) (q : β),
      (k, fr) ∈ G → q ∈ fr → ∃ fr2, (k, fr2) ∈ pushEntry G a b ∧ q ∈ fr2 := by
  intro G a b
  induction G with
  | nil => intro k fr q hk _; cases hk
  | cons g rest ih =>
    obtain ⟨k0, v⟩ := g
    intro k fr q hk hq
    by_cases hk0 : k0 = a
    · rw [pushEntry, if_pos hk0]
      rcases List.mem_cons.1 hk with h1 | h2
      · injection h1 with hkk hfv
        subst hkk
        subst hfv
        exact ⟨fr ++ [b], List.mem_cons_self _ _, List.mem_append.2 (Or.inl hq)⟩
      · exact ⟨fr, List.mem_cons_of_mem _ h2, hq⟩
    · rw [pushEntry, if_neg hk0]
      rcases List.mem_cons.1 hk with h1 | h2
      · exact ⟨fr, h1 ▸ List.mem_cons_self _ _, hq⟩
      · obtain ⟨fr2, hfr2, hq2⟩ := ih k fr q h2 hq
        exact ⟨fr2, List.mem_cons_of_mem _ hfr2, hq2⟩

theorem pushEntry_keys {α β : Type} [DecidableEq α] :
    ∀ (G : List (α × List β)) (a : α) (b : β) (x : α),
      x ∈ (pushEntry G a b).map Prod.fst → x ∈ G.map Prod.fst ∨ x = a := by
  intro G a b
  induction G with
  | nil =>
    intro x hx
    simp only [pushEntry, List.map_cons, List.map_nil, List.mem_singleton] at hx
    exact Or.inr hx
  | cons g rest ih =>
    obtain ⟨k, v⟩ := g
    intro x hx
    by_cases hk : k = a
    · rw [pushEntry, if_pos hk] at hx
      simp only [List.map_cons, List.mem_cons] at hx ⊢
      exact hx.elim (fun h => Or.inl (Or.inl h)) (fun h => Or.inl (Or.inr h))
    · rw [pushEntry, if_neg hk] at hx
      simp only [List.map_cons, List.mem_cons] at hx ⊢
      rcases hx with h1 | h2
      · exact Or.inl (Or.inl h1)
      · rcases ih x h2 with h3 | h4
        · exact Or.inl (Or.inr h3)
        · exact Or.inr h4

theorem pushEntry_keys_nodup {α β : Type} [DecidableEq α] :
    ∀ (G : List (α × List β)) (a : α) (b : β),
      (G.map Prod.fst).Nodup → ((pushEntry G a b).map Prod.fst).Nodup := by
  intro G a b
  induction G with
  | nil => intro _; simp [pushEntry]
  | cons g rest ih =>
    obtain ⟨k, v⟩ := g
    intro h
    rw [List.map_cons, List.nodup_cons] at h
    by_cases hk : k = a
    · rw [pushEntry, if_pos hk, List.map_cons, List.nodup_cons]
      exact ⟨h.1, h.2⟩
    · rw [pushEntry, if_neg hk, List.map_cons, List.nodup_cons]
      refine ⟨fun hmem => ?_, ih h.2⟩
      rcases pushEntry_keys rest a b k hmem with h1 | h2
      · exact h.1 h1
      · exact hk h2

theorem pushEntry_buckets_ne_nil {α β : Type} [DecidableEq α] :
    ∀ (G : List (α × List β)) (a : α) (b : β),
      (∀ g ∈ G, g.2 ≠ []) → ∀ g ∈ pushEntry G a b, g.2 ≠ [] := by
  intro G a b
  induction G with
  | nil =>
    intro _ g hg
    simp only [pushEntry, List.mem_singleton] at hg
    subst hg
    simp
  | cons g0 rest ih =>
    obtain ⟨k, v⟩ := g0
    intro h g hg
    by_cases hk : k = a
    · rw [pushEntry, if_pos hk] at hg
      rcases List.mem_cons.1 hg with h1 | h2
      · subst h1; simp
      · exact h g (List.mem_cons_of_mem _ h2)
    · rw [pushEntry, if_neg hk] at hg
      rcases List.mem_cons.1 hg with h1 | h2
      · subst h1; exact h (k, v) (List.mem_cons_self _ _)
      · exact ih (fun g2 hg2 => h g2 (List.mem_cons_of_mem _ hg2)) g h2

theorem groupCount_pushEntry :
    ∀ (G : List (Nat × List (WindowId × CGRect))) (a : Nat) (w : WindowId) (r : CGRect)
      (x : WindowId),
      groupCount (pushEntry G a (w, r)) x =
        groupCount G x + (if w = x then 1 else 0) := by
  intro G a w r x
  induction G with
  | nil =>
    simp only [pushEntry, groupCount, List.map_cons, List.map_nil, List.sum_cons,
      List.sum_nil]
    by_cases hw : w = x
    · simp [List.filter, hw]
    · simp [List.filter, hw]
  | cons g rest ih =>
    obtain ⟨k, v⟩ := g
    by_cases hk : k = a
    · rw [pushEntry, if_pos hk]
      simp only [groupCount, List.map_cons, List.sum_cons, List.filter_append]
      by_cases hw : w = x
      · simp [List.filter, hw]; omega
      · simp [List.filter, hw]
    · rw [pushEntry, if_neg hk]
      simp only [groupCount, List.map_cons, List.sum_cons]
      simp only [groupCount] at ih
      omega

theorem instant_collect_mono (reactor : Reactor) (sk : Option WindowId) :
    ∀ (l : List (WindowId × CGRect)) (acc : List (Nat × List (WindowId × CGRect)) × Bool)
      (k : Nat) (fr : List (WindowId × CGRect)) (q : WindowId × CGRect),
      (k, fr) ∈ acc.1 → q ∈ fr →
      ∃ fr2, (k, fr2) ∈ (instant_collect reactor sk acc l).1 ∧ q ∈ fr2 := by
  intro l
  induction l with
  | nil => intro acc k fr q hk hq; exact ⟨fr, hk, hq⟩
  | cons e rest ih =>
    obtain ⟨wid, tf0⟩ := e
    intro acc k fr q hk hq
    by_cases hsk : sk = some wid
    · rw [instant_collect, if_pos hsk]
      exact ih acc k fr q hk hq
    · rw [instant_collect, if_neg hsk]
      cases hw : lookupA reactor.windows wid with
      | none => exact ih acc k fr q hk hq
      | some window =>
        dsimp only
        by_cases hsame : tf0.round.same_as window.frame_monotonic
        · rw [if_pos hsame]
          exact ih acc k fr q hk hq
        · rw [if_neg hsame]
          obtain ⟨fr2, hfr2, hq2⟩ := pushEntry_mono acc.1 wid.pid (wid, tf0.round) k fr q hk hq
          exact ih (pushEntry acc.1 wid.pid (wid, tf0.round), true) k fr2 q hfr2 hq2

theorem instant_collect_prov (reactor : Reactor) (sk : Option WindowId) :
    ∀ (l : List (WindowId × CGRect)) (acc : List (Nat × List (WindowId × CGRect)) × Bool)
      (k : Nat) (fr : List (WindowId × CGRect)) (q : WindowId × CGRect),
      (k, fr) ∈ (instant_collect reactor sk acc l).1 → q ∈ fr →
      ((∃ fr0, (k, fr0) ∈ acc.1 ∧ q ∈ fr0) ∨
        (q.1.pid = k ∧ ∃ tf w, (q.1, tf) ∈ l ∧ q.2 = tf.round ∧
          lookupA reactor.windows q.1 = some w ∧
          ¬ tf.round.same_as w.frame_monotonic)) := by
  intro l
  induction l with
  | nil => intro acc k fr q hk hq; exact Or.inl ⟨fr, hk, hq⟩
  | cons e rest ih =>
    obtain ⟨wid, tf0⟩ := e
    intro acc k fr q hk hq
    have push : ∀ h2 : (k, fr) ∈ (instant_collect reactor sk acc rest).1,
        (∃ fr0, (k, fr0) ∈ acc.1 ∧ q ∈ fr0) ∨
          (q.1.pid = k ∧ ∃ tf w, (q.1, tf) ∈ (wid, tf0) :: rest ∧ q.2 = tf.round ∧
            lookupA reactor.windows q.1 = some w ∧
            ¬ tf.round.same_as w.frame_monotonic) := by
      intro h2
      rcases ih acc k fr q h2 hq with h3 | ⟨h4, tf, w, h5, h6, h7, h8⟩
      · exact Or.inl h3
      · exact Or.inr ⟨h4, tf, w, List.mem_cons_of_mem _ h5, h6, h7, h8⟩
    by_cases hsk : sk = some wid
    · rw [instant_collect, if_pos hsk] at hk
      exact push hk
    · rw [instant_collect, if_neg hsk] at hk
      cases hw : lookupA reactor.windows wid with
      | none =>
        rw [hw] at hk
        exact push hk
      | some window =>
        rw [hw] at hk
        dsimp only at hk
        by_cases hsame : tf0.round.same_as window.frame_monotonic
        · rw [if_pos hsame] at hk
          exact push hk
        · rw [if_neg hsame] at hk
          rcases ih (pushEntry acc.1 wid.pid (wid, tf0.round), true) k fr q hk hq with
            h3 | ⟨h4, tf, w, h5, h6, h7, h8⟩
          · obtain ⟨fr0, hfr0, hq0⟩ := h3
            rcases pushEntry_mem acc.1 wid.pid (wid, tf0.round) (k, fr0) hfr0 q hq0 with
              h9 | ⟨h10, h11⟩
            · exact Or.inl h9
            · subst h10
              exact Or.inr ⟨h11.symm, tf0, window, List.mem_cons_self _ _, rfl, hw, hsame⟩
          · exact Or.inr ⟨h4, tf, w, List.mem_cons_of_mem _ h5, h6, h7, h8⟩

theorem groupCount_instant_collect (reactor : Reactor) (sk : Option WindowId) :
    ∀ (l : List (WindowId × CGRect)) (acc : List (Nat × List (WindowId × CGRect)) × Bool)
      (x : WindowId),
      groupCount (instant_collect reactor sk acc l).1 x ≤
        groupCount acc.1 x + (l.map Prod.fst).count x := by
  intro l
  induction l with
  | nil => intro acc x; simp [instant_collect]
  | cons e rest ih =>
    obtain ⟨wid, tf0⟩ := e
    intro acc x
    have hcnt : ((((wid, tf0) :: rest).map Prod.fst).count x) =
        (rest.map Prod.fst).count x + (if wid = x then 1 else 0) := by
      simp only [List.map_cons, List.count_cons]
      by_cases hw : wid = x
      · subst hw; simp
      · simp [hw, Ne.symm hw]
    by_cases hsk : sk = some wid
    · rw [instant_collect, if_pos hsk]
      have := ih acc x
      omega
    · rw [instant_collect, if_neg hsk]
      cases hw : lookupA reactor.windows wid with
      | none =>
        dsimp only
        have := ih acc x
        omega
      | some window =>
        dsimp only
        by_cases hsame : tf0.round.same_as window.frame_monotonic
        · rw [if_pos hsame]
          have := ih acc x
          omega
        · rw [if_neg hsame]
          have h1 := ih (pushEntry acc.1 wid.pid (wid, tf0.round), true) x
          have h2 := groupCount_pushEntry acc.1 wid.pid wid tf0.round x
          dsimp only at h1
          omega

theorem instant_collect_keys_nodup (reactor : Reactor) (sk : Option WindowId) :
    ∀ (l : List (WindowId × CGRect)) (acc : List (Nat × List (WindowId × CGRect)) × Bool),
      (acc.1.map Prod.fst).Nodup →
      ((instant_collect reactor sk acc l).1.map Prod.fst).Nodup := by
  intro l
  induction l with
  | nil => intro acc h; exact h
  | cons e rest ih =>
    obtain ⟨wid, tf0⟩ := e
    intro acc h
    by_cases hsk : sk = some wid
    · rw [instant_collect, if_pos hsk]; exact ih acc h
    · rw [instant_collect, if_neg hsk]
      cases hw : lookupA reactor.windows wid with
      | none => exact ih acc h
      | some window =>
        dsimp only
        by_cases hsame : tf0.round.same_as window.frame_monotonic
        · rw [if_pos hsame]; exact ih acc h
        · rw [if_neg hsame]
          exact ih (pushEntry acc.1 wid.pid (wid, tf0.round), true)
            (pushEntry_keys_nodup acc.1 wid.pid (wid, tf0.round) h)

theorem instant_collect_buckets_ne_nil (reactor : Reactor) (sk : Option WindowId) :
    ∀ (l : List (WindowId × CGRect)) (acc : List (Nat × List (WindowId × CGRect)) × Bool),
      (∀ g ∈ acc.1, g.2 ≠ []) →
      ∀ g ∈ (instant_collect reactor sk acc l).1, g.2 ≠ [] := by
  intro l
  induction l with
  | nil => intro acc h; exact h
  | cons e rest ih =>
    obtain ⟨wid, tf0⟩ := e
    intro acc h
    by_cases hsk : sk = some wid
    · rw [instant_collect, if_pos hsk]; exact ih acc h
    · rw [instant_collect, if_neg hsk]
      cases hw : lookupA reactor.windows wid with
      | none => exact ih acc h
      | some window =>
        dsimp only
        by_cases hsame : tf0.round.same_as window.frame_monotonic
        · rw [if_pos hsame]; exact ih acc h
        · rw [if_neg hsame]
          exact ih (pushEntry acc.1 wid.pid (wid, tf0.round), true)
            (pushEntry_buckets_ne_nil acc.1 wid.pid (wid, tf0.round) h)

theorem instant_collect_flag (reactor : Reactor) (sk : Option WindowId) :
    ∀ (l : List (WindowId × CGRect)) (G : List (Nat × List (WindowId × CGRect))),
      (instant_collect reactor sk (G, true) l).2 = true := by
  intro l
  induction l with
  | nil => intro G; rfl
  | cons e rest ih =>
    obtain ⟨wid, tf0⟩ := e
    intro G
    by_cases hsk : sk = some wid
    · rw [instant_collect, if_pos hsk]; exact ih G
    · rw [instant_collect, if_neg hsk]
      cases hw : lookupA reactor.windows wid with
      | none => exact ih G
      | some window =>
        dsimp only
        by_cases hsame : tf0.round.same_as window.frame_monotonic
        · rw [if_pos hsame]; exact ih G
        · rw [if_neg hsame]; exact ih (pushEntry G wid.pid (wid, tf0.round))

theorem instant_collect_flag_changed (reactor : Reactor) :
    ∀ (l : List (WindowId × CGRect)) (acc : List (Nat × List (WindowId × CGRect)) × Bool)
      (wid : WindowId) (tf : CGRect) (w : Window),
      (wid, tf) ∈ l → lookupA reactor.windows wid = some w →
      ¬ tf.round.same_as w.frame_monotonic →
      (instant_collect reactor none acc l).2 = true := by
  intro l
  induction l with
  | nil => intro _ _ _ _ hmem; cases hmem
  | cons e rest ih =>
    obtain ⟨wid0, tf0⟩ := e
    intro acc wid tf w hmem hw hns
    rcases List.mem_cons.1 hmem with h1 | h2
    · injection h1 with hkk hfv
      subst hkk
      subst hfv
      rw [instant_collect, if_neg (by simp), hw]
      dsimp only
      rw [if_neg hns]
      exact instant_collect_flag reactor none rest _
    · rw [instant_collect, if_neg (by simp)]
      cases hw0 : lookupA reactor.windows wid0 with
      | none => exact ih acc wid tf w h2 hw hns
      | some window =>
        dsimp only
        by_cases hsame : tf0.round.same_as window.frame_monotonic
        · rw [if_pos hsame]
          exact ih acc wid tf w h2 hw hns
        · rw [if_neg hsame]
          exact ih (pushEntry acc.1 wid0.pid (wid0, tf0.round), true) wid tf w h2 hw hns

theorem instant_collect_complete (reactor : Reactor) :
    ∀ (l : List (WindowId × CGRect)) (acc : List (Nat × List (WindowId × CGRect)) × Bool)
      (wid : WindowId) (tf : CGRect) (w : Window),
      (wid, tf) ∈ l → lookupA reactor.windows wid = some w →
      ¬ tf.round.same_as w.frame_monotonic →
      ∃ fr, (wid.pid, fr) ∈ (instant_collect reactor none acc l).1 ∧ (wid, tf.round) ∈ fr := by
  intro l
  induction l with
  | nil => intro _ _ _ _ hmem; cases hmem
  | cons e rest ih =>
    obtain ⟨wid0, tf0⟩ := e
    intro acc wid tf w hmem hw hns
    rcases List.mem_cons.1 hmem with h1 | h2
    · injection h1 with hkk hfv
      subst hkk
      subst hfv
      rw [instant_collect, if_neg (by simp), hw]
      dsimp only
      rw [if_neg hns]
      obtain ⟨fr, hfr, hb⟩ := pushEntry_self acc.1 wid.pid (wid, tf.round)
      exact instant_collect_mono reactor none rest
        (pushEntry acc.1 wid.pid (wid, tf.round), true) wid.pid fr (wid, tf.round) hfr hb
    · rw [instant_collect, if_neg (by simp)]
      cases hw0 : lookupA reactor.windows wid0 with
      | none => exact ih acc wid tf w h2 hw hns
      | some window =>
        dsimp only
        by_cases hsame : tf0.round.same_as window.frame_monotonic
        · rw [if_pos hsame]
          exact ih acc wid tf w h2 hw hns
        · rw [if_neg hsame]
          exact ih (pushEntry acc.1 wid0.pid (wid0, tf0.round), true) wid tf w h2 hw hns

theorem instant_collect_converged (reactor : Reactor) (sk : Option WindowId) :
    ∀ (l : List (WindowId × CGRect)) (acc : List (Nat × List (WindowId × CGRect)) × Bool),
      (∀ q : WindowId × CGRect, q ∈ l → ∃ w, lookupA reactor.windows q.1 = some w ∧
        q.2.round.same_as w.frame_monotonic) →
      instant_collect reactor sk acc l = acc := by
  intro l
  induction l with
  | nil => intro acc _; rfl
  | cons e rest ih =>
    obtain ⟨wid, tf0⟩ := e
    intro acc h
    obtain ⟨w, hw, hsame⟩ := h (wid, tf0) (List.mem_cons_self _ _)
    by_cases hsk : sk = some wid
    · rw [instant_collect, if_pos hsk]
      exact ih acc fun q hq => h q (List.mem_cons_of_mem _ hq)
    · rw [instant_collect, if_neg hsk, hw]
      dsimp only
      rw [if_pos hsame]
      exact ih acc fun q hq => h q (List.mem_cons_of_mem _ hq)

theorem lookupA_set_frames_not_mem :
    ∀ (fr : List (WindowId × CGRect)) (W : List (WindowId × Window)) (x : WindowId),
      x ∉ fr.map Prod.fst → lookupA (set_frames W fr) x = lookupA W x := by
  intro fr
  induction fr with
  | nil => intro W x _; rfl
  | cons e rest ih =>
    obtain ⟨fw, r⟩ := e
    intro W x hx
    rw [List.map_cons, List.mem_cons] at hx
    push_neg at hx
    rw [set_frames]
    cases hfw : lookupA W fw with
    | none =>
      exact ih W x hx.2
    | some w =>
      rw [ih _ x hx.2]
      exact lookupA_updateA_ne W fw x _ (fun h => hx.1 (h ▸ rfl))

theorem lookupA_set_frames_wsid :
    ∀ (fr : List (WindowId × CGRect)) (W : List (WindowId × Window)) (x : WindowId)
      (w : Window), lookupA W x = some w →
      ∃ w2, lookupA (set_frames W fr) x = some w2 ∧
        w2.window_server_id = w.window_server_id := by
  intro fr
  induction fr with
  | nil => intro W x w hw; exact ⟨w, hw, rfl⟩
  | cons e rest ih =>
    obtain ⟨fw, r⟩ := e
    intro W x w hw
    rw [set_frames]
    cases hfw : lookupA W fw with
    | none => exact ih W x w hw
    | some u =>
      by_cases hx : fw = x
      · subst hx
        rw [hw] at hfw
        injection hfw with hu
        subst hu
        obtain ⟨w2, h2, h3⟩ := ih (updateA W fw { w with frame_monotonic := r, anim_state := none })
          fw { w with frame_monotonic := r, anim_state := none } (lookupA_updateA_self W fw _)
        exact ⟨w2, h2, h3⟩
      · obtain ⟨w2, h2, h3⟩ := ih (updateA W fw { u with frame_monotonic := r, anim_state := none })
          x w (by rw [lookupA_updateA_ne W fw x _ hx]; exact hw)
        exact ⟨w2, h2, h3⟩

theorem lookupA_set_frames_mem :
    ∀ (fr : List (WindowId × CGRect)) (W : List (WindowId × Window)) (x : WindowId)
      (r : CGRect) (w : Window),
      (x, r) ∈ fr → (fr.filter fun q => decide (q.1 = x)).length ≤ 1 →
      lookupA W x = some w →
      ∃ w2, lookupA (set_frames W fr) x = some w2 ∧ w2.frame_monotonic = r ∧
        w2.window_server_id = w.window_server_id := by
  intro fr
  induction fr with
  | nil => intro _ _ _ _ hmem; cases hmem
  | cons e rest ih =>
    obtain ⟨fw, r0⟩ := e
    intro W x r w hmem hcnt hw
    by_cases hx : fw = x
    · subst hx
      have hhead : (((fw, r0) :: rest).filter fun q => decide (q.1 = fw)).length =
          1 + ((rest.filter fun q => decide (q.1 = fw)).length) := by
        simp [List.filter]
        omega
      have hrest0 : (rest.filter fun q => decide (q.1 = fw)).length = 0 := by omega
      have hnot : fw ∉ rest.map Prod.fst := by
        intro hmem2
        obtain ⟨q, hq, hq1⟩ := List.mem_map.1 hmem2
        have : q ∈ rest.filter fun q => decide (q.1 = fw) :=
          List.mem_filter.2 ⟨hq, by rw [hq1]; simp⟩
        rw [List.length_eq_zero] at hrest0
        rw [hrest0] at this
        cases this
      have hr : r = r0 := by
        rcases List.mem_cons.1 hmem with h1 | h2
        · injection h1 with _ h
        · exfalso
          have : (fw, r) ∈ rest.filter fun q => decide (q.1 = fw) :=
            List.mem_filter.2 ⟨h2, by simp⟩
          rw [List.length_eq_zero] at hrest0
          rw [hrest0] at this
          cases this
      subst hr
      rw [set_frames, hw]
      rw [lookupA_set_frames_not_mem rest _ fw hnot, lookupA_updateA_self]
      exact ⟨_, rfl, rfl, rfl⟩
    · have hmem2 : (x, r) ∈ rest := by
        rcases List.mem_cons.1 hmem with h1 | h2
        · exfalso; injection h1 with h _; exact hx h.symm
        · exact h2
      have hcnt2 : (rest.filter fun q => decide (q.1 = x)).length ≤ 1 := by
        have : (((fw, r0) :: rest).filter fun q => decide (q.1 = x)).length =
            (rest.filter fun q => decide (q.1 = x)).length := by
          simp [List.filter, hx]
        omega
      rw [set_frames]
      cases hfw : lookupA W fw with
      | none => exact ih W x r w hmem2 hcnt2 hw
      | some u =>
        exact ih (updateA W fw { u with frame_monotonic := r0, anim_state := none }) x r w
          hmem2 hcnt2 (by rw [lookupA_updateA_ne W fw x _ hx]; exact hw)

theorem instant_fold_state (txid : TransactionId) :
    ∀ (rest : List (WindowId × CGRect))
      (es : List (WindowServerId × TransactionId × CGRect) × InstantState),
      ∃ ts, (List.foldl (instant_send_step txid) es rest).2 =
        { es.2 with reactor := { es.2.reactor with txStore := ts } } := by
  intro rest
  induction rest with
  | nil => intro es; exact ⟨es.2.reactor.txStore, rfl⟩
  | cons e rest ih =>
    intro es
    rw [List.foldl_cons]
    rw [instant_send_step]
    cases hw : lookupA es.2.reactor.windows e.1 with
    | none =>
      exact ih es
    | some w =>
      dsimp only
      cases hws : w.window_server_id with
      | none => exact ih es
      | some u =>
        dsimp only
        obtain ⟨ts, h⟩ := ih (es.1 ++ [(u, txid, e.2)],
          { es.2 with reactor := { es.2.reactor with
            txStore := set_last_sent_txid es.2.reactor.txStore u txid } })
        exact ⟨ts, h⟩

theorem foldl_send_windows (txid : TransactionId) (rest : List (WindowId × CGRect))
    (es : List (WindowServerId × TransactionId × CGRect) × InstantState) :
    (List.foldl (instant_send_step txid) es rest).2.reactor.windows =
      es.2.reactor.windows := by
  obtain ⟨ts, h⟩ := instant_fold_state txid rest es
  rw [h]

theorem foldl_send_apps (txid : TransactionId) (rest : List (WindowId × CGRect))
    (es : List (WindowServerId × TransactionId × CGRect) × InstantState) :
    (List.foldl (instant_send_step txid) es rest).2.reactor.apps =
      es.2.reactor.apps := by
  obtain ⟨ts, h⟩ := instant_fold_state txid rest es
  rw [h]

theorem foldl_send_gen (txid : TransactionId) (rest : List (WindowId × CGRect))
    (es : List (WindowServerId × TransactionId × CGRect) × InstantState) :
    (List.foldl (instant_send_step txid) es rest).2.reactor.animation_generation =
      es.2.reactor.animation_generation := by
  obtain ⟨ts, h⟩ := instant_fold_state txid rest es
  rw [h]

theorem foldl_send_settings (txid : TransactionId) (rest : List (WindowId × CGRect))
    (es : List (WindowServerId × TransactionId × CGRect) × InstantState) :
    (List.foldl (instant_send_step txid) es rest).2.reactor.settings =
      es.2.reactor.settings := by
  obtain ⟨ts, h⟩ := instant_fold_state txid rest es
  rw [h]

theorem foldl_send_refresh (txid : TransactionId) (rest : List (WindowId × CGRect))
    (es : List (WindowServerId × TransactionId × CGRect) × InstantState) :
    (List.foldl (instant_send_step txid) es rest).2.reactor.refresh_rate =
      es.2.reactor.refresh_rate := by
  obtain ⟨ts, h⟩ := instant_fold_state txid rest es
  rw [h]

theorem foldl_send_low_power (txid : TransactionId) (rest : List (WindowId × CGRect))
    (es : List (WindowServerId × TransactionId × CGRect) × InstantState) :
    (List.foldl (instant_send_step txid) es rest).2.reactor.low_power =
      es.2.reactor.low_power := by
  obtain ⟨ts, h⟩ := instant_fold_state txid rest es
  rw [h]

theorem foldl_send_dead (txid : TransactionId) (rest : List (WindowId × CGRect))
    (es : List (WindowServerId × TransactionId × CGRect) × InstantState) :
    (List.foldl (instant_send_step txid) es rest).2.reactor.dead_handles =
      es.2.reactor.dead_handles := by
  obtain ⟨ts, h⟩ := instant_fold_state txid rest es
  rw [h]

theorem foldl_send_active (txid : TransactionId) (rest : List (WindowId × CGRect))
    (es : List (WindowServerId × TransactionId × CGRect) × InstantState) :
    (List.foldl (instant_send_step txid) es rest).2.reactor.active_workspace =
      es.2.reactor.active_workspace := by
  obtain ⟨ts, h⟩ := instant_fold_state txid rest es
  rw [h]

theorem foldl_send_wfw (txid : TransactionId) (rest : List (WindowId × CGRect))
    (es : List (WindowServerId × TransactionId × CGRect) × InstantState) :
    (List.foldl (instant_send_step txid) es rest).2.reactor.workspace_for_window =
      es.2.reactor.workspace_for_window := by
  obtain ⟨ts, h⟩ := instant_fold_state txid rest es
  rw [h]

theorem foldl_send_msgs (txid : TransactionId) (rest : List (WindowId × CGRect))
    (es : List (WindowServerId × TransactionId × CGRect) × InstantState) :
    (List.foldl (instant_send_step txid) es rest).2.msgs = es.2.msgs := by
  obtain ⟨ts, h⟩ := instant_fold_state txid rest es
  rw [h]

theorem foldl_send_mints (txid : TransactionId) (rest : List (WindowId × CGRect))
    (es : List (WindowServerId × TransactionId × CGRect) × InstantState) :
    (List.foldl (instant_send_step txid) es rest).2.mints = es.2.mints := by
  obtain ⟨ts, h⟩ := instant_fold_state txid rest es
  rw [h]

theorem instant_apply_group_run (s : InstantState) (pid : Nat) (a : AppState)
    (fw : WindowId) (ftr : CGRect) (rest : List (WindowId × CGRect))
    (hdead : s.reactor.dead_handles = [])
    (happ : lookupA s.reactor.apps pid = some a) :
    ∃ ts mi tx,
      instant_apply_group s pid ((fw, ftr) :: rest) =
        ⟨⟨set_frames s.reactor.windows ((fw, ftr) :: rest), s.reactor.apps, ts,
          s.reactor.animation_generation, s.reactor.settings, s.reactor.refresh_rate,
          s.reactor.low_power, s.reactor.dead_handles, s.reactor.active_workspace,
          s.reactor.workspace_for_window⟩,
          s.msgs ++ [(a.handle, Request.SetBatchWindowFrame ((fw, ftr) :: rest) tx)],
          s.mints ++ mi⟩ ∧
      (∀ w u, lookupA s.reactor.windows fw = some w → w.window_server_id = some u →
        mi = [(pid, u)]) := by
  rw [instant_apply_group]
  simp only [happ]
  cases hfw : lookupA s.reactor.windows fw with
  | none =>
    dsimp only
    simp only [Bool.false_eq_true, if_false]
    rw [hdead]
    simp only [List.not_mem_nil, if_false]
    refine ⟨s.reactor.txStore, [], 0, ?_, ?_⟩
    · rw [List.append_nil]
    · intro w u hw _
      cases hw
  | some w =>
    dsimp only
    cases hws : w.window_server_id with
    | none =>
      dsimp only
      simp only [Bool.false_eq_true, if_false]
      rw [hdead]
      simp only [List.not_mem_nil, if_false]
      refine ⟨s.reactor.txStore, [], 0, ?_, ?_⟩
      · rw [List.append_nil]
      · intro w2 u2 hw2 hu2
        injection hw2 with hw3
        subst hw3
        rw [hws] at hu2
        cases hu2
    | some u =>
      dsimp only
      simp only [eq_self_iff_true, if_true]
      simp only [foldl_send_windows, foldl_send_apps, foldl_send_gen,
        foldl_send_settings, foldl_send_refresh, foldl_send_low_power,
        foldl_send_dead, foldl_send_active, foldl_send_wfw,
        foldl_send_msgs, foldl_send_mints]
      rw [hdead]
      simp only [List.not_mem_nil, if_false]
      have hcond : ∀ w2 u2, some w = some w2 →
          w2.window_server_id = some u2 → [(pid, u)] = [(pid, u2)] := by
        intro w2 u2 hw2 hu2
        injection hw2 with hw3
        subst hw3
        rw [hws] at hu2
        injection hu2 with hu3
        subst hu3
        rfl
      exact ⟨_, [(pid, u)], (generate_next_txid s.reactor.txStore u).1, rfl, hcond⟩

theorem instant_apply_group_nil (s : InstantState) (pid : Nat) :
    instant_apply_group s pid [] = s := rfl

theorem instant_apply_effects :
    ∀ (G : List (Nat × List (WindowId × CGRect))) (s : InstantState),
      s.reactor.dead_handles = [] →
      (∀ g ∈ G, ∃ a, lookupA s.reactor.apps g.1 = some a) →
      (instant_apply s G).reactor.apps = s.reactor.apps ∧
      (instant_apply s G).reactor.dead_handles = [] ∧
      (∀ x : WindowId, (∀ g ∈ G, x ∉ g.2.map Prod.fst) →
        lookupA (instant_apply s G).reactor.windows x = lookupA s.reactor.windows x) ∧
      (∀ x w, lookupA s.reactor.windows x = some w →
        ∃ w2, lookupA (instant_apply s G).reactor.windows x = some w2 ∧
          w2.window_server_id = w.window_server_id) ∧
      (∃ ms mi, (instant_apply s G).msgs = s.msgs ++ ms ∧
        (instant_apply s G).mints = s.mints ++ mi) := by
  intro G
  induction G with
  | nil =>
    intro s hdead _
    refine ⟨rfl, hdead, fun x _ => rfl, fun x w hw => ⟨w, hw, rfl⟩, [], [], ?_, ?_⟩
    · rw [List.append_nil]; rfl
    · rw [List.append_nil]; rfl
  | cons g rest ih =>
    obtain ⟨p, fr⟩ := g
    intro s hdead hG
    rw [instant_apply]
    cases fr with
    | nil =>
      rw [instant_apply_group_nil]
      obtain ⟨ih1, ih2, ih3, ih4, ih5⟩ :=
        ih s hdead fun g2 hg2 => hG g2 (List.mem_cons_of_mem _ hg2)
      exact ⟨ih1, ih2, fun x hx => ih3 x fun g2 hg2 => hx g2 (List.mem_cons_of_mem _ hg2),
        ih4, ih5⟩
    | cons e r2 =>
      obtain ⟨fw, ftr⟩ := e
      obtain ⟨a, ha⟩ := hG (p, (fw, ftr) :: r2) (List.mem_cons_self _ _)
      obtain ⟨ts, mi, tx, hrun, hmi⟩ := instant_apply_group_run s p a fw ftr r2 hdead ha
      rw [hrun]
      have hdead1 : (⟨⟨set_frames s.reactor.windows ((fw, ftr) :: r2), s.reactor.apps, ts,
          s.reactor.animation_generation, s.reactor.settings, s.reactor.refresh_rate,
          s.reactor.low_power, s.reactor.dead_handles, s.reactor.active_workspace,
          s.reactor.workspace_for_window⟩,
          s.msgs ++ [(a.handle, Request.SetBatchWindowFrame ((fw, ftr) :: r2) tx)],
          s.mints ++ mi⟩ : InstantState).reactor.dead_handles = [] := hdead
      have hG1 : ∀ g2 ∈ rest, ∃ a2, lookupA (⟨⟨set_frames s.reactor.windows ((fw, ftr) :: r2),
          s.reactor.apps, ts, s.reactor.animation_generation, s.reactor.settings,
          s.reactor.refresh_rate, s.reactor.low_power, s.reactor.dead_handles,
          s.reactor.active_workspace, s.reactor.workspace_for_window⟩,
          s.msgs ++ [(a.handle, Request.SetBatchWindowFrame ((fw, ftr) :: r2) tx)],
          s.mints ++ mi⟩ : InstantState).reactor.apps g2.1 = some a2 :=
        fun g2 hg2 => hG g2 (List.mem_cons_of_mem _ hg2)
      obtain ⟨ih1, ih2, ih3, ih4, ih5⟩ := ih _ hdead1 hG1
      refine ⟨ih1, ih2, ?_, ?_, ?_⟩
      · intro x hx
        rw [ih3 x fun g2 hg2 => hx g2 (List.mem_cons_of_mem _ hg2)]
        exact lookupA_set_frames_not_mem ((fw, ftr) :: r2) s.reactor.windows x
          (hx (p, (fw, ftr) :: r2) (List.mem_cons_self _ _))
      · intro x w hw
        obtain ⟨w1, hw1, hws1⟩ := lookupA_set_frames_wsid ((fw, ftr) :: r2)
          s.reactor.windows x w hw
        obtain ⟨w2, hw2, hws2⟩ := ih4 x w1 hw1
        exact ⟨w2, hw2, hws2.trans hws1⟩
      · obtain ⟨ms, mi2, hms, hmi2⟩ := ih5
        exact ⟨[(a.handle, Request.SetBatchWindowFrame ((fw, ftr) :: r2) tx)] ++ ms,
          mi ++ mi2, by rw [hms, List.append_assoc], by rw [hmi2, List.append_assoc]⟩

theorem instant_apply_sets_frame :
    ∀ (G : List (Nat × List (WindowId × CGRect))) (s : InstantState) (x : WindowId)
      (r : CGRect) (fr : List (WindowId × CGRect)) (w : Window),
      s.reactor.dead_handles = [] →
      (∀ g ∈ G, ∃ a, lookupA s.reactor.apps g.1 = some a) →
      (∀ g ∈ G, ∀ q ∈ g.2, q.1.pid = g.1) →
      (G.map Prod.fst).Nodup →
      groupCount G x ≤ 1 →
      (x.pid, fr) ∈ G → (x, r) ∈ fr →
      lookupA s.reactor.windows x = some w →
      ∃ w2, lookupA (instant_apply s G).reactor.windows x = some w2 ∧
        w2.frame_monotonic = r ∧ w2.window_server_id = w.window_server_id := by
  intro G
  induction G with
  | nil => intro s x r fr w _ _ _ _ _ hg; cases hg
  | cons g rest ih =>
    obtain ⟨p, fr0⟩ := g
    intro s x r fr w hdead hG hprov hkeys hcnt hg hq hw
    rw [List.map_cons, List.nodup_cons] at hkeys
    have hcnt0 : (fr0.filter fun q2 => decide (q2.1 = x)).length +
        groupCount rest x = groupCount ((p, fr0) :: rest) x := by
      simp [groupCount]
    rcases List.mem_cons.1 hg with hghead | hgtail
    · injection hghead with hp0 hfr0
      have hbucket : (fr0.filter fun q2 => decide (q2.1 = x)).length ≤ 1 := by omega
      subst hfr0
      cases fr with
      | nil => cases hq
      | cons e r2 =>
        obtain ⟨fw, ftr⟩ := e
        obtain ⟨a, ha⟩ := hG (p, (fw, ftr) :: r2) (List.mem_cons_self _ _)
        rw [instant_apply]
        obtain ⟨ts, mi, tx, hrun, hmi⟩ := instant_apply_group_run s p a fw ftr r2 hdead ha
        rw [hrun]
        obtain ⟨w2, hw2, hfr2, hws2⟩ := lookupA_set_frames_mem ((fw, ftr) :: r2)
          s.reactor.windows x r w hq hbucket hw
        have hnot : ∀ g2 ∈ rest, x ∉ g2.2.map Prod.fst := by
          intro g2 hg2 hxmem
          obtain ⟨q2, hq2, hq2x⟩ := List.mem_map.1 hxmem
          have hpid2 : q2.1.pid = g2.1 := hprov g2 (List.mem_cons_of_mem _ hg2) q2 hq2
          have hgp : g2.1 = p := by rw [← hpid2, hq2x, hp0]
          exact hkeys.1 (hgp ▸ List.mem_map.2 ⟨g2, hg2, rfl⟩)
        have hdead1 : (⟨⟨set_frames s.reactor.windows ((fw, ftr) :: r2), s.reactor.apps, ts,
            s.reactor.animation_generation, s.reactor.settings, s.reactor.refresh_rate,
            s.reactor.low_power, s.reactor.dead_handles, s.reactor.active_workspace,
            s.reactor.workspace_for_window⟩,
            s.msgs ++ [(a.handle, Request.SetBatchWindowFrame ((fw, ftr) :: r2) tx)],
            s.mints ++ mi⟩ : InstantState).reactor.dead_handles = [] := hdead
        have hG1 : ∀ g2 ∈ rest, ∃ a2, lookupA (⟨⟨set_frames s.reactor.windows ((fw, ftr) :: r2),
            s.reactor.apps, ts, s.reactor.animation_generation, s.reactor.settings,
            s.reactor.refresh_rate, s.reactor.low_power, s.reactor.dead_handles,
            s.reactor.active_workspace, s.reactor.workspace_for_window⟩,
            s.msgs ++ [(a.handle, Request.SetBatchWindowFrame ((fw, ftr) :: r2) tx)],
            s.mints ++ mi⟩ : InstantState).reactor.apps g2.1 = some a2 :=
          fun g2 hg2 => hG g2 (List.mem_cons_of_mem _ hg2)
        obtain ⟨ih1, ih2, ih3, ih4, ih5⟩ := instant_apply_effects rest _ hdead1 hG1
        rw [ih3 x hnot]
        exact ⟨w2, hw2, hfr2, hws2⟩
    · have hxnot0 : x ∉ fr0.map Prod.fst := by
        intro hxmem
        obtain ⟨q2, hq2, hq2x⟩ := List.mem_map.1 hxmem
        have hpid2 : q2.1.pid = p := hprov (p, fr0) (List.mem_cons_self _ _) q2 hq2
        rw [hq2x] at hpid2
        rw [← hpid2] at hkeys
        exact hkeys.1 (List.mem_map.2 ⟨(x.pid, fr), hgtail, rfl⟩)
      cases fr0 with
      | nil =>
        rw [instant_apply, instant_apply_group_nil]
        exact ih s x r fr w hdead (fun g2 hg2 => hG g2 (List.mem_cons_of_mem _ hg2))
          (fun g2 hg2 => hprov g2 (List.mem_cons_of_mem _ hg2)) hkeys.2 (by omega) hgtail hq hw
      | cons e r2 =>
        obtain ⟨fw, ftr⟩ := e
        obtain ⟨a, ha⟩ := hG (p, (fw, ftr) :: r2) (List.mem_cons_self _ _)
        rw [instant_apply]
        obtain ⟨ts, mi, tx, hrun, hmi⟩ := instant_apply_group_run s p a fw ftr r2 hdead ha
        rw [hrun]
        have hw1 : lookupA (set_frames s.reactor.windows ((fw, ftr) :: r2)) x = some w := by
          rw [lookupA_set_frames_not_mem ((fw, ftr) :: r2) s.reactor.windows x hxnot0]
          exact hw
        exact ih _ x r fr w hdead (fun g2 hg2 => hG g2 (List.mem_cons_of_mem _ hg2))
          (fun g2 hg2 => hprov g2 (List.mem_cons_of_mem _ hg2)) hkeys.2 (by omega) hgtail hq hw1

theorem instant_apply_commits :
    ∀ (G : List (Nat × List (WindowId × CGRect))) (s : InstantState),
      s.reactor.dead_handles = [] →
      (∀ g ∈ G, ∃ a, lookupA s.reactor.apps g.1 = some a) →
      (∃ g ∈ G, ∃ fw ftr rest2, g.2 = (fw, ftr) :: rest2 ∧
        ∃ w u, lookupA s.reactor.windows fw = some w ∧ w.window_server_id = some u) →
      (instant_apply s G).msgs ≠ [] ∧ (instant_apply s G).mints ≠ [] := by
  intro G
  induction G with
  | nil => intro s _ _ hwit; obtain ⟨g, hg, _⟩ := hwit; cases hg
  | cons g rest ih =>
    obtain ⟨p, fr0⟩ := g
    intro s hdead hG hwit
    obtain ⟨g2, hg2, fw2, ftr2, rest2, hfr2, w2, u2, hw2, hu2⟩ := hwit
    rcases List.mem_cons.1 hg2 with hghead | hgtail
    · subst hghead
      dsimp only at hfr2
      subst hfr2
      obtain ⟨a, ha⟩ := hG (p, (fw2, ftr2) :: rest2) (List.mem_cons_self _ _)
      rw [instant_apply]
      obtain ⟨ts, mi, tx, hrun, hmi⟩ := instant_apply_group_run s p a fw2 ftr2 rest2 hdead ha
      rw [hrun]
      have hmieq : mi = [(p, u2)] := hmi w2 u2 hw2 hu2
      subst hmieq
      have hdead1 : (⟨⟨set_frames s.reactor.windows ((fw2, ftr2) :: rest2), s.reactor.apps, ts,
          s.reactor.animation_generation, s.reactor.settings, s.reactor.refresh_rate,
          s.reactor.low_power, s.reactor.dead_handles, s.reactor.active_workspace,
          s.reactor.workspace_for_window⟩,
          s.msgs ++ [(a.handle, Request.SetBatchWindowFrame ((fw2, ftr2) :: rest2) tx)],
          s.mints ++ [(p, u2)]⟩ : InstantState).reactor.dead_handles = [] := hdead
      have hG1 : ∀ g3 ∈ rest, ∃ a3, lookupA (⟨⟨set_frames s.reactor.windows
          ((fw2, ftr2) :: rest2), s.reactor.apps, ts, s.reactor.animation_generation,
          s.reactor.settings, s.reactor.refresh_rate, s.reactor.low_power,
          s.reactor.dead_handles, s.reactor.active_workspace,
          s.reactor.workspace_for_window⟩,
          s.msgs ++ [(a.handle, Request.SetBatchWindowFrame ((fw2, ftr2) :: rest2) tx)],
          s.mints ++ [(p, u2)]⟩ : InstantState).reactor.apps g3.1 = some a3 :=
        fun g3 hg3 => hG g3 (List.mem_cons_of_mem _ hg3)
      obtain ⟨ih1, ih2, ih3, ih4, ih5⟩ := instant_apply_effects rest _ hdead1 hG1
      obtain ⟨ms, mi2, hms, hmi2⟩ := ih5
      constructor
      · rw [hms]
        simp
      · rw [hmi2]
        simp
    · cases fr0 with
      | nil =>
        rw [instant_apply, instant_apply_group_nil]
        exact ih s hdead (fun g3 hg3 => hG g3 (List.mem_cons_of_mem _ hg3))
          ⟨g2, hgtail, fw2, ftr2, rest2, hfr2, w2, u2, hw2, hu2⟩
      | cons e r2 =>
        obtain ⟨fw, ftr⟩ := e
        obtain ⟨a, ha⟩ := hG (p, (fw, ftr) :: r2) (List.mem_cons_self _ _)
        rw [instant_apply]
        obtain ⟨ts, mi, tx, hrun, hmi⟩ := instant_apply_group_run s p a fw ftr r2 hdead ha
        rw [hrun]
        obtain ⟨w3, hw3, hws3⟩ := lookupA_set_frames_wsid ((fw, ftr) :: r2)
          s.reactor.windows fw2 w2 hw2
        exact ih _ hdead (fun g3 hg3 => hG g3 (List.mem_cons_of_mem _ hg3))
          ⟨g2, hgtail, fw2, ftr2, rest2, hfr2, w3, u2, hw3, by rw [hws3]; exact hu2⟩

/-- C9 counterexample: a single-window layout whose rounded target already
equals the cached frame, with the window, its window-server id and its owning
process all present and no dead channels.  The claim promises a commit
(messages, minted token, return value true) on the first call — but the first
call is already a complete no-op returning false. -/
theorem instant_layout_first_call_noop_cex :
    (∀ q ∈ [((⟨1, 0⟩ : WindowId), (⟨⟨1, 0⟩, ⟨1, 1⟩⟩ : CGRect))], ∃ w u,
      lookupA (⟨[(⟨1, 0⟩, ⟨⟨⟨1, 0⟩, ⟨1, 1⟩⟩, none, some 5⟩)], [(1, ⟨1⟩)], [], 0, ⟨1, 1, true⟩, none, false, [], fun _ => some 0, fun _ _ => some 0⟩ : Reactor).windows q.1 = some w ∧
        w.window_server_id = some u) ∧
    (∀ q ∈ [((⟨1, 0⟩ : WindowId), (⟨⟨1, 0⟩, ⟨1, 1⟩⟩ : CGRect))], ∃ a,
      lookupA (⟨[(⟨1, 0⟩, ⟨⟨⟨1, 0⟩, ⟨1, 1⟩⟩, none, some 5⟩)], [(1, ⟨1⟩)], [], 0, ⟨1, 1, true⟩, none, false, [], fun _ => some 0, fun _ _ => some 0⟩ : Reactor).apps q.1.pid = some a) ∧
    AnimationManager.instant_layout
        ⟨[(⟨1, 0⟩, ⟨⟨⟨1, 0⟩, ⟨1, 1⟩⟩, none, some 5⟩)], [(1, ⟨1⟩)], [], 0, ⟨1, 1, true⟩, none, false, [], fun _ => some 0, fun _ _ => some 0⟩
        [(⟨1, 0⟩, ⟨⟨1, 0⟩, ⟨1, 1⟩⟩)] none =
      (false, ⟨⟨[(⟨1, 0⟩, ⟨⟨⟨1, 0⟩, ⟨1, 1⟩⟩, none, some 5⟩)], [(1, ⟨1⟩)], [], 0, ⟨1, 1, true⟩, none, false, [], fun _ => some 0, fun _ _ => some 0⟩, [], []⟩) := by
  refine ⟨?_, ?_, ?_⟩
  · intro q hq
    rw [List.mem_singleton] at hq
    subst hq
    exact ⟨⟨⟨⟨1, 0⟩, ⟨1, 1⟩⟩, none, some 5⟩, 5, by simp [lookupA], rfl⟩
  · intro q hq
    rw [List.mem_singleton] at hq
    subst hq
    exact ⟨⟨1⟩, by simp [lookupA]⟩
  · have hconv := instant_collect_converged
      (⟨[(⟨1, 0⟩, ⟨⟨⟨1, 0⟩, ⟨1, 1⟩⟩, none, some 5⟩)], [(1, ⟨1⟩)], [], 0, ⟨1, 1, true⟩, none, false, [], fun _ => some 0, fun _ _ => some 0⟩ : Reactor)
      none [(⟨1, 0⟩, ⟨⟨1, 0⟩, ⟨1, 1⟩⟩)] ([], false) ?_
    · rw [AnimationManager.instant_layout, hconv]
      rfl
    · intro q hq
      rw [List.mem_singleton] at hq
      subst hq
      exact ⟨⟨⟨⟨1, 0⟩, ⟨1, 1⟩⟩, none, some 5⟩, by simp [lookupA], by rw [round_unit2]; rfl⟩

/-- C9 (amended): with every layout window and its owning process present,
window-server ids known, no dead channels, and no window listed twice,
`instant_layout` commits on the first call provided at least one rounded
target differs from the cached frame — returning true, sending messages,
minting at least one token, and leaving every layout window's cached frame at
its rounded target — and the second call with the same layout is a complete
no-op: it returns false with no messages, no mints, and the reactor
unchanged. -/
theorem instant_layout_idempotent
    (reactor : Reactor) (layout : List (WindowId × CGRect))
    (hdead : reactor.dead_handles = [])
    (hwin : ∀ q ∈ layout, ∃ w u, lookupA reactor.windows q.1 = some w ∧
      w.window_server_id = some u)
    (happ : ∀ q ∈ layout, ∃ a, lookupA reactor.apps q.1.pid = some a)
    (hnodup : (layout.map Prod.fst).Nodup)
    (hchange : ∃ q w, q ∈ layout ∧ lookupA reactor.windows q.1 = some w ∧
      ¬ q.2.round.same_as w.frame_monotonic) :
    (AnimationManager.instant_layout reactor layout none).1 = true ∧
    (AnimationManager.instant_layout reactor layout none).2.msgs ≠ [] ∧
    (AnimationManager.instant_layout reactor layout none).2.mints ≠ [] ∧
    (∀ q ∈ layout, ∃ w2,
      lookupA (AnimationManager.instant_layout reactor layout none).2.reactor.windows q.1 =
        some w2 ∧ q.2.round.same_as w2.frame_monotonic) ∧
    AnimationManager.instant_layout
        (AnimationManager.instant_layout reactor layout none).2.reactor layout none =
      (false, ⟨(AnimationManager.instant_layout reactor layout none).2.reactor, [], []⟩) := by
  obtain ⟨qc, wc, hqc, hwc, hnsc⟩ := hchange
  have hprov2 : ∀ g ∈ (instant_collect reactor none ([], false) layout).1, ∀ q ∈ g.2,
      q.1.pid = g.1 ∧ ∃ tf w, (q.1, tf) ∈ layout ∧ q.2 = tf.round ∧
        lookupA reactor.windows q.1 = some w ∧ ¬ tf.round.same_as w.frame_monotonic := by
    intro g hg q hq
    rcases instant_collect_prov reactor none layout ([], false) g.1 g.2 q hg hq with h1 | h2
    · obtain ⟨fr0, hfr0, _⟩ := h1
      cases hfr0
    · exact ⟨h2.1, h2.2⟩
  have hprovP : ∀ g ∈ (instant_collect reactor none ([], false) layout).1, ∀ q ∈ g.2,
      q.1.pid = g.1 := fun g hg q hq => (hprov2 g hg q hq).1
  have hkeysN : ((instant_collect reactor none ([], false) layout).1.map Prod.fst).Nodup :=
    instant_collect_keys_nodup reactor none layout ([], false) (by simp)
  have hne : ∀ g ∈ (instant_collect reactor none ([], false) layout).1, g.2 ≠ [] :=
    instant_collect_buckets_ne_nil reactor none layout ([], false) (by intro g hg; cases hg)
  have happG : ∀ g ∈ (instant_collect reactor none ([], false) layout).1,
      ∃ a, lookupA reactor.apps g.1 = some a := by
    intro g hg
    obtain ⟨q0, hq0⟩ := List.exists_mem_of_ne_nil _ (hne g hg)
    obtain ⟨hpid, tf, w, hmem, _, _, _⟩ := hprov2 g hg q0 hq0
    obtain ⟨a, ha⟩ := happ (q0.1, tf) hmem
    exact ⟨a, by rw [← hpid]; exact ha⟩
  have hcount : ∀ x : WindowId,
      groupCount (instant_collect reactor none ([], false) layout).1 x ≤ 1 := by
    intro x
    have h1 := groupCount_instant_collect reactor none layout ([], false) x
    have h2 : ((layout.map Prod.fst).count x) ≤ 1 := List.nodup_iff_count_le_one.mp hnodup x
    have h3 : groupCount (([], false) :
        List (Nat × List (WindowId × CGRect)) × Bool).1 x = 0 := rfl
    omega
  have hflag : (instant_collect reactor none ([], false) layout).2 = true :=
    instant_collect_flag_changed reactor layout ([], false) qc.1 qc.2 wc hqc hwc hnsc
  have hcommit : (instant_apply (⟨reactor, [], []⟩ : InstantState)
        (instant_collect reactor none ([], false) layout).1).msgs ≠ [] ∧
      (instant_apply (⟨reactor, [], []⟩ : InstantState)
        (instant_collect reactor none ([], false) layout).1).mints ≠ [] := by
    apply instant_apply_commits _ _ hdead happG
    obtain ⟨fr, hgfr, hqfr⟩ := instant_collect_complete reactor layout ([], false)
      qc.1 qc.2 wc hqc hwc hnsc
    rcases fr with _ | ⟨⟨fw, ftr⟩, rest2⟩
    · cases hqfr
    · have hfwmem : ((fw, ftr) : WindowId × CGRect) ∈ (fw, ftr) :: rest2 :=
        List.mem_cons_self _ _
      obtain ⟨hpid, tf, w, hmem, htf, hlw, hns⟩ :=
        hprov2 (qc.1.pid, (fw, ftr) :: rest2) hgfr (fw, ftr) hfwmem
      obtain ⟨w0, u0, hw0, hu0⟩ := hwin (fw, tf) hmem
      have hww : w = w0 := by
        rw [hlw] at hw0
        injection hw0 with h
      refine ⟨(qc.1.pid, (fw, ftr) :: rest2), hgfr, fw, ftr, rest2, rfl, w, u0, hlw, ?_⟩
      rw [hww]
      exact hu0
  have hframes : ∀ q ∈ layout, ∃ w2,
      lookupA (instant_apply (⟨reactor, [], []⟩ : InstantState)
        (instant_collect reactor none ([], false) layout).1).reactor.windows q.1 = some w2 ∧
      q.2.round.same_as w2.frame_monotonic := by
    intro q hq
    obtain ⟨w, u, hw, hu⟩ := hwin q hq
    by_cases hch : q.2.round.same_as w.frame_monotonic
    · have hnotin : ∀ g ∈ (instant_collect reactor none ([], false) layout).1,
          q.1 ∉ g.2.map Prod.fst := by
        intro g hg hxmem
        obtain ⟨q2, hq2, hq2x⟩ := List.mem_map.1 hxmem
        obtain ⟨hpid, tf, w3, hmem3, htf3, hlw3, hns3⟩ := hprov2 g hg q2 hq2
        rw [hq2x] at hmem3 hlw3
        have htfq : q.2 = tf := keysNodupUnique q.1 q.2 tf layout hnodup hq hmem3
        rw [← htfq] at hns3
        rw [hw] at hlw3
        injection hlw3 with h3
        rw [← h3] at hns3
        exact hns3 hch
      obtain ⟨e1, e2, e3, e4, e5⟩ := instant_apply_effects
        (instant_collect reactor none ([], false) layout).1 ⟨reactor, [], []⟩ hdead happG
      exact ⟨w, by rw [e3 q.1 hnotin]; exact hw, hch⟩
    · obtain ⟨fr, hgfr, hqfr⟩ := instant_collect_complete reactor layout ([], false)
        q.1 q.2 w hq hw hch
      obtain ⟨w2, hw2, hfr2, hws2⟩ := instant_apply_sets_frame
        (instant_collect reactor none ([], false) layout).1 ⟨reactor, [], []⟩
        q.1 q.2.round fr w hdead happG hprovP hkeysN (hcount q.1) hgfr hqfr hw
      exact ⟨w2, hw2, by rw [hfr2]; rfl⟩
  have hconv : instant_collect (instant_apply (⟨reactor, [], []⟩ : InstantState)
        (instant_collect reactor none ([], false) layout).1).reactor none
        ([], false) layout = ([], false) := by
    apply instant_collect_converged
    intro q hq
    obtain ⟨w2, hw2, hs2⟩ := hframes q hq
    exact ⟨w2, hw2, hs2⟩
  have hsecond : AnimationManager.instant_layout
      (instant_apply (⟨reactor, [], []⟩ : InstantState)
        (instant_collect reactor none ([], false) layout).1).reactor layout none =
      (false, ⟨(instant_apply (⟨reactor, [], []⟩ : InstantState)
        (instant_collect reactor none ([], false) layout).1).reactor, [], []⟩) := by
    rw [AnimationManager.instant_layout, hconv]
    rfl
  exact ⟨hflag, hcommit.1, hcommit.2, hframes, hsecond⟩

/-- Witness for `instant_layout_idempotent`: a single window cached at
⟨⟨0,0⟩,⟨1,1⟩⟩ moved instantly to ⟨⟨1,0⟩,⟨1,1⟩⟩; the first call commits and
the second call is a no-op. -/
theorem instant_layout_idempotent_witness :
    (AnimationManager.instant_layout
        ⟨[(⟨1, 0⟩, ⟨⟨⟨0, 0⟩, ⟨1, 1⟩⟩, none, some 5⟩)], [(1, ⟨1⟩)], [], 0, ⟨1, 1, true⟩, none, false, [], fun _ => some 0, fun _ _ => some 0⟩
        [(⟨1, 0⟩, ⟨⟨1, 0⟩, ⟨1, 1⟩⟩)] none).1 = true ∧
    (AnimationManager.instant_layout
        ⟨[(⟨1, 0⟩, ⟨⟨⟨0, 0⟩, ⟨1, 1⟩⟩, none, some 5⟩)], [(1, ⟨1⟩)], [], 0, ⟨1, 1, true⟩, none, false, [], fun _ => some 0, fun _ _ => some 0⟩
        [(⟨1, 0⟩, ⟨⟨1, 0⟩, ⟨1, 1⟩⟩)] none).2.msgs ≠ [] ∧
    (AnimationManager.instant_layout
        ⟨[(⟨1, 0⟩, ⟨⟨⟨0, 0⟩, ⟨1, 1⟩⟩, none, some 5⟩)], [(1, ⟨1⟩)], [], 0, ⟨1, 1, true⟩, none, false, [], fun _ => some 0, fun _ _ => some 0⟩
        [(⟨1, 0⟩, ⟨⟨1, 0⟩, ⟨1, 1⟩⟩)] none).2.mints ≠ [] ∧
    (∀ q ∈ [((⟨1, 0⟩ : WindowId), (⟨⟨1, 0⟩, ⟨1, 1⟩⟩ : CGRect))], ∃ w2,
      lookupA (AnimationManager.instant_layout
        ⟨[(⟨1, 0⟩, ⟨⟨⟨0, 0⟩, ⟨1, 1⟩⟩, none, some 5⟩)], [(1, ⟨1⟩)], [], 0, ⟨1, 1, true⟩, none, false, [], fun _ => some 0, fun _ _ => some 0⟩
        [(⟨1, 0⟩, ⟨⟨1, 0⟩, ⟨1, 1⟩⟩)] none).2.reactor.windows q.1 =
          some w2 ∧ q.2.round.same_as w2.frame_monotonic) ∧
    AnimationManager.instant_layout
        (AnimationManager.instant_layout
          ⟨[(⟨1, 0⟩, ⟨⟨⟨0, 0⟩, ⟨1, 1⟩⟩, none, some 5⟩)], [(1, ⟨1⟩)], [], 0, ⟨1, 1, true⟩, none, false, [], fun _ => some 0, fun _ _ => some 0⟩
          [(⟨1, 0⟩, ⟨⟨1, 0⟩, ⟨1, 1⟩⟩)] none).2.reactor
        [(⟨1, 0⟩, ⟨⟨1, 0⟩, ⟨1, 1⟩⟩)] none =
      (false, ⟨(AnimationManager.instant_layout
          ⟨[(⟨1, 0⟩, ⟨⟨⟨0, 0⟩, ⟨1, 1⟩⟩, none, some 5⟩)], [(1, ⟨1⟩)], [], 0, ⟨1, 1, true⟩, none, false, [], fun _ => some 0, fun _ _ => some 0⟩
          [(⟨1, 0⟩, ⟨⟨1, 0⟩, ⟨1, 1⟩⟩)] none).2.reactor, [], []⟩) := by
  exact instant_layout_idempotent
    ⟨[(⟨1, 0⟩, ⟨⟨⟨0, 0⟩, ⟨1, 1⟩⟩, none, some 5⟩)], [(1, ⟨1⟩)], [], 0, ⟨1, 1, true⟩, none, false, [], fun _ => some 0, fun _ _ => some 0⟩
    [(⟨1, 0⟩, ⟨⟨1, 0⟩, ⟨1, 1⟩⟩)] rfl
    (by intro q hq
        rw [List.mem_singleton] at hq
        subst hq
        exact ⟨⟨⟨⟨0, 0⟩, ⟨1, 1⟩⟩, none, some 5⟩, 5, by simp [lookupA], rfl⟩)
    (by intro q hq
        rw [List.mem_singleton] at hq
        subst hq
        exact ⟨⟨1⟩, by simp [lookupA]⟩)
    (by simp)
    ⟨(⟨1, 0⟩, ⟨⟨1, 0⟩, ⟨1, 1⟩⟩), ⟨⟨⟨0, 0⟩, ⟨1, 1⟩⟩, none, some 5⟩, by simp,
      by simp [lookupA],
      by simp [round_unit2, CGRect.same_as, CGRect.mk.injEq, CGPoint.mk.injEq]⟩

end Rift
